import Mathlib

/-!
# ViscousPenaltyConstMatrixCartesian: constitutive tensor and element assembly

A shallow embedding of
`underworld/libUnderworld/Solvers/Assembly/src/ViscousPenaltyConstMatrixCartesian.c`.

* A C `double` is modelled by an element of an arbitrary commutative ring `α`
  (a linearly ordered field where the code compares or divides), so every
  theorem holds over exact arithmetic, in particular over `ℚ` and `ℝ`.
* A C `double**` is a function `Nat → Nat → α` (`A i j` is `A[i][j]`), a
  `double*` is a function `Nat → α`; `A[i][j] = v` and `A[i][j] += v` are
  `assign` and `addAssign`.
* A `void` function that mutates `self` returns the new `self`.
-/

namespace ViscousPenalty

/-! ## Arrays -/

/-- The assignment `A[i][j] = v` on a `double**`. -/
def assign {α : Type} (A : Nat → Nat → α) (i j : Nat) (v : α) : Nat → Nat → α :=
  fun r c => if r = i ∧ c = j then v else A r c

/-- The compound assignment `A[i][j] += v` on a `double**`. -/
def addAssign {α : Type} [Add α] (A : Nat → Nat → α) (i j : Nat) (v : α) : Nat → Nat → α :=
  assign A i j (A i j + v)

/-- The assignment `s[i] = v` on a `double*`. -/
def assign1 {α : Type} (s : Nat → α) (i : Nat) (v : α) : Nat → α :=
  fun k => if k = i then v else s k

/-- Modelled from the spec: the axis index of `d/dx` in a shape-gradient array
(`I_AXIS` of StGermain, whose header is not among the sources); the gradient
row of a node is `(d/dx, d/dy[, d/dz])`. -/
def I_AXIS : Nat := 0

/-- Modelled from the spec: the axis index of `d/dy` (`J_AXIS` of StGermain). -/
def J_AXIS : Nat := 1

/-- Modelled from the spec: the axis index of `d/dz` (`K_AXIS` of StGermain). -/
def K_AXIS : Nat := 2

/-! ## The constitutive tensor -/

/-- The fields of the C struct `ConstitutiveMatrix` that the functions of this
file read or write: the dimension chosen at construction, the Voigt tensor `D`
(`matrixData`, 3x3 in 2D and 6x6 in 3D), the diagonal flag and the
viscosity-derivative vector `derivs` used by the Newton terms. -/
structure ConstitutiveMatrix (α : Type) where
  dim : Nat
  matrixData : Nat → Nat → α
  isDiagonal : Bool
  derivs : Nat → α

/-- Modelled from the spec: `ConstitutiveMatrix_ZeroMatrix` (its source is not
among the files) "zeroes the whole tensor and marks `isDiagonal = true`". -/
def ConstitutiveMatrix_ZeroMatrix {α : Type} [Zero α] (self : ConstitutiveMatrix α) :
    ConstitutiveMatrix α :=
  { self with matrixData := fun _ _ => 0, isDiagonal := true }

/-- Modelled from the spec: `ConstitutiveMatrix_MultiplyByValue` (its source is
not among the files) "scales D" by the given factor: every entry of the tensor
is multiplied by `factor`, the flag is left as it is. -/
def ConstitutiveMatrix_MultiplyByValue {α : Type} [Mul α] (self : ConstitutiveMatrix α)
    (factor : α) : ConstitutiveMatrix α :=
  { self with matrixData := fun i j => self.matrixData i j * factor }

/-- Source lines 470-484: `_ViscousPenaltyConstMatrixCartesian2D_SetValueInAllEntries`. -/
def _ViscousPenaltyConstMatrixCartesian2D_SetValueInAllEntries {α : Type}
    [LinearOrderedField α] (self : ConstitutiveMatrix α) (value : α) : ConstitutiveMatrix α :=
  if |value| < 1.0e-20 then
    ConstitutiveMatrix_ZeroMatrix self
  else
    let D := self.matrixData
    let D := assign D 0 2 value
    let D := assign D 0 1 value
    let D := assign D 0 0 value
    let D := assign D 1 2 value
    let D := assign D 1 1 value
    let D := assign D 1 0 value
    let D := assign D 2 2 value
    let D := assign D 2 1 value
    let D := assign D 2 0 value
    { self with matrixData := D, isDiagonal := false }

/-- Source lines 486-503: `_ViscousPenaltyConstMatrixCartesian3D_SetValueInAllEntries`. -/
def _ViscousPenaltyConstMatrixCartesian3D_SetValueInAllEntries {α : Type}
    [LinearOrderedField α] (self : ConstitutiveMatrix α) (value : α) : ConstitutiveMatrix α :=
  if |value| < 1.0e-20 then
    ConstitutiveMatrix_ZeroMatrix self
  else
    let D := self.matrixData
    let D := assign D 0 5 value
    let D := assign D 0 4 value
    let D := assign D 0 3 value
    let D := assign D 0 2 value
    let D := assign D 0 1 value
    let D := assign D 0 0 value
    let D := assign D 1 5 value
    let D := assign D 1 4 value
    let D := assign D 1 3 value
    let D := assign D 1 2 value
    let D := assign D 1 1 value
    let D := assign D 1 0 value
    let D := assign D 2 5 value
    let D := assign D 2 4 value
    let D := assign D 2 3 value
    let D := assign D 2 2 value
    let D := assign D 2 1 value
    let D := assign D 2 0 value
    let D := assign D 3 5 value
    let D := assign D 3 4 value
    let D := assign D 3 3 value
    let D := assign D 3 2 value
    let D := assign D 3 1 value
    let D := assign D 3 0 value
    let D := assign D 4 5 value
    let D := assign D 4 4 value
    let D := assign D 4 3 value
    let D := assign D 4 2 value
    let D := assign D 4 1 value
    let D := assign D 4 0 value
    let D := assign D 5 5 value
    let D := assign D 5 4 value
    let D := assign D 5 3 value
    let D := assign D 5 2 value
    let D := assign D 5 1 value
    let D := assign D 5 0 value
    { self with matrixData := D, isDiagonal := false }

/-- Source lines 505-509: `_ViscousPenaltyConstMatrixCartesian2D_GetIsotropicViscosity`. -/
def _ViscousPenaltyConstMatrixCartesian2D_GetIsotropicViscosity {α : Type}
    (self : ConstitutiveMatrix α) : α :=
  self.matrixData 2 2

/-- Source lines 511-515: `_ViscousPenaltyConstMatrixCartesian3D_GetIsotropicViscosity`. -/
def _ViscousPenaltyConstMatrixCartesian3D_GetIsotropicViscosity {α : Type}
    (self : ConstitutiveMatrix α) : α :=
  self.matrixData 3 3

/-- Source lines 517-524: `_ViscousPenaltyConstMatrixCartesian2D_IsotropicCorrection`. -/
def _ViscousPenaltyConstMatrixCartesian2D_IsotropicCorrection {α : Type} [CommRing α]
    (self : ConstitutiveMatrix α) (isotropicCorrection : α) : ConstitutiveMatrix α :=
  let D := self.matrixData
  let D := addAssign D 0 0 (2 * isotropicCorrection)
  let D := addAssign D 1 1 (2 * isotropicCorrection)
  let D := addAssign D 2 2 isotropicCorrection
  { self with matrixData := D }

/-- Source lines 526-537: `_ViscousPenaltyConstMatrixCartesian3D_IsotropicCorrection`. -/
def _ViscousPenaltyConstMatrixCartesian3D_IsotropicCorrection {α : Type} [CommRing α]
    (self : ConstitutiveMatrix α) (isotropicCorrection : α) : ConstitutiveMatrix α :=
  let D := self.matrixData
  let D := addAssign D 0 0 (2 * isotropicCorrection)
  let D := addAssign D 1 1 (2 * isotropicCorrection)
  let D := addAssign D 2 2 (2 * isotropicCorrection)
  let D := addAssign D 3 3 isotropicCorrection
  let D := addAssign D 4 4 isotropicCorrection
  let D := addAssign D 5 5 isotropicCorrection
  { self with matrixData := D }

/-- Source lines 539-555: `_ViscousPenaltyConstMatrixCartesian2D_SetSecondViscosity`. -/
def _ViscousPenaltyConstMatrixCartesian2D_SetSecondViscosity {α : Type} [CommRing α]
    (self : ConstitutiveMatrix α) (deltaViscosity : α) (director : Nat → α) :
    ConstitutiveMatrix α :=
  let D := self.matrixData
  let n1 := director I_AXIS
  let n2 := director J_AXIS
  let a0 := 4 * deltaViscosity * n1 * n1 * n2 * n2
  let a1 := 2 * deltaViscosity * n1 * n2 * (n2 * n2 - n1 * n1)
  let D := addAssign D 0 0 (-a0)
  let D := addAssign D 0 1 a0
  let D := addAssign D 0 2 (-a1)
  let D := addAssign D 1 0 a0
  let D := addAssign D 1 1 (-a0)
  let D := addAssign D 1 2 a1
  let D := addAssign D 2 0 (-a1)
  let D := addAssign D 2 1 a1
  let D := addAssign D 2 2 (a0 - deltaViscosity)
  { self with matrixData := D, isDiagonal := false }

/-- Source lines 557-606: `_ViscousPenaltyConstMatrixCartesian3D_SetSecondViscosity`. -/
def _ViscousPenaltyConstMatrixCartesian3D_SetSecondViscosity {α : Type} [CommRing α]
    (self : ConstitutiveMatrix α) (deltaViscosity : α) (director : Nat → α) :
    ConstitutiveMatrix α :=
  let D := self.matrixData
  let n1 := director I_AXIS
  let n2 := director J_AXIS
  let n3 := director K_AXIS
  let a00 := -4 * n1 * n1 * (1 - n1 * n1) * deltaViscosity
  let a01 := 4 * n1 * n1 * n2 * n2 * deltaViscosity
  let a02 := 4 * n1 * n1 * n3 * n3 * deltaViscosity
  let a03 := 2 * n1 * n2 * (2 * n1 * n1 - 1) * deltaViscosity
  let a04 := 2 * n1 * n3 * (2 * n1 * n1 - 1) * deltaViscosity
  let a05 := 4 * n1 * n1 * n2 * n3 * deltaViscosity
  let a11 := 4 * n2 * n2 * (n2 * n2 - 1) * deltaViscosity
  let a12 := 4 * n2 * n2 * n3 * n3 * deltaViscosity
  let a13 := 2 * n1 * n2 * (2 * n2 * n2 - 1) * deltaViscosity
  let a14 := 4 * n1 * n2 * n2 * n3 * deltaViscosity
  let a15 := 2 * n2 * n3 * (2 * n2 * n2 - 1) * deltaViscosity
  let a22 := 4 * n3 * n3 * (n3 * n3 - 1) * deltaViscosity
  let a23 := 4 * n1 * n2 * n3 * n3 * deltaViscosity
  let a24 := 2 * n1 * n3 * (2 * n3 * n3 - 1) * deltaViscosity
  let a25 := 2 * n2 * n3 * (2 * n3 * n3 - 1) * deltaViscosity
  let a33 := (4 * n1 * n1 * n2 * n2 - n1 * n1 - n2 * n2) * deltaViscosity
  let a34 := (4 * n1 * n1 * n2 * n3 - n2 * n3) * deltaViscosity
  let a35 := (4 * n1 * n2 * n2 * n3 - n1 * n3) * deltaViscosity
  let a44 := (4 * n1 * n1 * n3 * n3 - n1 * n1 - n3 * n3) * deltaViscosity
  let a45 := (4 * n1 * n2 * n3 * n3 - n1 * n2) * deltaViscosity
  let a55 := (4 * n3 * n3 * n2 * n2 - n3 * n3 - n2 * n2) * deltaViscosity
  let D := addAssign D 0 0 a00
  let D := addAssign D 0 1 a01
  let D := addAssign D 0 2 a02
  let D := addAssign D 0 3 a03
  let D := addAssign D 0 4 a04
  let D := addAssign D 0 5 a05
  let D := addAssign D 1 0 a01
  let D := addAssign D 1 1 a11
  let D := addAssign D 1 2 a12
  let D := addAssign D 1 3 a13
  let D := addAssign D 1 4 a14
  let D := addAssign D 1 5 a15
  let D := addAssign D 2 0 a02
  let D := addAssign D 2 1 a12
  let D := addAssign D 2 2 a22
  let D := addAssign D 2 3 a23
  let D := addAssign D 2 4 a24
  let D := addAssign D 2 5 a25
  let D := addAssign D 3 0 a03
  let D := addAssign D 3 1 a13
  let D := addAssign D 3 2 a23
  let D := addAssign D 3 3 a33
  let D := addAssign D 3 4 a34
  let D := addAssign D 3 5 a35
  let D := addAssign D 4 0 a04
  let D := addAssign D 4 1 a14
  let D := addAssign D 4 2 a24
  let D := addAssign D 4 3 a34
  let D := addAssign D 4 4 a44
  let D := addAssign D 4 5 a45
  let D := addAssign D 5 0 a05
  let D := addAssign D 5 1 a15
  let D := addAssign D 5 2 a25
  let D := addAssign D 5 3 a35
  let D := addAssign D 5 4 a45
  let D := addAssign D 5 5 a55
  { self with matrixData := D, isDiagonal := false }

/-- Source lines 612-638: `_ViscousPenaltyConstMatrixCartesian2D_Assemble_D_B`;
the out-parameter `D_B` is passed in and the written buffer returned. -/
def _ViscousPenaltyConstMatrixCartesian2D_Assemble_D_B {α : Type} [CommRing α]
    (self : ConstitutiveMatrix α) (GNx : Nat → Nat → α) (node_I : Nat)
    (D_B : Nat → Nat → α) : Nat → Nat → α :=
  let D := self.matrixData
  let d_dx := GNx I_AXIS node_I
  let d_dy := GNx J_AXIS node_I
  if self.isDiagonal then
    let D_B := assign D_B 0 0 (D 0 0 * d_dx)
    let D_B := assign D_B 0 1 0
    let D_B := assign D_B 1 0 0
    let D_B := assign D_B 1 1 (D 1 1 * d_dy)
    let D_B := assign D_B 2 0 (D 2 2 * d_dy)
    let D_B := assign D_B 2 1 (D 2 2 * d_dx)
    D_B
  else
    let D_B := assign D_B 0 0 (D 0 0 * d_dx + D 0 2 * d_dy)
    let D_B := assign D_B 0 1 (D 0 1 * d_dy + D 0 2 * d_dx)
    let D_B := assign D_B 1 0 (D 1 0 * d_dx + D 1 2 * d_dy)
    let D_B := assign D_B 1 1 (D 1 1 * d_dy + D 1 2 * d_dx)
    let D_B := assign D_B 2 0 (D 2 0 * d_dx + D 2 2 * d_dy)
    let D_B := assign D_B 2 1 (D 2 1 * d_dy + D 2 2 * d_dx)
    D_B

/-- Source lines 649-706: `_ViscousPenaltyConstMatrixCartesian3D_Assemble_D_B`;
the out-parameter `D_B` is passed in and the written buffer returned. -/
def _ViscousPenaltyConstMatrixCartesian3D_Assemble_D_B {α : Type} [CommRing α]
    (self : ConstitutiveMatrix α) (GNx : Nat → Nat → α) (node_I : Nat)
    (D_B : Nat → Nat → α) : Nat → Nat → α :=
  let D := self.matrixData
  let d_dx := GNx I_AXIS node_I
  let d_dy := GNx J_AXIS node_I
  let d_dz := GNx K_AXIS node_I
  if self.isDiagonal then
    let D_B := assign D_B 0 0 (D 0 0 * d_dx)
    let D_B := assign D_B 0 1 0
    let D_B := assign D_B 0 2 0
    let D_B := assign D_B 1 0 0
    let D_B := assign D_B 1 1 (D 1 1 * d_dy)
    let D_B := assign D_B 1 2 0
    let D_B := assign D_B 2 0 0
    let D_B := assign D_B 2 1 0
    let D_B := assign D_B 2 2 (D 2 2 * d_dz)
    let D_B := assign D_B 3 0 (D 3 3 * d_dy)
    let D_B := assign D_B 3 1 (D 3 3 * d_dx)
    let D_B := assign D_B 3 2 0
    let D_B := assign D_B 4 0 (D 4 4 * d_dz)
    let D_B := assign D_B 4 1 0
    let D_B := assign D_B 4 2 (D 4 4 * d_dx)
    let D_B := assign D_B 5 0 0
    let D_B := assign D_B 5 1 (D 5 5 * d_dz)
    let D_B := assign D_B 5 2 (D 5 5 * d_dy)
    D_B
  else
    let D_B := assign D_B 0 0 (D 0 0 * d_dx + D 0 3 * d_dy + D 0 4 * d_dz)
    let D_B := assign D_B 0 1 (D 0 1 * d_dy + D 0 3 * d_dx + D 0 5 * d_dz)
    let D_B := assign D_B 0 2 (D 0 2 * d_dz + D 0 4 * d_dx + D 0 5 * d_dy)
    let D_B := assign D_B 1 0 (D 1 0 * d_dx + D 1 3 * d_dy + D 1 4 * d_dz)
    let D_B := assign D_B 1 1 (D 1 1 * d_dy + D 1 3 * d_dx + D 1 5 * d_dz)
    let D_B := assign D_B 1 2 (D 1 2 * d_dz + D 1 4 * d_dx + D 1 5 * d_dy)
    let D_B := assign D_B 2 0 (D 2 0 * d_dx + D 2 3 * d_dy + D 2 4 * d_dz)
    let D_B := assign D_B 2 1 (D 2 1 * d_dy + D 2 3 * d_dx + D 2 5 * d_dz)
    let D_B := assign D_B 2 2 (D 2 2 * d_dz + D 2 4 * d_dx + D 2 5 * d_dy)
    let D_B := assign D_B 3 0 (D 3 0 * d_dx + D 3 3 * d_dy + D 3 4 * d_dz)
    let D_B := assign D_B 3 1 (D 3 1 * d_dy + D 3 3 * d_dx + D 3 5 * d_dz)
    let D_B := assign D_B 3 2 (D 3 2 * d_dz + D 3 4 * d_dx + D 3 5 * d_dy)
    let D_B := assign D_B 4 0 (D 4 0 * d_dx + D 4 3 * d_dy + D 4 4 * d_dz)
    let D_B := assign D_B 4 1 (D 4 1 * d_dy + D 4 3 * d_dx + D 4 5 * d_dz)
    let D_B := assign D_B 4 2 (D 4 2 * d_dz + D 4 4 * d_dx + D 4 5 * d_dy)
    let D_B := assign D_B 5 0 (D 5 0 * d_dx + D 5 3 * d_dy + D 5 4 * d_dz)
    let D_B := assign D_B 5 1 (D 5 1 * d_dy + D 5 3 * d_dx + D 5 5 * d_dz)
    let D_B := assign D_B 5 2 (D 5 2 * d_dz + D 5 4 * d_dx + D 5 5 * d_dy)
    D_B

/-- Source lines 708-722: `_ViscousPenaltyConstMatrixCartesian2D_CalculateStress`;
the out-parameter `stress` is passed in and the written vector returned. -/
def _ViscousPenaltyConstMatrixCartesian2D_CalculateStress {α : Type} [CommRing α]
    (self : ConstitutiveMatrix α) (strainRate : Nat → α) (stress : Nat → α) : Nat → α :=
  let D := self.matrixData
  if self.isDiagonal then
    let stress := assign1 stress 0 (D 0 0 * strainRate 0)
    let stress := assign1 stress 1 (D 1 1 * strainRate 1)
    let stress := assign1 stress 2 (D 2 2 * 2 * strainRate 2)
    stress
  else
    let stress := assign1 stress 0
      (D 0 0 * strainRate 0 + D 0 1 * strainRate 1 + D 0 2 * 2 * strainRate 2)
    let stress := assign1 stress 1
      (D 1 0 * strainRate 0 + D 1 1 * strainRate 1 + D 1 2 * 2 * strainRate 2)
    let stress := assign1 stress 2
      (D 2 0 * strainRate 0 + D 2 1 * strainRate 1 + D 2 2 * 2 * strainRate 2)
    stress

/-- Source lines 726-757: `_ViscousPenaltyConstMatrixCartesian3D_CalculateStress`;
the out-parameter `stress` is passed in and the written vector returned. -/
def _ViscousPenaltyConstMatrixCartesian3D_CalculateStress {α : Type} [CommRing α]
    (self : ConstitutiveMatrix α) (strainRate : Nat → α) (stress : Nat → α) : Nat → α :=
  let D := self.matrixData
  if self.isDiagonal then
    let stress := assign1 stress 0 (D 0 0 * strainRate 0)
    let stress := assign1 stress 1 (D 1 1 * strainRate 1)
    let stress := assign1 stress 2 (D 2 2 * strainRate 2)
    let stress := assign1 stress 3 (D 3 3 * 2 * strainRate 3)
    let stress := assign1 stress 4 (D 4 4 * 2 * strainRate 4)
    let stress := assign1 stress 5 (D 5 5 * 2 * strainRate 5)
    stress
  else
    let stress := assign1 stress 0
      (D 0 0 * strainRate 0 + D 0 1 * strainRate 1 + D 0 2 * strainRate 2
        + 2 * (D 0 3 * strainRate 3 + D 0 4 * strainRate 4 + D 0 5 * strainRate 5))
    let stress := assign1 stress 1
      (D 1 0 * strainRate 0 + D 1 1 * strainRate 1 + D 1 2 * strainRate 2
        + 2 * (D 1 3 * strainRate 3 + D 1 4 * strainRate 4 + D 1 5 * strainRate 5))
    let stress := assign1 stress 2
      (D 2 0 * strainRate 0 + D 2 1 * strainRate 1 + D 2 2 * strainRate 2
        + 2 * (D 2 3 * strainRate 3 + D 2 4 * strainRate 4 + D 2 5 * strainRate 5))
    let stress := assign1 stress 3
      (D 3 0 * strainRate 0 + D 3 1 * strainRate 1 + D 3 2 * strainRate 2
        + 2 * (D 3 3 * strainRate 3 + D 3 4 * strainRate 4 + D 3 5 * strainRate 5))
    let stress := assign1 stress 4
      (D 4 0 * strainRate 0 + D 4 1 * strainRate 1 + D 4 2 * strainRate 2
        + 2 * (D 4 3 * strainRate 3 + D 4 4 * strainRate 4 + D 4 5 * strainRate 5))
    let stress := assign1 stress 5
      (D 5 0 * strainRate 0 + D 5 1 * strainRate 1 + D 5 2 * strainRate 2
        + 2 * (D 5 3 * strainRate 3 + D 5 4 * strainRate 4 + D 5 5 * strainRate 5))
    stress

/-- The dispatch of `ConstitutiveMatrix_Assemble_D_B` through the function
pointer `_assemble_D_B`, which `_ViscousPenaltyConstMatrixCartesian_Init`
(source lines 77-91) sets to the 2D variant when `self->dim == 2` and to the
3D variant otherwise. -/
def ConstitutiveMatrix_Assemble_D_B {α : Type} [CommRing α]
    (self : ConstitutiveMatrix α) (GNx : Nat → Nat → α) (node_I : Nat)
    (D_B : Nat → Nat → α) : Nat → Nat → α :=
  if self.dim = 2 then
    _ViscousPenaltyConstMatrixCartesian2D_Assemble_D_B self GNx node_I D_B
  else
    _ViscousPenaltyConstMatrixCartesian3D_Assemble_D_B self GNx node_I D_B

/-! ## Element assembly -/

/-- The fields of `SystemLinearEquations` that `AssembleElement` reads. -/
structure SystemLinearEquations where
  nlFormJacobian : Bool
  hasExecuted : Bool
  nonLinearIteration_I : Nat

/-- One quadrature point of the element together with what the external
collaborators return for it inside the quadrature loop: `weight` is
`particle->weight`; `detJac` and `GNx` are the outputs of
`ElementType_ShapeFunctionsGlobalDerivs` at `particle->xi`; `velDerivs` is the
output of `FeVariable_InterpolateDerivatives_WithGNx`; `matrixData`,
`isDiagonal` and `derivs` are the tensor, the flag and the viscosity
derivatives that `ConstitutiveMatrix_Assemble` leaves in the object for this
point. -/
structure IntegrationPoint (α : Type) where
  weight : α
  detJac : α
  GNx : Nat → Nat → α
  velDerivs : Nat → α
  matrixData : Nat → Nat → α
  isDiagonal : Bool
  derivs : Nat → α

/-- Modelled from the spec: `ConstitutiveMatrix_Assemble` (not among the
sources) asks the rheology collaborator to "populate D" for the point; what it
leaves in the object is an input of the model, carried by the point. The
dimension, fixed at construction, is kept. -/
def ConstitutiveMatrix_Assemble {α : Type} (self : ConstitutiveMatrix α)
    (particle : IntegrationPoint α) : ConstitutiveMatrix α :=
  { self with
    matrixData := particle.matrixData
    isDiagonal := particle.isDiagonal
    derivs := particle.derivs }

/-- What the mesh and the swarm supply for one element: `nodeCount` is
`elementType->nodeCount`, `particles` the points of the element's cell in the
order of `Swarm_ParticleInCellAt`, and `detJac0`, `GN0x` the outputs of
`ElementType_ShapeFunctionsGlobalDerivs` at the local coordinate `origin`. -/
structure Element (α : Type) where
  nodeCount : Nat
  particles : List (IntegrationPoint α)
  detJac0 : α
  GN0x : Nat → Nat → α

/-- The C struct `ViscousPenaltyConstMatrixCartesian`: a `ConstitutiveMatrix`
with the penalty configuration and the scratch buffers `Dtilda_B` and `Ni`. -/
structure ViscousPenaltyConstMatrixCartesian (α : Type) extends ConstitutiveMatrix α where
  incompressibility_Penalty : α
  viscosityWeighting : Bool
  Dtilda_B : Nat → Nat → α
  Ni : Nat → α

/-- Source lines 325-393: the body of the loop over `colNode_I`, the block
"Build BTrans * ( D~ * B )". `self` holds the scaled tensor and the buffer
`Dtilda_B` written for `rowNode_I`; `eta` is the value read at line 310. -/
def AssembleElement_colNodeBody {α : Type} [CommRing α] (dim : Nat)
    (sle : SystemLinearEquations) (self : ViscousPenaltyConstMatrixCartesian α)
    (particle : IntegrationPoint α) (eta : α) (rowNode_I : Nat)
    (elStiffMat : Nat → Nat → α) (colNode_I : Nat) : Nat → Nat → α :=
  let GNx := particle.GNx
  let detJac := particle.detJac
  let velDerivs := particle.velDerivs
  let Ni := self.Ni
  let Dtilda_B := self.Dtilda_B
  let nodeDofCount := dim
  let rowNodeDof_I := rowNode_I * nodeDofCount
  let Bj_x := GNx I_AXIS rowNode_I
  let Bj_y := GNx J_AXIS rowNode_I
  let colNodeDof_I := colNode_I * nodeDofCount
  let Bi_x := GNx I_AXIS colNode_I
  let Bi_y := GNx J_AXIS colNode_I
  if dim = 2 then
    if !sle.nlFormJacobian then
      let elStiffMat := addAssign elStiffMat colNodeDof_I rowNodeDof_I
        (Bi_x * Dtilda_B 0 0 + Bi_y * Dtilda_B 2 0)
      let elStiffMat := addAssign elStiffMat colNodeDof_I (rowNodeDof_I + 1)
        (Bi_x * Dtilda_B 0 1 + Bi_y * Dtilda_B 2 1)
      let elStiffMat := addAssign elStiffMat (colNodeDof_I + 1) rowNodeDof_I
        (Bi_y * Dtilda_B 1 0 + Bi_x * Dtilda_B 2 0)
      let elStiffMat := addAssign elStiffMat (colNodeDof_I + 1) (rowNodeDof_I + 1)
        (Bi_y * Dtilda_B 1 1 + Bi_x * Dtilda_B 2 1)
      elStiffMat
    else
      let DuDx := velDerivs 0
      let DuDy := velDerivs 1
      let DvDx := velDerivs 2
      let DvDy := velDerivs 3
      let DetaDu := self.derivs 0 * Bj_x + self.derivs 1 * Bj_y + self.derivs 2 * Ni rowNode_I
      let DetaDv := self.derivs 3 * Bj_x + self.derivs 4 * Bj_y + self.derivs 5 * Ni rowNode_I
      let intFac := particle.weight * detJac
      let fac := eta * Bj_y + DuDy * DetaDu + DvDx * DetaDu
      let elStiffMat := addAssign elStiffMat colNodeDof_I rowNodeDof_I
        (intFac * (2 * Bi_x * (eta * Bj_x + DuDx * DetaDu) + Bi_y * fac))
      let elStiffMat := addAssign elStiffMat (colNodeDof_I + 1) rowNodeDof_I
        (intFac * (2 * Bi_y * DvDy * DetaDu + Bi_x * fac))
      let fac := eta * Bj_x + DvDx * DetaDv + DuDy * DetaDv
      let elStiffMat := addAssign elStiffMat colNodeDof_I (rowNodeDof_I + 1)
        (intFac * (2 * Bi_x * DuDx * DetaDv + Bi_y * fac))
      let elStiffMat := addAssign elStiffMat (colNodeDof_I + 1) (rowNodeDof_I + 1)
        (intFac * (2 * Bi_y * (eta * Bj_y + DvDy * DetaDv) + Bi_x * fac))
      elStiffMat
  else
    let Bi_z := GNx K_AXIS colNode_I
    let elStiffMat := addAssign elStiffMat colNodeDof_I rowNodeDof_I
      (Bi_x * Dtilda_B 0 0 + Bi_y * Dtilda_B 3 0 + Bi_z * Dtilda_B 4 0)
    let elStiffMat := addAssign elStiffMat colNodeDof_I (rowNodeDof_I + 1)
      (Bi_x * Dtilda_B 0 1 + Bi_y * Dtilda_B 3 1 + Bi_z * Dtilda_B 4 1)
    let elStiffMat := addAssign elStiffMat colNodeDof_I (rowNodeDof_I + 2)
      (Bi_x * Dtilda_B 0 2 + Bi_y * Dtilda_B 3 2 + Bi_z * Dtilda_B 4 2)
    let elStiffMat := addAssign elStiffMat (colNodeDof_I + 1) rowNodeDof_I
      (Bi_y * Dtilda_B 1 0 + Bi_x * Dtilda_B 3 0 + Bi_z * Dtilda_B 5 0)
    let elStiffMat := addAssign elStiffMat (colNodeDof_I + 1) (rowNodeDof_I + 1)
      (Bi_y * Dtilda_B 1 1 + Bi_x * Dtilda_B 3 1 + Bi_z * Dtilda_B 5 1)
    let elStiffMat := addAssign elStiffMat (colNodeDof_I + 1) (rowNodeDof_I + 2)
      (Bi_y * Dtilda_B 1 2 + Bi_x * Dtilda_B 3 2 + Bi_z * Dtilda_B 5 2)
    let elStiffMat := addAssign elStiffMat (colNodeDof_I + 2) rowNodeDof_I
      (Bi_z * Dtilda_B 2 0 + Bi_x * Dtilda_B 4 0 + Bi_y * Dtilda_B 5 0)
    let elStiffMat := addAssign elStiffMat (colNodeDof_I + 2) (rowNodeDof_I + 1)
      (Bi_z * Dtilda_B 2 1 + Bi_x * Dtilda_B 4 1 + Bi_y * Dtilda_B 5 1)
    let elStiffMat := addAssign elStiffMat (colNodeDof_I + 2) (rowNodeDof_I + 2)
      (Bi_z * Dtilda_B 2 2 + Bi_x * Dtilda_B 4 2 + Bi_y * Dtilda_B 5 2)
    elStiffMat

/-- Source lines 317-394: the body of the loop over `rowNode_I`: "Build D~ * B"
into the scratch buffer, then the loop over `colNode_I`. The state is the
object (whose `Dtilda_B` is rewritten) and the local stiffness matrix. -/
def AssembleElement_rowNodeBody {α : Type} [CommRing α] (dim : Nat)
    (sle : SystemLinearEquations) (elementNodeCount : Nat)
    (particle : IntegrationPoint α) (eta : α)
    (st : ViscousPenaltyConstMatrixCartesian α × (Nat → Nat → α)) (rowNode_I : Nat) :
    ViscousPenaltyConstMatrixCartesian α × (Nat → Nat → α) :=
  let self := st.1
  let self := { self with
    Dtilda_B := ConstitutiveMatrix_Assemble_D_B self.toConstitutiveMatrix particle.GNx
      rowNode_I self.Dtilda_B }
  (self, (List.range elementNodeCount).foldl
    (AssembleElement_colNodeBody dim sle self particle eta rowNode_I) st.2)

/-- The state carried through the quadrature loop of `AssembleElement`. -/
structure QuadratureState (α : Type) where
  self : ViscousPenaltyConstMatrixCartesian α
  elStiffMat : Nat → Nat → α
  averaged_eta : α
  total_weight : α

/-- Source lines 284-395: the body of the loop over the particles of the cell.
`log` is the C library logarithm. The velocity interpolation of lines 296-303
fills `vel` (never read) and `velDerivs` (a field of the point). -/
def AssembleElement_particleBody {α : Type} [CommRing α] (log : α → α) (dim : Nat)
    (sle : SystemLinearEquations) (elementNodeCount : Nat)
    (st : QuadratureState α) (particle : IntegrationPoint α) : QuadratureState α :=
  let self := { st.self with
    toConstitutiveMatrix := ConstitutiveMatrix_Assemble st.self.toConstitutiveMatrix particle }
  let eta := self.matrixData 2 2
  let averaged_eta := st.averaged_eta + particle.weight * log eta
  let total_weight := st.total_weight + particle.weight
  let self := { self with
    toConstitutiveMatrix :=
      ConstitutiveMatrix_MultiplyByValue self.toConstitutiveMatrix
        (particle.detJac * particle.weight) }
  let res := (List.range elementNodeCount).foldl
    (AssembleElement_rowNodeBody dim sle elementNodeCount particle eta) (self, st.elStiffMat)
  { self := res.1, elStiffMat := res.2,
    averaged_eta := averaged_eta, total_weight := total_weight }

/-- Source lines 435-461: the body of the loop over `colNode_I` of the penalty
term; `detJac` and `GN0x` are the values at the element centre. -/
def AssembleElement_penaltyColNodeBody {α : Type} [CommRing α] (dim : Nat)
    (incompressibility_Penalty detJac averaged_eta : α) (GN0x : Nat → Nat → α)
    (rowNode_I : Nat) (elStiffMat : Nat → Nat → α) (colNode_I : Nat) : Nat → Nat → α :=
  let nodeDofCount := dim
  let rowNodeDof_I := rowNode_I * nodeDofCount
  let B0j_x := GN0x I_AXIS rowNode_I
  let B0j_y := GN0x J_AXIS rowNode_I
  let colNodeDof_I := colNode_I * nodeDofCount
  let B0i_x := GN0x I_AXIS colNode_I
  let B0i_y := GN0x J_AXIS colNode_I
  if 2 = dim then
    let elStiffMat := addAssign elStiffMat colNodeDof_I rowNodeDof_I
      (incompressibility_Penalty * detJac * averaged_eta * B0i_x * B0j_x)
    let elStiffMat := addAssign elStiffMat colNodeDof_I (rowNodeDof_I + 1)
      (incompressibility_Penalty * detJac * averaged_eta * B0i_x * B0j_y)
    let elStiffMat := addAssign elStiffMat (colNodeDof_I + 1) rowNodeDof_I
      (incompressibility_Penalty * detJac * averaged_eta * B0i_y * B0j_x)
    let elStiffMat := addAssign elStiffMat (colNodeDof_I + 1) (rowNodeDof_I + 1)
      (incompressibility_Penalty * detJac * averaged_eta * B0i_y * B0j_y)
    elStiffMat
  else
    let B0i_z := GN0x K_AXIS colNode_I
    let B0j_z := GN0x K_AXIS rowNode_I
    let elStiffMat := addAssign elStiffMat colNodeDof_I rowNodeDof_I
      (incompressibility_Penalty * detJac * averaged_eta * B0j_x * B0i_x)
    let elStiffMat := addAssign elStiffMat colNodeDof_I (rowNodeDof_I + 1)
      (incompressibility_Penalty * detJac * averaged_eta * B0j_y * B0i_x)
    let elStiffMat := addAssign elStiffMat colNodeDof_I (rowNodeDof_I + 2)
      (incompressibility_Penalty * detJac * averaged_eta * B0j_z * B0i_x)
    let elStiffMat := addAssign elStiffMat (colNodeDof_I + 1) rowNodeDof_I
      (incompressibility_Penalty * detJac * averaged_eta * B0j_x * B0i_y)
    let elStiffMat := addAssign elStiffMat (colNodeDof_I + 1) (rowNodeDof_I + 1)
      (incompressibility_Penalty * detJac * averaged_eta * B0j_y * B0i_y)
    let elStiffMat := addAssign elStiffMat (colNodeDof_I + 1) (rowNodeDof_I + 2)
      (incompressibility_Penalty * detJac * averaged_eta * B0j_z * B0i_y)
    let elStiffMat := addAssign elStiffMat (colNodeDof_I + 2) rowNodeDof_I
      (incompressibility_Penalty * detJac * averaged_eta * B0j_x * B0i_z)
    let elStiffMat := addAssign elStiffMat (colNodeDof_I + 2) (rowNodeDof_I + 1)
      (incompressibility_Penalty * detJac * averaged_eta * B0j_y * B0i_z)
    let elStiffMat := addAssign elStiffMat (colNodeDof_I + 2) (rowNodeDof_I + 2)
      (incompressibility_Penalty * detJac * averaged_eta * B0j_z * B0i_z)
    elStiffMat

/-- Source lines 422-425: "now get the average viscosity". `exp` is the C
library exponential; `averaged_eta` on entry is the weighted sum of logarithms
accumulated by the quadrature loop. The quotient is the division of the field,
which is total; `AssembleElement_penaltyTermChecked` is the same step with a
zero divisor made visible. -/
def AssembleElement_averagedEta {α : Type} [Field α] (exp : α → α)
    (viscosityWeighting : Bool) (averaged_eta total_weight : α) : α :=
  if viscosityWeighting then
    total_weight * exp (averaged_eta / total_weight)
  else
    1

/-- Source lines 411-466: the penalty term added after the quadrature loop. -/
def AssembleElement_penaltyTerm {α : Type} [Field α] [DecidableEq α] (exp : α → α)
    (dim : Nat) (elementNodeCount : Nat) (self : ViscousPenaltyConstMatrixCartesian α)
    (detJac : α) (GN0x : Nat → Nat → α) (averaged_eta total_weight : α)
    (elStiffMat : Nat → Nat → α) : Nat → Nat → α :=
  if self.incompressibility_Penalty ≠ 0 then
    let averaged_eta :=
      AssembleElement_averagedEta exp self.viscosityWeighting averaged_eta total_weight
    (List.range elementNodeCount).foldl
      (fun elStiffMat rowNode_I =>
        (List.range elementNodeCount).foldl
          (AssembleElement_penaltyColNodeBody dim self.incompressibility_Penalty detJac
            averaged_eta GN0x rowNode_I) elStiffMat)
      elStiffMat
  else
    elStiffMat

/-- Modelled from the spec: `Journal_Firewall` (StGermain, not among the
sources). A false condition is an integration error on which the operation
must "fail fast (abort with diagnostic)": the call ends with the message as
its error; a true condition lets the caller go on. -/
def Journal_Firewall (condition : Bool) (message : String) : Except String Unit :=
  if condition then Except.ok () else Except.error message

/-- Source lines 188-468: `_ViscousPenaltyConstMatrixCartesian_AssembleElement`.
`dim` is `stiffnessMatrix->dim`; `sle` is `none` for a NULL pointer, tested by
the `Journal_Firewall` of line 258, the first statement that looks at `sle`
and one that precedes every write to `elStiffMat`; a read of a field of a NULL
`sle` after it would be an error of its own. `log` and `exp` are the C library
functions. The result is the local stiffness matrix `elStiffMat` after the
call. The bookkeeping writes to `self->sle`, `previousSolutionExists`,
`sleNonLinearIteration_I` and `max_nElNodes`, and the diagnostic printing of
lines 406-409, touch nothing the matrix depends on and are left out. -/
def _ViscousPenaltyConstMatrixCartesian_AssembleElement {α : Type} [Field α]
    [DecidableEq α] (log exp : α → α) (self : ViscousPenaltyConstMatrixCartesian α)
    (dim : Nat) (element : Element α) (sle : Option SystemLinearEquations)
    (elStiffMat : Nat → Nat → α) : Except String (Nat → Nat → α) :=
  (Journal_Firewall sle.isSome
      "In func _ViscousPenaltyConstMatrixCartesian_AssembleElement: SLE is NULL.").bind
    fun _ =>
      match sle with
      | none => Except.error "sle is NULL where sle->nlFormJacobian is read"
      | some sle =>
        let elementNodeCount := element.nodeCount
        let st := element.particles.foldl
          (AssembleElement_particleBody log dim sle elementNodeCount)
          { self := self, elStiffMat := elStiffMat, averaged_eta := 0, total_weight := 0 }
        Except.ok (AssembleElement_penaltyTerm exp dim elementNodeCount st.self
          element.detJac0 element.GN0x st.averaged_eta st.total_weight st.elStiffMat)

/-! ## Specification-side notions -/

/-- The leading `n x m` block of a C array, read as a matrix. -/
def toMatrix {α : Type} (n m : Nat) (A : Nat → Nat → α) : Matrix (Fin n) (Fin m) α :=
  fun i j => A i.val j.val

/-- The first `n` entries of a C vector, read as a column vector. -/
def toVector {α : Type} (n : Nat) (s : Nat → α) : Fin n → α :=
  fun i => s i.val

/-- The 2D Voigt strain-displacement operator of spec section 4.2:
row0 = (d/dx, 0), row1 = (0, d/dy), row2 = (d/dy, d/dx). -/
def spec_B2D {α : Type} [Zero α] (d_dx d_dy : α) : Matrix (Fin 3) (Fin 2) α :=
  !![d_dx, 0; 0, d_dy; d_dy, d_dx]

/-- The 3D Voigt strain-displacement operator of spec section 4.2:
row0 = (d/dx,0,0), row1 = (0,d/dy,0), row2 = (0,0,d/dz), row3 = (d/dy,d/dx,0),
row4 = (d/dz,0,d/dx), row5 = (0,d/dz,d/dy). -/
def spec_B3D {α : Type} [Zero α] (d_dx d_dy d_dz : α) : Matrix (Fin 6) (Fin 3) α :=
  !![d_dx, 0, 0; 0, d_dy, 0; 0, 0, d_dz; d_dy, d_dx, 0; d_dz, 0, d_dx; 0, d_dz, d_dy]

/-- The operator `B(node)` of a node in 2D, from its row of the gradient array. -/
def spec_nodeB2D {α : Type} [Zero α] (GNx : Nat → Nat → α) (node_I : Nat) :
    Matrix (Fin 3) (Fin 2) α :=
  spec_B2D (GNx 0 node_I) (GNx 1 node_I)

/-- The operator `B(node)` of a node in 3D, from its row of the gradient array. -/
def spec_nodeB3D {α : Type} [Zero α] (GNx : Nat → Nat → α) (node_I : Nat) :
    Matrix (Fin 6) (Fin 3) α :=
  spec_B3D (GNx 0 node_I) (GNx 1 node_I) (GNx 2 node_I)

/-- Every off-diagonal entry of the leading `n x n` block of `D` is zero. -/
def offDiagonalZero {α : Type} [Zero α] (n : Nat) (D : Nat → Nat → α) : Prop :=
  ∀ i, i < n → ∀ j, j < n → i ≠ j → D i j = 0

/-- The leading `n x n` block of `D` is symmetric. -/
def isSymmetric {α : Type} (n : Nat) (D : Nat → Nat → α) : Prop :=
  ∀ i, i < n → ∀ j, j < n → D i j = D j i

/-- The coefficient `a0 = 4*deltaViscosity*n1^2*n2^2` of spec section 4.1. -/
def spec_a0 {α : Type} [CommRing α] (deltaViscosity n1 n2 : α) : α :=
  4 * deltaViscosity * n1 ^ 2 * n2 ^ 2

/-- The coefficient `a1 = 2*deltaViscosity*n1*n2*(n2^2 - n1^2)` of spec section 4.1. -/
def spec_a1 {α : Type} [CommRing α] (deltaViscosity n1 n2 : α) : α :=
  2 * deltaViscosity * n1 * n2 * (n2 ^ 2 - n1 ^ 2)

/-- The tensor flag tells the truth: `isDiagonal` is set only when every
off-diagonal entry of the leading `n x n` block is zero. -/
def flagTruthful {α : Type} [Zero α] (n : Nat) (isDiagonal : Bool) (D : Nat → Nat → α) :
    Prop :=
  isDiagonal = true → offDiagonalZero n D

/-- The tensor of a point after the scaling of source line 315,
`ConstitutiveMatrix_MultiplyByValue( constitutiveMatrix, detJac * particle->weight )`. -/
def scaledTensor {α : Type} [Mul α] (particle : IntegrationPoint α) : Nat → Nat → α :=
  fun i j => particle.matrixData i j * (particle.detJac * particle.weight)

/-- Source lines 411-423: the operands `(averaged_eta, total_weight)` of the
division of line 423 when control reaches it, `none` when it does not. The
division is executed exactly when `incompressibility_Penalty != 0.0` (line 411)
and `viscosityWeighting` (line 422) hold; the source has no other test on the
way, in particular none on `total_weight`. These are the operands of the
division taken by `AssembleElement_penaltyTermChecked`. -/
def AssembleElement_averagingDivision {α : Type} [Zero α] [DecidableEq α]
    (self : ViscousPenaltyConstMatrixCartesian α) (averaged_eta total_weight : α) :
    Option (α × α) :=
  if self.incompressibility_Penalty ≠ 0 then
    if self.viscosityWeighting then
      some (averaged_eta, total_weight)
    else
      none
  else
    none

/-- The state of the quadrature loop of `AssembleElement` when it ends (source
line 395), started at line 284 with both accumulators zero. -/
def AssembleElement_quadratureLoop {α : Type} [CommRing α] (log : α → α)
    (self : ViscousPenaltyConstMatrixCartesian α) (dim : Nat) (element : Element α)
    (sle : SystemLinearEquations) (elStiffMat : Nat → Nat → α) : QuadratureState α :=
  element.particles.foldl
    (AssembleElement_particleBody log dim sle element.nodeCount)
    { self := self, elStiffMat := elStiffMat, averaged_eta := 0, total_weight := 0 }

/-- The sum of the quadrature weights of a list of points. -/
def totalWeight {α : Type} [AddMonoid α] (particles : List (IntegrationPoint α)) : α :=
  (particles.map (fun p => p.weight)).sum

/-- The weighted sum of the logarithms of the viscosities read at source line
310, `eta = self->matrixData[2][2]`. -/
def logSum {α : Type} [AddMonoid α] [Mul α] (log : α → α)
    (particles : List (IntegrationPoint α)) : α :=
  (particles.map (fun p => p.weight * log (p.matrixData 2 2))).sum

/-! ## Concrete inputs -/

/-- A full tensor over the integers, `D[i][j] = 7 i + j + 1`, flagged non-diagonal. -/
def sampleFullTensor : ConstitutiveMatrix ℤ :=
  { dim := 3, matrixData := fun i j => 7 * (i : ℤ) + (j : ℤ) + 1, isDiagonal := false,
    derivs := fun _ => 0 }

/-- The diagonal tensor `diag(2, 3, 4, 5, 6, 7)` over the integers, flagged diagonal. -/
def sampleDiagonalTensor : ConstitutiveMatrix ℤ :=
  { dim := 3, matrixData := fun i j => if i = j then (i : ℤ) + 2 else 0, isDiagonal := true,
    derivs := fun _ => 0 }

/-- A symmetric full tensor over the rationals, `D[i][j] = i + j + i j`. -/
def sampleSymmetricTensor : ConstitutiveMatrix ℚ :=
  { dim := 3, matrixData := fun i j => (i : ℚ) + (j : ℚ) + (i : ℚ) * (j : ℚ),
    isDiagonal := false, derivs := fun _ => 0 }

/-- The zero tensor over the integers. -/
def sampleZeroTensor : ConstitutiveMatrix ℤ :=
  { dim := 3, matrixData := fun _ _ => 0, isDiagonal := true, derivs := fun _ => 0 }

/-- A gradient array over the integers, `GNx[axis][node] = 3 axis + node + 1`. -/
def sampleGNx : Nat → Nat → ℤ := fun axis node => 3 * (axis : ℤ) + (node : ℤ) + 1

/-- The strain-rate vector `(1, 2, 3, 4, 5, 6)`. -/
def sampleStrainRate : Nat → ℤ := fun k => (k : ℤ) + 1

/-- The director `(1, 2, 3)`, not of unit length. -/
def sampleDirector : Nat → ℤ := fun k => (k : ℤ) + 1

/-- A solve state in Picard mode. -/
def samplePicard : SystemLinearEquations :=
  { nlFormJacobian := false, hasExecuted := false, nonLinearIteration_I := 0 }

/-- An object over the integers whose 2D tensor has every entry 1 but is flagged
diagonal (a stale flag). -/
def sampleStaleObject : ViscousPenaltyConstMatrixCartesian ℤ :=
  { dim := 2, matrixData := fun _ _ => 1, isDiagonal := true, derivs := fun _ => 0,
    incompressibility_Penalty := 0, viscosityWeighting := true,
    Dtilda_B := fun _ _ => 0, Ni := fun _ => 0 }

/-- An object over the integers carrying the full tensor `D[i][j] = 7 i + j + 1`,
flagged non-diagonal, for the given dimension. -/
def sampleFullObject (dim : Nat) : ViscousPenaltyConstMatrixCartesian ℤ :=
  { dim := dim, matrixData := fun i j => 7 * (i : ℤ) + (j : ℤ) + 1, isDiagonal := false,
    derivs := fun _ => 0, incompressibility_Penalty := 0, viscosityWeighting := true,
    Dtilda_B := fun _ _ => 0, Ni := fun _ => 0 }

/-- A point of weight 1 and `detJac` 1 whose gradients are all 1. -/
def sampleUnitPoint : IntegrationPoint ℤ :=
  { weight := 1, detJac := 1, GNx := fun _ _ => 1, velDerivs := fun _ => 0,
    matrixData := fun _ _ => 1, isDiagonal := true, derivs := fun _ => 0 }

/-- The shape-function gradients of the bilinear four-node element on the
unit square at the local coordinate `(xi, eta)`. -/
def sampleQ1GNx (xi eta : ℚ) : Nat → Nat → ℚ :=
  fun axis node =>
    if axis = 0 then
      (if node % 2 = 0 then -1 else 1) * (1 + eta * (if node / 2 = 0 then -1 else 1)) / 2
    else
      (if node / 2 = 0 then -1 else 1) * (1 + xi * (if node % 2 = 0 then -1 else 1)) / 2

/-- A point of weight 1 at `(xi, eta)` of the unit-square element carrying the
isotropic tensor of viscosity 2, built by `IsotropicCorrection(2)` on a zero
tensor. -/
def sampleIsotropicPoint (xi eta : ℚ) : IntegrationPoint ℚ :=
  { weight := 1, detJac := 1 / 4, GNx := sampleQ1GNx xi eta, velDerivs := fun _ => 0,
    matrixData :=
      (_ViscousPenaltyConstMatrixCartesian2D_IsotropicCorrection
        ({ dim := 2, matrixData := fun _ _ => 0, isDiagonal := true, derivs := fun _ => 0 } :
          ConstitutiveMatrix ℚ) 2).matrixData,
    isDiagonal := true, derivs := fun _ => 0 }

/-- The unit-square four-node element with four points at `(+-1/2, +-1/2)`. -/
def sampleElement : Element ℚ :=
  { nodeCount := 4,
    particles := [sampleIsotropicPoint (-1 / 2) (-1 / 2), sampleIsotropicPoint (1 / 2) (-1 / 2),
      sampleIsotropicPoint (-1 / 2) (1 / 2), sampleIsotropicPoint (1 / 2) (1 / 2)],
    detJac0 := 1 / 4, GN0x := sampleQ1GNx 0 0 }

/-- A 2D object over the rationals with penalty coefficient 0. -/
def sampleObject2D : ViscousPenaltyConstMatrixCartesian ℚ :=
  { dim := 2, matrixData := fun _ _ => 0, isDiagonal := true, derivs := fun _ => 0,
    incompressibility_Penalty := 0, viscosityWeighting := true,
    Dtilda_B := fun _ _ => 0, Ni := fun _ => 0 }

/-- The shape-function gradients of the bilinear four-node element on the unit
square at its centre, over any field. -/
def sampleCentroidGNx {α : Type} [Field α] : Nat → Nat → α :=
  fun axis node =>
    if axis = 0 then (if node % 2 = 0 then -1 else 1) / 2
    else (if node / 2 = 0 then -1 else 1) / 2

/-- A 2D point of the given weight carrying the isotropic tensor
`diag(2 eta, 2 eta, eta)`, flagged diagonal. -/
def sampleUniformPoint {α : Type} [Field α] (weight eta : α) : IntegrationPoint α :=
  { weight := weight, detJac := 1 / 4, GNx := sampleCentroidGNx, velDerivs := fun _ => 0,
    matrixData := fun i j => if i = j then (if i < 2 then 2 * eta else eta) else 0,
    isDiagonal := true, derivs := fun _ => 0 }

/-- The unit-square four-node element with one point of viscosity `eta` for
each of the given weights. -/
def sampleUniformElement {α : Type} [Field α] (weights : List α) (eta : α) : Element α :=
  { nodeCount := 4, particles := weights.map (fun w => sampleUniformPoint w eta),
    detJac0 := 1 / 4, GN0x := sampleCentroidGNx }

/-- An object of the given dimension, penalty coefficient and weighting flag. -/
def samplePenaltyObject {α : Type} [Field α] (dim : Nat) (penalty : α)
    (viscosityWeighting : Bool) : ViscousPenaltyConstMatrixCartesian α :=
  { dim := dim, matrixData := fun _ _ => 0, isDiagonal := true, derivs := fun _ => 0,
    incompressibility_Penalty := penalty, viscosityWeighting := viscosityWeighting,
    Dtilda_B := fun _ _ => 0, Ni := fun _ => 0 }

/-- A solve state in Newton mode. -/
def sampleNewton : SystemLinearEquations :=
  { nlFormJacobian := true, hasExecuted := true, nonLinearIteration_I := 1 }

/-- A 3D point of weight 1 and `detJac` 1 whose gradients are all 1, carrying
the isotropic tensor `diag(2, 2, 2, 1, 1, 1)`, flagged diagonal, with velocity
derivatives and viscosity derivatives all 1. -/
def samplePoint3D : IntegrationPoint ℚ :=
  { weight := 1, detJac := 1, GNx := fun _ _ => 1, velDerivs := fun _ => 1,
    matrixData := fun i j => if i = j then (if i < 3 then 2 else 1) else 0,
    isDiagonal := true, derivs := fun _ => 1 }

/-- A 3D element with one node and the one point `samplePoint3D`. -/
def sampleElement3D : Element ℚ :=
  { nodeCount := 1, particles := [samplePoint3D], detJac0 := 1, GN0x := fun _ _ => 1 }

/-- The entries of the scratch buffer that `ConstitutiveMatrix_Assemble_D_B`
writes for an object of dimension `dim`: the 3 x 2 block in 2D, the 6 x 3 block
otherwise. -/
def Dtilda_B_written (dim r c : Nat) : Prop :=
  if dim = 2 then r < 3 ∧ c < 2 else r < 6 ∧ c < 3

/-- Two objects that differ at most in the tensor left by the last point
(`matrixData`, `isDiagonal`, `derivs`) and in the written block of the scratch
buffer. -/
def sameFrame {α : Type} (s t : ViscousPenaltyConstMatrixCartesian α) : Prop :=
  s.dim = t.dim ∧ s.Ni = t.Ni
    ∧ s.incompressibility_Penalty = t.incompressibility_Penalty
    ∧ s.viscosityWeighting = t.viscosityWeighting
    ∧ ∀ r c, ¬ Dtilda_B_written s.dim r c → s.Dtilda_B r c = t.Dtilda_B r c

/-- Two states of the quadrature loop with the same matrix and accumulators,
whose objects have the same frame. -/
def stateEquiv {α : Type} (st su : QuadratureState α) : Prop :=
  sameFrame st.self su.self ∧ st.elStiffMat = su.elStiffMat
    ∧ st.averaged_eta = su.averaged_eta ∧ st.total_weight = su.total_weight

/-- What one point adds to the local stiffness matrix: the body of the
quadrature loop run on a zero matrix. -/
def AssembleElement_particleContribution {α : Type} [CommRing α] (log : α → α) (dim : Nat)
    (sle : SystemLinearEquations) (elementNodeCount : Nat)
    (self : ViscousPenaltyConstMatrixCartesian α) (particle : IntegrationPoint α) :
    Nat → Nat → α :=
  (AssembleElement_particleBody log dim sle elementNodeCount
    { self := self, elStiffMat := 0, averaged_eta := 0, total_weight := 0 } particle).elStiffMat

/-- The matrix `C` that the 2D `SetSecondViscosity` adds to `D`: the tensor
after the call minus the tensor before it. -/
def spec_correction2D {α : Type} [CommRing α] (self : ConstitutiveMatrix α)
    (deltaViscosity : α) (director : Nat → α) : Nat → Nat → α :=
  fun i j =>
    (_ViscousPenaltyConstMatrixCartesian2D_SetSecondViscosity self deltaViscosity
      director).matrixData i j - self.matrixData i j

/-- The matrix `C` that the 3D `SetSecondViscosity` adds to `D`. -/
def spec_correction3D {α : Type} [CommRing α] (self : ConstitutiveMatrix α)
    (deltaViscosity : α) (director : Nat → α) : Nat → Nat → α :=
  fun i j =>
    (_ViscousPenaltyConstMatrixCartesian3D_SetSecondViscosity self deltaViscosity
      director).matrixData i j - self.matrixData i j

/-- The 3D Voigt index of a 2D Voigt component: xx, yy, xy are 0, 1, 2 in 2D
and 0, 1, 3 in 3D. -/
def spec_planeIndex (k : Nat) : Nat :=
  if k = 2 then 3 else k

/-- The unit director `(2/3, 1/3, 2/3)`. -/
def sampleUnitDirector : Nat → ℚ := fun k => if k = 1 then 1 / 3 else 2 / 3

/-- The unit director `(3/5, 4/5, 0)` of the plane. -/
def samplePlaneDirector : Nat → ℚ :=
  fun k => if k = 0 then 3 / 5 else if k = 1 then 4 / 5 else 0

/-- The update operations of the file on the tensor, with their arguments. -/
inductive TensorOp (α : Type) where
  | setValueInAllEntries (value : α)
  | isotropicCorrection (isotropicCorrection : α)
  | setSecondViscosity (deltaViscosity : α) (director : Nat → α)

/-- Source lines 77-91: the operations of an object are bound to the 2D
variants when `self->dim == 2` and to the 3D variants otherwise. -/
def ConstitutiveMatrix_applyOp {α : Type} [LinearOrderedField α]
    (self : ConstitutiveMatrix α) (op : TensorOp α) : ConstitutiveMatrix α :=
  match op with
  | TensorOp.setValueInAllEntries value =>
    if self.dim = 2 then _ViscousPenaltyConstMatrixCartesian2D_SetValueInAllEntries self value
    else _ViscousPenaltyConstMatrixCartesian3D_SetValueInAllEntries self value
  | TensorOp.isotropicCorrection isotropicCorrection =>
    if self.dim = 2 then
      _ViscousPenaltyConstMatrixCartesian2D_IsotropicCorrection self isotropicCorrection
    else _ViscousPenaltyConstMatrixCartesian3D_IsotropicCorrection self isotropicCorrection
  | TensorOp.setSecondViscosity deltaViscosity director =>
    if self.dim = 2 then
      _ViscousPenaltyConstMatrixCartesian2D_SetSecondViscosity self deltaViscosity director
    else _ViscousPenaltyConstMatrixCartesian3D_SetSecondViscosity self deltaViscosity director

/-- The size of the tensor block of an object: 3 in 2D, 6 otherwise. -/
def spec_blockSize (dim : Nat) : Nat :=
  if dim = 2 then 3 else 6

/-- A 3D point of the given weight whose tensor is the isotropic tensor of
viscosity `eta`, built by the 3D `IsotropicCorrection(eta)` on a zero tensor:
`diag(2 eta, 2 eta, 2 eta, eta, eta, eta)`, flagged diagonal. -/
def sampleIsotropicPoint3D {α : Type} [Field α] (weight eta : α) : IntegrationPoint α :=
  { weight := weight, detJac := 1, GNx := fun _ _ => 1, velDerivs := fun _ => 0,
    matrixData :=
      (_ViscousPenaltyConstMatrixCartesian3D_IsotropicCorrection
        ({ dim := 3, matrixData := fun _ _ => 0, isDiagonal := true, derivs := fun _ => 0 } :
          ConstitutiveMatrix α) eta).matrixData,
    isDiagonal := true, derivs := fun _ => 0 }

/-- The viscosity derivative of the row node with respect to its velocity
component `b` (`DetaDu` for `b = 0`, `DetaDv` otherwise), source lines 346-347:
`derivs[3b] * GNx[0][rowNode] + derivs[3b+1] * GNx[1][rowNode]
+ derivs[3b+2] * Ni[rowNode]`. -/
def spec_DetaD {α : Type} [CommRing α] (derivs : Nat → α) (GNx : Nat → Nat → α)
    (Ni : Nat → α) (rowNode : Nat) (b : Fin 2) : α :=
  if b.val = 0 then
    derivs 0 * GNx 0 rowNode + derivs 1 * GNx 1 rowNode + derivs 2 * Ni rowNode
  else
    derivs 3 * GNx 0 rowNode + derivs 4 * GNx 1 rowNode + derivs 5 * Ni rowNode

/-- The 2D Newton amount in the words of the specification: the direct term
`intFac * (B(colNode)^T * diag(2 eta, 2 eta, eta) * B(rowNode))[a][b]` plus the
cross term `intFac * (B(colNode)^T * s)[a] * Deta_b`, with
`intFac = weight * detJac`, `s = (2 DuDx, 2 DvDy, DuDy + DvDx)` and the
velocity derivatives `DuDx, DuDy, DvDx, DvDy = velDerivs[0..3]`. -/
def spec_newtonAmount2D {α : Type} [CommRing α] (weight detJac eta : α)
    (GNx : Nat → Nat → α) (velDerivs derivs Ni : Nat → α) (colNode rowNode : Nat)
    (a b : Fin 2) : α :=
  weight * detJac
      * ((spec_nodeB2D GNx colNode).transpose * Matrix.diagonal ![2 * eta, 2 * eta, eta]
          * spec_nodeB2D GNx rowNode) a b
    + weight * detJac
      * ((spec_nodeB2D GNx colNode).transpose.mulVec
          ![2 * velDerivs 0, 2 * velDerivs 3, velDerivs 1 + velDerivs 2]) a
      * spec_DetaD derivs GNx Ni rowNode b

/-- A 2D point over the integers for Newton mode: weight 2, `detJac` 3, the
gradients of `sampleGNx`, velocity derivatives `(1, 2, 3, 4)`, the isotropic
tensor of viscosity 5 and viscosity derivatives `(1, 2, 3, 4, 5, 6)`. -/
def sampleNewtonPoint : IntegrationPoint ℤ :=
  { weight := 2, detJac := 3, GNx := sampleGNx, velDerivs := fun k => (k : ℤ) + 1,
    matrixData := fun i j => if i = j then (if i < 2 then 10 else 5) else 0,
    isDiagonal := true, derivs := fun k => (k : ℤ) + 1 }

/-- A 2D object over the integers whose shape-function values are
`Ni[k] = k + 1`. -/
def sampleNewtonObject : ViscousPenaltyConstMatrixCartesian ℤ :=
  { dim := 2, matrixData := fun _ _ => 0, isDiagonal := true, derivs := fun _ => 0,
    incompressibility_Penalty := 0, viscosityWeighting := true,
    Dtilda_B := fun _ _ => 0, Ni := fun k => (k : ℤ) + 1 }

/-- A 2D point whose viscosity does not depend on the velocity: its tensor is
isotropic, `diag(2 eta, 2 eta, eta)` for some `eta`, and its viscosity
derivatives `derivs[0..5]` are all zero. -/
def velocityIndependent2D {α : Type} [CommRing α] (particle : IntegrationPoint α) : Prop :=
  (∃ eta : α, toMatrix 3 3 particle.matrixData = Matrix.diagonal ![2 * eta, 2 * eta, eta])
    ∧ ∀ k, k < 6 → particle.derivs k = 0

/-- The discrete divergence of the nodal vector `u` at the element centre:
the sum over the nodes `i` and the components `a` of
`GN0x[a][i] * u[i*dim + a]`. -/
def spec_divergence {α : Type} [CommRing α] (dim n : Nat) (GN0x : Nat → Nat → α)
    (u : Nat → α) : α :=
  Finset.sum (Finset.range n) fun i =>
    Finset.sum (Finset.range dim) fun a => GN0x a i * u (i * dim + a)

/-- The quadratic form of the leading `m x m` block of `P` on the vector `u`:
the sum over `r, c < m` of `u[r] * P[r][c] * u[c]`. -/
def spec_quadraticForm {α : Type} [CommRing α] (m : Nat) (P : Nat → Nat → α)
    (u : Nat → α) : α :=
  Finset.sum (Finset.range m) fun r =>
    Finset.sum (Finset.range m) fun c => u r * P r c * u c

/-- Source lines 77-91: `_getViscosity` is bound to the 2D getter when
`self->dim == 2` and to the 3D getter otherwise; this is the viscosity a tensor
reports. -/
def ConstitutiveMatrix_GetIsotropicViscosity {α : Type} (self : ConstitutiveMatrix α) : α :=
  if self.dim = 2 then _ViscousPenaltyConstMatrixCartesian2D_GetIsotropicViscosity self
  else _ViscousPenaltyConstMatrixCartesian3D_GetIsotropicViscosity self

/-- The division of two doubles with the division by zero made visible: the
quotient when the divisor is non-zero, an error when it is zero. The C
division does not trap: with a zero divisor it silently yields NaN or an
infinity, which is no real number; the error marks that event. -/
def AssembleElement_divide {α : Type} [Field α] [DecidableEq α] (a b : α) : Except String α :=
  if b = 0 then Except.error "division by zero" else Except.ok (a / b)

/-- Source lines 411-466 with the division of line 423 made visible: the same
tests (`incompressibility_Penalty != 0.0`, then `viscosityWeighting`), the same
product `total_weight * exp(averaged_eta / total_weight)` and the same loops as
`AssembleElement_penaltyTerm`, the quotient being taken by
`AssembleElement_divide`. The source has no other test between line 411 and
the division. -/
def AssembleElement_penaltyTermChecked {α : Type} [Field α] [DecidableEq α] (exp : α → α)
    (dim : Nat) (elementNodeCount : Nat) (self : ViscousPenaltyConstMatrixCartesian α)
    (detJac : α) (GN0x : Nat → Nat → α) (averaged_eta total_weight : α)
    (elStiffMat : Nat → Nat → α) : Except String (Nat → Nat → α) :=
  if self.incompressibility_Penalty ≠ 0 then
    (if self.viscosityWeighting then
      (AssembleElement_divide averaged_eta total_weight).map
        fun quotient => total_weight * exp quotient
    else
      Except.ok 1).map
      fun averaged_eta =>
        (List.range elementNodeCount).foldl
          (fun elStiffMat rowNode_I =>
            (List.range elementNodeCount).foldl
              (AssembleElement_penaltyColNodeBody dim self.incompressibility_Penalty detJac
                averaged_eta GN0x rowNode_I) elStiffMat)
          elStiffMat
  else
    Except.ok elStiffMat

/-- Source lines 188-468 with the division of line 423 made visible:
`_ViscousPenaltyConstMatrixCartesian_AssembleElement` with the penalty step
taken by `AssembleElement_penaltyTermChecked`. The call ends with the error of
`AssembleElement_divide` exactly when the source divides by a zero
`total_weight`; otherwise it returns what the unchecked model returns. -/
def _ViscousPenaltyConstMatrixCartesian_AssembleElementChecked {α : Type} [Field α]
    [DecidableEq α] (log exp : α → α) (self : ViscousPenaltyConstMatrixCartesian α)
    (dim : Nat) (element : Element α) (sle : Option SystemLinearEquations)
    (elStiffMat : Nat → Nat → α) : Except String (Nat → Nat → α) :=
  (Journal_Firewall sle.isSome
      "In func _ViscousPenaltyConstMatrixCartesian_AssembleElement: SLE is NULL.").bind
    fun _ =>
      match sle with
      | none => Except.error "sle is NULL where sle->nlFormJacobian is read"
      | some sle =>
        let elementNodeCount := element.nodeCount
        let st := element.particles.foldl
          (AssembleElement_particleBody log dim sle elementNodeCount)
          { self := self, elStiffMat := elStiffMat, averaged_eta := 0, total_weight := 0 }
        AssembleElement_penaltyTermChecked exp dim elementNodeCount st.self
          element.detJac0 element.GN0x st.averaged_eta st.total_weight st.elStiffMat

/-! ## Theorems -/

theorem assign_apply {α : Type} (A : Nat → Nat → α) (i j : Nat) (v : α) (r c : Nat) :
    assign A i j v r c = if r = i ∧ c = j then v else A r c := rfl

theorem addAssign_apply {α : Type} [Add α] (A : Nat → Nat → α) (i j : Nat) (v : α)
    (r c : Nat) :
    addAssign A i j v r c = if r = i ∧ c = j then A i j + v else A r c := rfl

theorem assign1_apply {α : Type} (s : Nat → α) (i : Nat) (v : α) (k : Nat) :
    assign1 s i v k = if k = i then v else s k := rfl


theorem toMatrix_mul_spec_B2D {α : Type} [CommRing α] (A : Nat → Nat → α) (dx dy : α)
    (i : Fin 3) (j : Fin 2) :
    (toMatrix 3 3 A * spec_B2D dx dy) i j =
      if j.val = 0 then A i.val 0 * dx + A i.val 2 * dy
      else A i.val 1 * dy + A i.val 2 * dx := by
  rw [Matrix.mul_apply, Fin.sum_univ_three]
  fin_cases j
  · show A i.val 0 * dx + A i.val 1 * 0 + A i.val 2 * dy = A i.val 0 * dx + A i.val 2 * dy
    ring
  · show A i.val 0 * 0 + A i.val 1 * dy + A i.val 2 * dx = A i.val 1 * dy + A i.val 2 * dx
    ring

theorem toMatrix_mul_spec_B3D {α : Type} [CommRing α] (A : Nat → Nat → α) (dx dy dz : α)
    (i : Fin 6) (j : Fin 3) :
    (toMatrix 6 6 A * spec_B3D dx dy dz) i j =
      if j.val = 0 then A i.val 0 * dx + A i.val 3 * dy + A i.val 4 * dz
      else if j.val = 1 then A i.val 1 * dy + A i.val 3 * dx + A i.val 5 * dz
      else A i.val 2 * dz + A i.val 4 * dx + A i.val 5 * dy := by
  rw [Matrix.mul_apply, Fin.sum_univ_six]
  fin_cases j
  · show A i.val 0 * dx + A i.val 1 * 0 + A i.val 2 * 0 + A i.val 3 * dy + A i.val 4 * dz
      + A i.val 5 * 0 = A i.val 0 * dx + A i.val 3 * dy + A i.val 4 * dz
    ring
  · show A i.val 0 * 0 + A i.val 1 * dy + A i.val 2 * 0 + A i.val 3 * dx + A i.val 4 * 0
      + A i.val 5 * dz = A i.val 1 * dy + A i.val 3 * dx + A i.val 5 * dz
    ring
  · show A i.val 0 * 0 + A i.val 1 * 0 + A i.val 2 * dz + A i.val 3 * 0 + A i.val 4 * dx
      + A i.val 5 * dy = A i.val 2 * dz + A i.val 4 * dx + A i.val 5 * dy
    ring

/-- With `isDiagonal` false the 2D `Assemble_D_B` writes the product `D * B(node)`. -/
theorem Assemble_D_B_2D_general {α : Type} [CommRing α] (self : ConstitutiveMatrix α)
    (GNx : Nat → Nat → α) (node_I : Nat) (D_B : Nat → Nat → α)
    (h : self.isDiagonal = false) :
    toMatrix 3 2 (_ViscousPenaltyConstMatrixCartesian2D_Assemble_D_B self GNx node_I D_B)
      = toMatrix 3 3 self.matrixData * spec_nodeB2D GNx node_I := by
  ext i j
  rw [spec_nodeB2D, toMatrix_mul_spec_B2D]
  unfold _ViscousPenaltyConstMatrixCartesian2D_Assemble_D_B
  rw [h]
  fin_cases i <;> fin_cases j <;> rfl

/-- With `isDiagonal` false the 3D `Assemble_D_B` writes the product `D * B(node)`. -/
theorem Assemble_D_B_3D_general {α : Type} [CommRing α] (self : ConstitutiveMatrix α)
    (GNx : Nat → Nat → α) (node_I : Nat) (D_B : Nat → Nat → α)
    (h : self.isDiagonal = false) :
    toMatrix 6 3 (_ViscousPenaltyConstMatrixCartesian3D_Assemble_D_B self GNx node_I D_B)
      = toMatrix 6 6 self.matrixData * spec_nodeB3D GNx node_I := by
  ext i j
  rw [spec_nodeB3D, toMatrix_mul_spec_B3D]
  unfold _ViscousPenaltyConstMatrixCartesian3D_Assemble_D_B
  rw [h]
  fin_cases i <;> fin_cases j <;> rfl

/-- On a tensor whose off-diagonal entries are zero the fast path of the 2D
`Assemble_D_B` writes the same 3x2 block as the general path. -/
theorem Assemble_D_B_2D_paths_agree {α : Type} [CommRing α] (self : ConstitutiveMatrix α)
    (GNx : Nat → Nat → α) (node_I : Nat) (D_B : Nat → Nat → α)
    (h : offDiagonalZero 3 self.matrixData) :
    toMatrix 3 2 (_ViscousPenaltyConstMatrixCartesian2D_Assemble_D_B
        { self with isDiagonal := true } GNx node_I D_B)
      = toMatrix 3 2 (_ViscousPenaltyConstMatrixCartesian2D_Assemble_D_B
        { self with isDiagonal := false } GNx node_I D_B) := by
  have z : ∀ i j, i < 3 → j < 3 → i ≠ j → self.matrixData i j = 0 :=
    fun i j hi hj hij => h i hi j hj hij
  ext i j
  unfold _ViscousPenaltyConstMatrixCartesian2D_Assemble_D_B
  simp only [Bool.false_eq_true, if_false, if_true, toMatrix]
  fin_cases i <;> fin_cases j <;>
    simp only [assign_apply, Nat.reduceEqDiff, and_self, and_true, and_false, false_and,
      if_true, if_false, OfNat.ofNat_ne_zero, OfNat.zero_ne_ofNat, OfNat.ofNat_ne_one,
      OfNat.one_ne_ofNat, zero_ne_one, one_ne_zero] <;>
    simp [z]

/-- On a tensor whose off-diagonal entries are zero the fast path of the 3D
`Assemble_D_B` writes the same 6x3 block as the general path. -/
theorem Assemble_D_B_3D_paths_agree {α : Type} [CommRing α] (self : ConstitutiveMatrix α)
    (GNx : Nat → Nat → α) (node_I : Nat) (D_B : Nat → Nat → α)
    (h : offDiagonalZero 6 self.matrixData) :
    toMatrix 6 3 (_ViscousPenaltyConstMatrixCartesian3D_Assemble_D_B
        { self with isDiagonal := true } GNx node_I D_B)
      = toMatrix 6 3 (_ViscousPenaltyConstMatrixCartesian3D_Assemble_D_B
        { self with isDiagonal := false } GNx node_I D_B) := by
  have z : ∀ i j, i < 6 → j < 6 → i ≠ j → self.matrixData i j = 0 :=
    fun i j hi hj hij => h i hi j hj hij
  ext i j
  unfold _ViscousPenaltyConstMatrixCartesian3D_Assemble_D_B
  simp only [Bool.false_eq_true, if_false, if_true, toMatrix]
  fin_cases i <;> fin_cases j <;>
    simp only [assign_apply, Nat.reduceEqDiff, and_self, and_true, and_false, false_and,
      if_true, if_false, OfNat.ofNat_ne_zero, OfNat.zero_ne_ofNat, OfNat.ofNat_ne_one,
      OfNat.one_ne_ofNat, zero_ne_one, one_ne_zero] <;>
    simp [z]

/-- C3: with `isDiagonal` false, `Assemble_D_B` returns the matrix product
`D * B(node)` for every tensor `D`, every gradient array and every previous
content of the output buffer: the 3x2 product in 2D and the 6x3 product in 3D,
`B` being the Voigt operator of spec section 4.2. -/
theorem C3_Assemble_D_B_is_D_times_B {α : Type} [CommRing α] (self : ConstitutiveMatrix α)
    (GNx : Nat → Nat → α) (node_I : Nat) (D_B : Nat → Nat → α)
    (h : self.isDiagonal = false) :
    toMatrix 3 2 (_ViscousPenaltyConstMatrixCartesian2D_Assemble_D_B self GNx node_I D_B)
        = toMatrix 3 3 self.matrixData * spec_nodeB2D GNx node_I
      ∧ toMatrix 6 3 (_ViscousPenaltyConstMatrixCartesian3D_Assemble_D_B self GNx node_I D_B)
        = toMatrix 6 6 self.matrixData * spec_nodeB3D GNx node_I :=
  ⟨Assemble_D_B_2D_general self GNx node_I D_B h, Assemble_D_B_3D_general self GNx node_I D_B h⟩

/-- C4: for every tensor whose off-diagonal entries are all zero and every
node gradient, `Assemble_D_B` run with `isDiagonal = true` writes the same
`D_B`, entry for entry, as run with `isDiagonal = false`, in 2D (3x2) and in
3D (6x3). -/
theorem C4_Assemble_D_B_fast_path_agrees {α : Type} [CommRing α]
    (self : ConstitutiveMatrix α) (GNx : Nat → Nat → α) (node_I : Nat)
    (D_B : Nat → Nat → α) :
    (offDiagonalZero 3 self.matrixData →
      toMatrix 3 2 (_ViscousPenaltyConstMatrixCartesian2D_Assemble_D_B
          { self with isDiagonal := true } GNx node_I D_B)
        = toMatrix 3 2 (_ViscousPenaltyConstMatrixCartesian2D_Assemble_D_B
          { self with isDiagonal := false } GNx node_I D_B))
      ∧ (offDiagonalZero 6 self.matrixData →
        toMatrix 6 3 (_ViscousPenaltyConstMatrixCartesian3D_Assemble_D_B
            { self with isDiagonal := true } GNx node_I D_B)
          = toMatrix 6 3 (_ViscousPenaltyConstMatrixCartesian3D_Assemble_D_B
            { self with isDiagonal := false } GNx node_I D_B)) :=
  ⟨Assemble_D_B_2D_paths_agree self GNx node_I D_B,
    Assemble_D_B_3D_paths_agree self GNx node_I D_B⟩

/-- Witness of C3 on a full integer tensor at node 1, where `D_B[2][1] = 114`. -/
theorem C3_Assemble_D_B_is_D_times_B_witness :
    sampleFullTensor.isDiagonal = false
      ∧ toMatrix 3 2 (_ViscousPenaltyConstMatrixCartesian2D_Assemble_D_B sampleFullTensor
          sampleGNx 1 (fun _ _ => 0))
        = toMatrix 3 3 sampleFullTensor.matrixData * spec_nodeB2D sampleGNx 1
      ∧ toMatrix 6 3 (_ViscousPenaltyConstMatrixCartesian3D_Assemble_D_B sampleFullTensor
          sampleGNx 1 (fun _ _ => 0))
        = toMatrix 6 6 sampleFullTensor.matrixData * spec_nodeB3D sampleGNx 1
      ∧ _ViscousPenaltyConstMatrixCartesian2D_Assemble_D_B sampleFullTensor sampleGNx 1
          (fun _ _ => 0) 2 1 = 114 :=
  ⟨rfl, (C3_Assemble_D_B_is_D_times_B sampleFullTensor sampleGNx 1 (fun _ _ => 0) rfl).1,
    (C3_Assemble_D_B_is_D_times_B sampleFullTensor sampleGNx 1 (fun _ _ => 0) rfl).2,
    by decide⟩

theorem sampleDiagonalTensor_offDiagonalZero (n : Nat) :
    offDiagonalZero n sampleDiagonalTensor.matrixData := by
  intro i _ j _ hij
  simp [sampleDiagonalTensor, hij]

/-- Witness of C4 on the diagonal tensor `diag(2, 3, 4, 5, 6, 7)` at node 2. -/
theorem C4_Assemble_D_B_fast_path_agrees_witness :
    offDiagonalZero 3 sampleDiagonalTensor.matrixData
      ∧ offDiagonalZero 6 sampleDiagonalTensor.matrixData
      ∧ toMatrix 3 2 (_ViscousPenaltyConstMatrixCartesian2D_Assemble_D_B
          { sampleDiagonalTensor with isDiagonal := true } sampleGNx 2 (fun _ _ => 0))
        = toMatrix 3 2 (_ViscousPenaltyConstMatrixCartesian2D_Assemble_D_B
          { sampleDiagonalTensor with isDiagonal := false } sampleGNx 2 (fun _ _ => 0))
      ∧ toMatrix 6 3 (_ViscousPenaltyConstMatrixCartesian3D_Assemble_D_B
          { sampleDiagonalTensor with isDiagonal := true } sampleGNx 2 (fun _ _ => 0))
        = toMatrix 6 3 (_ViscousPenaltyConstMatrixCartesian3D_Assemble_D_B
          { sampleDiagonalTensor with isDiagonal := false } sampleGNx 2 (fun _ _ => 0)) :=
  ⟨sampleDiagonalTensor_offDiagonalZero 3, sampleDiagonalTensor_offDiagonalZero 6,
    (C4_Assemble_D_B_fast_path_agrees sampleDiagonalTensor sampleGNx 2 (fun _ _ => 0)).1
      (sampleDiagonalTensor_offDiagonalZero 3),
    (C4_Assemble_D_B_fast_path_agrees sampleDiagonalTensor sampleGNx 2 (fun _ _ => 0)).2
      (sampleDiagonalTensor_offDiagonalZero 6)⟩

/-! ### Reading a chain of assignments -/

theorem assign_same {α : Type} (A : Nat → Nat → α) (i j : Nat) (v : α) :
    assign A i j v i j = v := by
  simp [assign_apply]

theorem assign_ne {α : Type} (A : Nat → Nat → α) (i j : Nat) (v : α)
    (r c : Nat) (h : ¬ (r = i ∧ c = j)) :
    assign A i j v r c = A r c := by
  simp [assign_apply, h]

theorem addAssign_same {α : Type} [Add α] (A : Nat → Nat → α) (i j : Nat) (v : α) :
    addAssign A i j v i j = A i j + v := by
  simp [addAssign_apply]

theorem addAssign_ne {α : Type} [Add α] (A : Nat → Nat → α) (i j : Nat) (v : α)
    (r c : Nat) (h : ¬ (r = i ∧ c = j)) :
    addAssign A i j v r c = A r c := by
  simp [addAssign_apply, h]

theorem addAssign_zero {α : Type} [AddMonoid α] (A : Nat → Nat → α) (i j : Nat) :
    addAssign A i j 0 = A := by
  funext r c
  simp only [addAssign_apply, add_zero]
  split_ifs with h
  · rw [h.1, h.2]
  · rfl

/-! ### The update operations of the tensor -/

theorem SetValueInAllEntries_2D_small {α : Type} [LinearOrderedField α]
    (self : ConstitutiveMatrix α) (value : α) (h : |value| < 1.0e-20) :
    _ViscousPenaltyConstMatrixCartesian2D_SetValueInAllEntries self value
      = ConstitutiveMatrix_ZeroMatrix self := by
  unfold _ViscousPenaltyConstMatrixCartesian2D_SetValueInAllEntries
  rw [if_pos h]

theorem SetValueInAllEntries_3D_small {α : Type} [LinearOrderedField α]
    (self : ConstitutiveMatrix α) (value : α) (h : |value| < 1.0e-20) :
    _ViscousPenaltyConstMatrixCartesian3D_SetValueInAllEntries self value
      = ConstitutiveMatrix_ZeroMatrix self := by
  unfold _ViscousPenaltyConstMatrixCartesian3D_SetValueInAllEntries
  rw [if_pos h]

theorem SetValueInAllEntries_2D_large {α : Type} [LinearOrderedField α]
    (self : ConstitutiveMatrix α) (value : α) (h : ¬ |value| < 1.0e-20) :
    (∀ i, i < 3 → ∀ j, j < 3 →
      (_ViscousPenaltyConstMatrixCartesian2D_SetValueInAllEntries self value).matrixData i j
        = value)
    ∧ (_ViscousPenaltyConstMatrixCartesian2D_SetValueInAllEntries self value).isDiagonal
        = false := by
  unfold _ViscousPenaltyConstMatrixCartesian2D_SetValueInAllEntries
  rw [if_neg h]
  refine ⟨?_, rfl⟩
  intro i hi j hj
  interval_cases i <;> interval_cases j <;>
    simp (disch := decide) only [assign_same, assign_ne]

theorem SetValueInAllEntries_3D_large {α : Type} [LinearOrderedField α]
    (self : ConstitutiveMatrix α) (value : α) (h : ¬ |value| < 1.0e-20) :
    (∀ i, i < 6 → ∀ j, j < 6 →
      (_ViscousPenaltyConstMatrixCartesian3D_SetValueInAllEntries self value).matrixData i j
        = value)
    ∧ (_ViscousPenaltyConstMatrixCartesian3D_SetValueInAllEntries self value).isDiagonal
        = false := by
  unfold _ViscousPenaltyConstMatrixCartesian3D_SetValueInAllEntries
  rw [if_neg h]
  refine ⟨?_, rfl⟩
  intro i hi j hj
  interval_cases i <;> interval_cases j <;>
    simp (disch := decide) only [assign_same, assign_ne]

theorem SetValueInAllEntries_2D_symmetric {α : Type} [LinearOrderedField α]
    (self : ConstitutiveMatrix α) (value : α) :
    isSymmetric 3
      (_ViscousPenaltyConstMatrixCartesian2D_SetValueInAllEntries self value).matrixData := by
  intro i hi j hj
  by_cases h : |value| < 1.0e-20
  · rw [SetValueInAllEntries_2D_small self value h]
    rfl
  · rw [(SetValueInAllEntries_2D_large self value h).1 i hi j hj,
      (SetValueInAllEntries_2D_large self value h).1 j hj i hi]

theorem SetValueInAllEntries_3D_symmetric {α : Type} [LinearOrderedField α]
    (self : ConstitutiveMatrix α) (value : α) :
    isSymmetric 6
      (_ViscousPenaltyConstMatrixCartesian3D_SetValueInAllEntries self value).matrixData := by
  intro i hi j hj
  by_cases h : |value| < 1.0e-20
  · rw [SetValueInAllEntries_3D_small self value h]
    rfl
  · rw [(SetValueInAllEntries_3D_large self value h).1 i hi j hj,
      (SetValueInAllEntries_3D_large self value h).1 j hj i hi]

theorem IsotropicCorrection_2D_symmetric {α : Type} [CommRing α]
    (self : ConstitutiveMatrix α) (delta : α) (h : isSymmetric 3 self.matrixData) :
    isSymmetric 3
      (_ViscousPenaltyConstMatrixCartesian2D_IsotropicCorrection self delta).matrixData := by
  intro i hi j hj
  have hij := h i hi j hj
  unfold _ViscousPenaltyConstMatrixCartesian2D_IsotropicCorrection
  interval_cases i <;> interval_cases j <;>
    simp (disch := decide) only [addAssign_same, addAssign_ne] <;>
    rw [hij]

theorem IsotropicCorrection_3D_symmetric {α : Type} [CommRing α]
    (self : ConstitutiveMatrix α) (delta : α) (h : isSymmetric 6 self.matrixData) :
    isSymmetric 6
      (_ViscousPenaltyConstMatrixCartesian3D_IsotropicCorrection self delta).matrixData := by
  intro i hi j hj
  have hij := h i hi j hj
  unfold _ViscousPenaltyConstMatrixCartesian3D_IsotropicCorrection
  interval_cases i <;> interval_cases j <;>
    simp (disch := decide) only [addAssign_same, addAssign_ne] <;>
    rw [hij]

theorem SetSecondViscosity_2D_symmetric {α : Type} [CommRing α]
    (self : ConstitutiveMatrix α) (deltaViscosity : α) (director : Nat → α)
    (h : isSymmetric 3 self.matrixData) :
    isSymmetric 3
      (_ViscousPenaltyConstMatrixCartesian2D_SetSecondViscosity self deltaViscosity
        director).matrixData := by
  intro i hi j hj
  have hij := h i hi j hj
  unfold _ViscousPenaltyConstMatrixCartesian2D_SetSecondViscosity
  interval_cases i <;> interval_cases j <;>
    simp (disch := decide) only [addAssign_same, addAssign_ne] <;>
    rw [hij]

theorem SetSecondViscosity_3D_symmetric {α : Type} [CommRing α]
    (self : ConstitutiveMatrix α) (deltaViscosity : α) (director : Nat → α)
    (h : isSymmetric 6 self.matrixData) :
    isSymmetric 6
      (_ViscousPenaltyConstMatrixCartesian3D_SetSecondViscosity self deltaViscosity
        director).matrixData := by
  intro i hi j hj
  have hij := h i hi j hj
  unfold _ViscousPenaltyConstMatrixCartesian3D_SetSecondViscosity
  interval_cases i <;> interval_cases j <;>
    simp (disch := decide) only [addAssign_same, addAssign_ne] <;>
    rw [hij]

/-- C5: symmetry of the constitutive tensor is preserved: if `D[i][j] = D[j][i]`
on the 3x3 (2D) or 6x6 (3D) tensor before the call, it holds after
`SetValueInAllEntries(value)`, after `IsotropicCorrection(delta)` and after
`SetSecondViscosity(deltaViscosity, director)`, for every value, delta,
deltaViscosity and director (unit or not). -/
theorem C5_symmetry_preserved {α : Type} [LinearOrderedField α]
    (self : ConstitutiveMatrix α) (value delta deltaViscosity : α) (director : Nat → α) :
    (isSymmetric 3 self.matrixData →
      isSymmetric 3
          (_ViscousPenaltyConstMatrixCartesian2D_SetValueInAllEntries self value).matrixData
        ∧ isSymmetric 3
          (_ViscousPenaltyConstMatrixCartesian2D_IsotropicCorrection self delta).matrixData
        ∧ isSymmetric 3
          (_ViscousPenaltyConstMatrixCartesian2D_SetSecondViscosity self deltaViscosity
            director).matrixData)
      ∧ (isSymmetric 6 self.matrixData →
        isSymmetric 6
            (_ViscousPenaltyConstMatrixCartesian3D_SetValueInAllEntries self value).matrixData
          ∧ isSymmetric 6
            (_ViscousPenaltyConstMatrixCartesian3D_IsotropicCorrection self delta).matrixData
          ∧ isSymmetric 6
            (_ViscousPenaltyConstMatrixCartesian3D_SetSecondViscosity self deltaViscosity
              director).matrixData) :=
  ⟨fun h => ⟨SetValueInAllEntries_2D_symmetric self value,
      IsotropicCorrection_2D_symmetric self delta h,
      SetSecondViscosity_2D_symmetric self deltaViscosity director h⟩,
    fun h => ⟨SetValueInAllEntries_3D_symmetric self value,
      IsotropicCorrection_3D_symmetric self delta h,
      SetSecondViscosity_3D_symmetric self deltaViscosity director h⟩⟩

theorem sampleSymmetricTensor_isSymmetric (n : Nat) :
    isSymmetric n sampleSymmetricTensor.matrixData := by
  intro i _ j _
  simp only [sampleSymmetricTensor]
  ring

/-- Witness of C5 on the symmetric tensor `D[i][j] = i + j + i j` with value 5,
delta 3, deltaViscosity 2 and the non-unit director (1, 2, 3). -/
theorem C5_symmetry_preserved_witness :
    isSymmetric 3 sampleSymmetricTensor.matrixData
      ∧ isSymmetric 6 sampleSymmetricTensor.matrixData
      ∧ isSymmetric 3
        (_ViscousPenaltyConstMatrixCartesian2D_SetSecondViscosity sampleSymmetricTensor 2
          (fun k => (k : ℚ) + 1)).matrixData
      ∧ isSymmetric 6
        (_ViscousPenaltyConstMatrixCartesian3D_SetSecondViscosity sampleSymmetricTensor 2
          (fun k => (k : ℚ) + 1)).matrixData :=
  ⟨sampleSymmetricTensor_isSymmetric 3, sampleSymmetricTensor_isSymmetric 6,
    ((C5_symmetry_preserved sampleSymmetricTensor 5 3 2 (fun k => (k : ℚ) + 1)).1
      (sampleSymmetricTensor_isSymmetric 3)).2.2,
    ((C5_symmetry_preserved sampleSymmetricTensor 5 3 2 (fun k => (k : ℚ) + 1)).2
      (sampleSymmetricTensor_isSymmetric 6)).2.2⟩

/-- C6: the 2D `SetSecondViscosity(deltaViscosity, director)` with director
components `n1`, `n2` adds, with `a0 = 4*deltaViscosity*n1^2*n2^2` and
`a1 = 2*deltaViscosity*n1*n2*(n2^2 - n1^2)`, exactly `-a0, a0, -a1` to row 0,
`a0, -a0, a1` to row 1 and `-a1, a1, a0 - deltaViscosity` to row 2 of every
prior `D`; and both the 2D and the 3D `SetSecondViscosity` leave
`isDiagonal = false`. -/
theorem C6_SetSecondViscosity_2D_entries {α : Type} [CommRing α]
    (self : ConstitutiveMatrix α) (deltaViscosity : α) (director : Nat → α) :
    (_ViscousPenaltyConstMatrixCartesian2D_SetSecondViscosity self deltaViscosity
        director).matrixData 0 0
        = self.matrixData 0 0 + -spec_a0 deltaViscosity (director 0) (director 1)
      ∧ (_ViscousPenaltyConstMatrixCartesian2D_SetSecondViscosity self deltaViscosity
        director).matrixData 0 1
        = self.matrixData 0 1 + spec_a0 deltaViscosity (director 0) (director 1)
      ∧ (_ViscousPenaltyConstMatrixCartesian2D_SetSecondViscosity self deltaViscosity
        director).matrixData 0 2
        = self.matrixData 0 2 + -spec_a1 deltaViscosity (director 0) (director 1)
      ∧ (_ViscousPenaltyConstMatrixCartesian2D_SetSecondViscosity self deltaViscosity
        director).matrixData 1 0
        = self.matrixData 1 0 + spec_a0 deltaViscosity (director 0) (director 1)
      ∧ (_ViscousPenaltyConstMatrixCartesian2D_SetSecondViscosity self deltaViscosity
        director).matrixData 1 1
        = self.matrixData 1 1 + -spec_a0 deltaViscosity (director 0) (director 1)
      ∧ (_ViscousPenaltyConstMatrixCartesian2D_SetSecondViscosity self deltaViscosity
        director).matrixData 1 2
        = self.matrixData 1 2 + spec_a1 deltaViscosity (director 0) (director 1)
      ∧ (_ViscousPenaltyConstMatrixCartesian2D_SetSecondViscosity self deltaViscosity
        director).matrixData 2 0
        = self.matrixData 2 0 + -spec_a1 deltaViscosity (director 0) (director 1)
      ∧ (_ViscousPenaltyConstMatrixCartesian2D_SetSecondViscosity self deltaViscosity
        director).matrixData 2 1
        = self.matrixData 2 1 + spec_a1 deltaViscosity (director 0) (director 1)
      ∧ (_ViscousPenaltyConstMatrixCartesian2D_SetSecondViscosity self deltaViscosity
        director).matrixData 2 2
        = self.matrixData 2 2
          + (spec_a0 deltaViscosity (director 0) (director 1) - deltaViscosity)
      ∧ (_ViscousPenaltyConstMatrixCartesian2D_SetSecondViscosity self deltaViscosity
        director).isDiagonal = false
      ∧ (_ViscousPenaltyConstMatrixCartesian3D_SetSecondViscosity self deltaViscosity
        director).isDiagonal = false := by
  refine ⟨?_, ?_, ?_, ?_, ?_, ?_, ?_, ?_, ?_, rfl, rfl⟩ <;>
    unfold _ViscousPenaltyConstMatrixCartesian2D_SetSecondViscosity <;>
    simp (disch := decide) only [addAssign_same, addAssign_ne, spec_a0, spec_a1, I_AXIS,
      J_AXIS] <;>
    ring


theorem IsotropicCorrection_2D_offDiagonal {α : Type} [CommRing α]
    (self : ConstitutiveMatrix α) (delta : α) (i j : Nat) (hij : i ≠ j) :
    (_ViscousPenaltyConstMatrixCartesian2D_IsotropicCorrection self delta).matrixData i j
      = self.matrixData i j := by
  unfold _ViscousPenaltyConstMatrixCartesian2D_IsotropicCorrection
  simp (disch := omega) only [addAssign_ne]

theorem IsotropicCorrection_3D_offDiagonal {α : Type} [CommRing α]
    (self : ConstitutiveMatrix α) (delta : α) (i j : Nat) (hij : i ≠ j) :
    (_ViscousPenaltyConstMatrixCartesian3D_IsotropicCorrection self delta).matrixData i j
      = self.matrixData i j := by
  unfold _ViscousPenaltyConstMatrixCartesian3D_IsotropicCorrection
  simp (disch := omega) only [addAssign_ne]

theorem IsotropicCorrection_2D_diagonal {α : Type} [CommRing α]
    (self : ConstitutiveMatrix α) (delta : α) :
    (_ViscousPenaltyConstMatrixCartesian2D_IsotropicCorrection self delta).matrixData 0 0
        = self.matrixData 0 0 + 2 * delta
      ∧ (_ViscousPenaltyConstMatrixCartesian2D_IsotropicCorrection self delta).matrixData 1 1
        = self.matrixData 1 1 + 2 * delta
      ∧ (_ViscousPenaltyConstMatrixCartesian2D_IsotropicCorrection self delta).matrixData 2 2
        = self.matrixData 2 2 + delta := by
  refine ⟨?_, ?_, ?_⟩ <;>
    unfold _ViscousPenaltyConstMatrixCartesian2D_IsotropicCorrection <;>
    simp (disch := decide) only [addAssign_same, addAssign_ne]

theorem IsotropicCorrection_3D_diagonal {α : Type} [CommRing α]
    (self : ConstitutiveMatrix α) (delta : α) :
    (_ViscousPenaltyConstMatrixCartesian3D_IsotropicCorrection self delta).matrixData 0 0
        = self.matrixData 0 0 + 2 * delta
      ∧ (_ViscousPenaltyConstMatrixCartesian3D_IsotropicCorrection self delta).matrixData 1 1
        = self.matrixData 1 1 + 2 * delta
      ∧ (_ViscousPenaltyConstMatrixCartesian3D_IsotropicCorrection self delta).matrixData 2 2
        = self.matrixData 2 2 + 2 * delta
      ∧ (_ViscousPenaltyConstMatrixCartesian3D_IsotropicCorrection self delta).matrixData 3 3
        = self.matrixData 3 3 + delta
      ∧ (_ViscousPenaltyConstMatrixCartesian3D_IsotropicCorrection self delta).matrixData 4 4
        = self.matrixData 4 4 + delta
      ∧ (_ViscousPenaltyConstMatrixCartesian3D_IsotropicCorrection self delta).matrixData 5 5
        = self.matrixData 5 5 + delta := by
  refine ⟨?_, ?_, ?_, ?_, ?_, ?_⟩ <;>
    unfold _ViscousPenaltyConstMatrixCartesian3D_IsotropicCorrection <;>
    simp (disch := decide) only [addAssign_same, addAssign_ne]

theorem IsotropicCorrection_2D_zero {α : Type} [CommRing α]
    (self : ConstitutiveMatrix α) (delta : α)
    (h : ∀ i, i < 3 → ∀ j, j < 3 → self.matrixData i j = 0) :
    toMatrix 3 3 (_ViscousPenaltyConstMatrixCartesian2D_IsotropicCorrection self delta).matrixData
      = Matrix.diagonal ![2 * delta, 2 * delta, delta] := by
  obtain ⟨h0, h1, h2⟩ := IsotropicCorrection_2D_diagonal self delta
  ext i j
  by_cases hij : i = j
  · subst hij
    rw [Matrix.diagonal_apply_eq]
    fin_cases i
    · show (_ViscousPenaltyConstMatrixCartesian2D_IsotropicCorrection self delta).matrixData 0 0
        = 2 * delta
      rw [h0, h 0 (by omega) 0 (by omega), zero_add]
    · show (_ViscousPenaltyConstMatrixCartesian2D_IsotropicCorrection self delta).matrixData 1 1
        = 2 * delta
      rw [h1, h 1 (by omega) 1 (by omega), zero_add]
    · show (_ViscousPenaltyConstMatrixCartesian2D_IsotropicCorrection self delta).matrixData 2 2
        = delta
      rw [h2, h 2 (by omega) 2 (by omega), zero_add]
  · rw [Matrix.diagonal_apply_ne _ hij]
    show (_ViscousPenaltyConstMatrixCartesian2D_IsotropicCorrection self delta).matrixData
      i.val j.val = 0
    rw [IsotropicCorrection_2D_offDiagonal self delta i.val j.val
      (fun hv => hij (Fin.ext hv))]
    exact h i.val i.isLt j.val j.isLt

theorem IsotropicCorrection_3D_zero {α : Type} [CommRing α]
    (self : ConstitutiveMatrix α) (delta : α)
    (h : ∀ i, i < 6 → ∀ j, j < 6 → self.matrixData i j = 0) :
    toMatrix 6 6 (_ViscousPenaltyConstMatrixCartesian3D_IsotropicCorrection self delta).matrixData
      = Matrix.diagonal ![2 * delta, 2 * delta, 2 * delta, delta, delta, delta] := by
  obtain ⟨h0, h1, h2, h3, h4, h5⟩ := IsotropicCorrection_3D_diagonal self delta
  ext i j
  by_cases hij : i = j
  · subst hij
    rw [Matrix.diagonal_apply_eq]
    fin_cases i
    · show (_ViscousPenaltyConstMatrixCartesian3D_IsotropicCorrection self delta).matrixData 0 0
        = 2 * delta
      rw [h0, h 0 (by omega) 0 (by omega), zero_add]
    · show (_ViscousPenaltyConstMatrixCartesian3D_IsotropicCorrection self delta).matrixData 1 1
        = 2 * delta
      rw [h1, h 1 (by omega) 1 (by omega), zero_add]
    · show (_ViscousPenaltyConstMatrixCartesian3D_IsotropicCorrection self delta).matrixData 2 2
        = 2 * delta
      rw [h2, h 2 (by omega) 2 (by omega), zero_add]
    · show (_ViscousPenaltyConstMatrixCartesian3D_IsotropicCorrection self delta).matrixData 3 3
        = delta
      rw [h3, h 3 (by omega) 3 (by omega), zero_add]
    · show (_ViscousPenaltyConstMatrixCartesian3D_IsotropicCorrection self delta).matrixData 4 4
        = delta
      rw [h4, h 4 (by omega) 4 (by omega), zero_add]
    · show (_ViscousPenaltyConstMatrixCartesian3D_IsotropicCorrection self delta).matrixData 5 5
        = delta
      rw [h5, h 5 (by omega) 5 (by omega), zero_add]
  · rw [Matrix.diagonal_apply_ne _ hij]
    show (_ViscousPenaltyConstMatrixCartesian3D_IsotropicCorrection self delta).matrixData
      i.val j.val = 0
    rw [IsotropicCorrection_3D_offDiagonal self delta i.val j.val
      (fun hv => hij (Fin.ext hv))]
    exact h i.val i.isLt j.val j.isLt

/-- C7: for every tensor and every delta, `IsotropicCorrection(delta)` adds
`2*delta` to the first `d` diagonal entries (2 in 2D, 3 in 3D) and `delta` to
the remaining diagonal entries (1 in 2D, 3 in 3D), leaves every off-diagonal
entry and the `isDiagonal` flag unchanged, and on a zero tensor yields
`diag(2 delta, 2 delta, delta)` in 2D and
`diag(2 delta, 2 delta, 2 delta, delta, delta, delta)` in 3D. -/
theorem C7_IsotropicCorrection {α : Type} [CommRing α]
    (self : ConstitutiveMatrix α) (delta : α) :
    ((_ViscousPenaltyConstMatrixCartesian2D_IsotropicCorrection self delta).matrixData 0 0
          = self.matrixData 0 0 + 2 * delta
        ∧ (_ViscousPenaltyConstMatrixCartesian2D_IsotropicCorrection self delta).matrixData 1 1
          = self.matrixData 1 1 + 2 * delta
        ∧ (_ViscousPenaltyConstMatrixCartesian2D_IsotropicCorrection self delta).matrixData 2 2
          = self.matrixData 2 2 + delta)
      ∧ (∀ i j, i ≠ j →
        (_ViscousPenaltyConstMatrixCartesian2D_IsotropicCorrection self delta).matrixData i j
          = self.matrixData i j)
      ∧ (_ViscousPenaltyConstMatrixCartesian2D_IsotropicCorrection self delta).isDiagonal
        = self.isDiagonal
      ∧ ((_ViscousPenaltyConstMatrixCartesian3D_IsotropicCorrection self delta).matrixData 0 0
          = self.matrixData 0 0 + 2 * delta
        ∧ (_ViscousPenaltyConstMatrixCartesian3D_IsotropicCorrection self delta).matrixData 1 1
          = self.matrixData 1 1 + 2 * delta
        ∧ (_ViscousPenaltyConstMatrixCartesian3D_IsotropicCorrection self delta).matrixData 2 2
          = self.matrixData 2 2 + 2 * delta
        ∧ (_ViscousPenaltyConstMatrixCartesian3D_IsotropicCorrection self delta).matrixData 3 3
          = self.matrixData 3 3 + delta
        ∧ (_ViscousPenaltyConstMatrixCartesian3D_IsotropicCorrection self delta).matrixData 4 4
          = self.matrixData 4 4 + delta
        ∧ (_ViscousPenaltyConstMatrixCartesian3D_IsotropicCorrection self delta).matrixData 5 5
          = self.matrixData 5 5 + delta)
      ∧ (∀ i j, i ≠ j →
        (_ViscousPenaltyConstMatrixCartesian3D_IsotropicCorrection self delta).matrixData i j
          = self.matrixData i j)
      ∧ (_ViscousPenaltyConstMatrixCartesian3D_IsotropicCorrection self delta).isDiagonal
        = self.isDiagonal
      ∧ ((∀ i, i < 3 → ∀ j, j < 3 → self.matrixData i j = 0) →
        toMatrix 3 3
            (_ViscousPenaltyConstMatrixCartesian2D_IsotropicCorrection self delta).matrixData
          = Matrix.diagonal ![2 * delta, 2 * delta, delta])
      ∧ ((∀ i, i < 6 → ∀ j, j < 6 → self.matrixData i j = 0) →
        toMatrix 6 6
            (_ViscousPenaltyConstMatrixCartesian3D_IsotropicCorrection self delta).matrixData
          = Matrix.diagonal ![2 * delta, 2 * delta, 2 * delta, delta, delta, delta]) :=
  ⟨IsotropicCorrection_2D_diagonal self delta,
    fun i j hij => IsotropicCorrection_2D_offDiagonal self delta i j hij, rfl,
    IsotropicCorrection_3D_diagonal self delta,
    fun i j hij => IsotropicCorrection_3D_offDiagonal self delta i j hij, rfl,
    IsotropicCorrection_2D_zero self delta, IsotropicCorrection_3D_zero self delta⟩

/-- Witness of C7 on the zero tensor over the integers with delta 5. -/
theorem C7_IsotropicCorrection_witness :
    (∀ i, i < 6 → ∀ j, j < 6 → sampleZeroTensor.matrixData i j = 0)
      ∧ toMatrix 3 3
          (_ViscousPenaltyConstMatrixCartesian2D_IsotropicCorrection sampleZeroTensor 5).matrixData
        = Matrix.diagonal ![2 * 5, 2 * 5, 5]
      ∧ toMatrix 6 6
          (_ViscousPenaltyConstMatrixCartesian3D_IsotropicCorrection sampleZeroTensor 5).matrixData
        = Matrix.diagonal ![2 * 5, 2 * 5, 2 * 5, 5, 5, 5] :=
  ⟨fun _ _ _ _ => rfl,
    (C7_IsotropicCorrection sampleZeroTensor 5).2.2.2.2.2.2.1 (fun _ _ _ _ => rfl),
    (C7_IsotropicCorrection sampleZeroTensor 5).2.2.2.2.2.2.2 (fun _ _ _ _ => rfl)⟩

/-- C8: `SetValueInAllEntries(value)`: if `|value| < 1e-20` the call is
`ConstitutiveMatrix_ZeroMatrix`, so the whole tensor is zero and `isDiagonal`
is true afterwards; otherwise every one of the 9 (2D) or 36 (3D) entries,
off-diagonals included, equals `value` afterwards and `isDiagonal` is false;
the entries and the flag afterwards do not depend on the previous tensor. -/
theorem C8_SetValueInAllEntries {α : Type} [LinearOrderedField α]
    (self other : ConstitutiveMatrix α) (value : α) :
    (|value| < 1.0e-20 →
        (_ViscousPenaltyConstMatrixCartesian2D_SetValueInAllEntries self value
            = ConstitutiveMatrix_ZeroMatrix self
          ∧ (∀ i j,
            (_ViscousPenaltyConstMatrixCartesian2D_SetValueInAllEntries self value).matrixData
              i j = 0)
          ∧ (_ViscousPenaltyConstMatrixCartesian2D_SetValueInAllEntries self value).isDiagonal
            = true)
        ∧ (_ViscousPenaltyConstMatrixCartesian3D_SetValueInAllEntries self value
            = ConstitutiveMatrix_ZeroMatrix self
          ∧ (∀ i j,
            (_ViscousPenaltyConstMatrixCartesian3D_SetValueInAllEntries self value).matrixData
              i j = 0)
          ∧ (_ViscousPenaltyConstMatrixCartesian3D_SetValueInAllEntries self value).isDiagonal
            = true))
      ∧ (¬ |value| < 1.0e-20 →
        ((∀ i, i < 3 → ∀ j, j < 3 →
            (_ViscousPenaltyConstMatrixCartesian2D_SetValueInAllEntries self value).matrixData
              i j = value)
          ∧ (_ViscousPenaltyConstMatrixCartesian2D_SetValueInAllEntries self value).isDiagonal
            = false)
        ∧ ((∀ i, i < 6 → ∀ j, j < 6 →
            (_ViscousPenaltyConstMatrixCartesian3D_SetValueInAllEntries self value).matrixData
              i j = value)
          ∧ (_ViscousPenaltyConstMatrixCartesian3D_SetValueInAllEntries self value).isDiagonal
            = false))
      ∧ ((∀ i, i < 3 → ∀ j, j < 3 →
            (_ViscousPenaltyConstMatrixCartesian2D_SetValueInAllEntries self value).matrixData
                i j
              = (_ViscousPenaltyConstMatrixCartesian2D_SetValueInAllEntries other
                value).matrixData i j)
        ∧ (_ViscousPenaltyConstMatrixCartesian2D_SetValueInAllEntries self value).isDiagonal
          = (_ViscousPenaltyConstMatrixCartesian2D_SetValueInAllEntries other value).isDiagonal
        ∧ (∀ i, i < 6 → ∀ j, j < 6 →
            (_ViscousPenaltyConstMatrixCartesian3D_SetValueInAllEntries self value).matrixData
                i j
              = (_ViscousPenaltyConstMatrixCartesian3D_SetValueInAllEntries other
                value).matrixData i j)
        ∧ (_ViscousPenaltyConstMatrixCartesian3D_SetValueInAllEntries self value).isDiagonal
          = (_ViscousPenaltyConstMatrixCartesian3D_SetValueInAllEntries other
            value).isDiagonal) := by
  refine ⟨fun h => ?_, fun h => ?_, ?_⟩
  · rw [SetValueInAllEntries_2D_small self value h, SetValueInAllEntries_3D_small self value h]
    exact ⟨⟨rfl, fun _ _ => rfl, rfl⟩, ⟨rfl, fun _ _ => rfl, rfl⟩⟩
  · exact ⟨SetValueInAllEntries_2D_large self value h, SetValueInAllEntries_3D_large self value h⟩
  · by_cases h : |value| < 1.0e-20
    · rw [SetValueInAllEntries_2D_small self value h, SetValueInAllEntries_3D_small self value h,
        SetValueInAllEntries_2D_small other value h, SetValueInAllEntries_3D_small other value h]
      exact ⟨fun _ _ _ _ => rfl, rfl, fun _ _ _ _ => rfl, rfl⟩
    · obtain ⟨s2, f2⟩ := SetValueInAllEntries_2D_large self value h
      obtain ⟨s3, f3⟩ := SetValueInAllEntries_3D_large self value h
      obtain ⟨o2, g2⟩ := SetValueInAllEntries_2D_large other value h
      obtain ⟨o3, g3⟩ := SetValueInAllEntries_3D_large other value h
      exact ⟨fun i hi j hj => (s2 i hi j hj).trans (o2 i hi j hj).symm, f2.trans g2.symm,
        fun i hi j hj => (s3 i hi j hj).trans (o3 i hi j hj).symm, f3.trans g3.symm⟩

/-- Witness of C8 on the symmetric sample tensor: value 0 takes the zeroing
branch, value 2 the filling branch. -/
theorem C8_SetValueInAllEntries_witness :
    |(0 : ℚ)| < 1.0e-20 ∧ ¬ |(2 : ℚ)| < 1.0e-20
      ∧ (_ViscousPenaltyConstMatrixCartesian2D_SetValueInAllEntries sampleSymmetricTensor
          0).isDiagonal = true
      ∧ (_ViscousPenaltyConstMatrixCartesian3D_SetValueInAllEntries sampleSymmetricTensor
          2).matrixData 4 5 = 2 :=
  ⟨by norm_num, by norm_num,
    ((C8_SetValueInAllEntries sampleSymmetricTensor sampleSymmetricTensor 0).1
      (by norm_num)).1.2.2,
    ((C8_SetValueInAllEntries sampleSymmetricTensor sampleSymmetricTensor 2).2.1
      (by norm_num)).2.1 4 (by norm_num) 5 (by norm_num)⟩

theorem SetSecondViscosity_2D_zero {α : Type} [CommRing α] (self : ConstitutiveMatrix α)
    (director : Nat → α) :
    (_ViscousPenaltyConstMatrixCartesian2D_SetSecondViscosity self 0 director).matrixData
      = self.matrixData := by
  simp only [_ViscousPenaltyConstMatrixCartesian2D_SetSecondViscosity, mul_zero, zero_mul,
    sub_zero, neg_zero, addAssign_zero]

theorem SetSecondViscosity_3D_zero {α : Type} [CommRing α] (self : ConstitutiveMatrix α)
    (director : Nat → α) :
    (_ViscousPenaltyConstMatrixCartesian3D_SetSecondViscosity self 0 director).matrixData
      = self.matrixData := by
  simp only [_ViscousPenaltyConstMatrixCartesian3D_SetSecondViscosity, mul_zero, zero_mul,
    sub_zero, neg_zero, addAssign_zero]

/-- C9: `SetSecondViscosity` with `deltaViscosity = 0` leaves every entry of
`D` unchanged, for every director, in 2D and in 3D; hence, starting from a
zero tensor, `IsotropicCorrection(eta)`, then `SetSecondViscosity(0, director)`,
then `GetIsotropicViscosity` returns exactly `eta` (entry [2][2] in 2D, entry
[3][3] in 3D). -/
theorem C9_zero_contrast_is_noop {α : Type} [CommRing α]
    (self : ConstitutiveMatrix α) (eta : α) (director : Nat → α) :
    (_ViscousPenaltyConstMatrixCartesian2D_SetSecondViscosity self 0 director).matrixData
        = self.matrixData
      ∧ (_ViscousPenaltyConstMatrixCartesian3D_SetSecondViscosity self 0 director).matrixData
        = self.matrixData
      ∧ (self.matrixData = (fun _ _ => 0) →
        _ViscousPenaltyConstMatrixCartesian2D_GetIsotropicViscosity
            (_ViscousPenaltyConstMatrixCartesian2D_SetSecondViscosity
              (_ViscousPenaltyConstMatrixCartesian2D_IsotropicCorrection self eta) 0 director)
          = eta)
      ∧ (self.matrixData = (fun _ _ => 0) →
        _ViscousPenaltyConstMatrixCartesian3D_GetIsotropicViscosity
            (_ViscousPenaltyConstMatrixCartesian3D_SetSecondViscosity
              (_ViscousPenaltyConstMatrixCartesian3D_IsotropicCorrection self eta) 0 director)
          = eta) := by
  refine ⟨SetSecondViscosity_2D_zero self director, SetSecondViscosity_3D_zero self director,
    fun h => ?_, fun h => ?_⟩
  · unfold _ViscousPenaltyConstMatrixCartesian2D_GetIsotropicViscosity
    rw [SetSecondViscosity_2D_zero, (IsotropicCorrection_2D_diagonal self eta).2.2, h, zero_add]
  · unfold _ViscousPenaltyConstMatrixCartesian3D_GetIsotropicViscosity
    rw [SetSecondViscosity_3D_zero, (IsotropicCorrection_3D_diagonal self eta).2.2.2.1, h,
      zero_add]

/-- Witness of C9 on the zero tensor over the integers with eta 7 and the
director (1, 2, 3). -/
theorem C9_zero_contrast_is_noop_witness :
    sampleZeroTensor.matrixData = (fun _ _ => 0)
      ∧ _ViscousPenaltyConstMatrixCartesian2D_GetIsotropicViscosity
          (_ViscousPenaltyConstMatrixCartesian2D_SetSecondViscosity
            (_ViscousPenaltyConstMatrixCartesian2D_IsotropicCorrection sampleZeroTensor 7) 0
            sampleDirector)
        = 7
      ∧ _ViscousPenaltyConstMatrixCartesian3D_GetIsotropicViscosity
          (_ViscousPenaltyConstMatrixCartesian3D_SetSecondViscosity
            (_ViscousPenaltyConstMatrixCartesian3D_IsotropicCorrection sampleZeroTensor 7) 0
            sampleDirector)
        = 7 :=
  ⟨rfl, (C9_zero_contrast_is_noop sampleZeroTensor 7 sampleDirector).2.2.1 rfl,
    (C9_zero_contrast_is_noop sampleZeroTensor 7 sampleDirector).2.2.2 rfl⟩

/-! ### Stress recovery -/

theorem toMatrix_mulVec_three {α : Type} [CommRing α] (A : Nat → Nat → α) (s0 s1 s2 : α)
    (i : Fin 3) :
    (toMatrix 3 3 A).mulVec ![s0, s1, s2] i
      = A i.val 0 * s0 + A i.val 1 * s1 + A i.val 2 * s2 := by
  simp only [Matrix.mulVec, Matrix.dotProduct, Fin.sum_univ_three]
  rfl

theorem toMatrix_mulVec_six {α : Type} [CommRing α] (A : Nat → Nat → α)
    (s0 s1 s2 s3 s4 s5 : α) (i : Fin 6) :
    (toMatrix 6 6 A).mulVec ![s0, s1, s2, s3, s4, s5] i
      = A i.val 0 * s0 + A i.val 1 * s1 + A i.val 2 * s2 + A i.val 3 * s3 + A i.val 4 * s4
        + A i.val 5 * s5 := by
  simp only [Matrix.mulVec, Matrix.dotProduct, Fin.sum_univ_six]
  rfl

theorem CalculateStress_2D_general {α : Type} [CommRing α] (self : ConstitutiveMatrix α)
    (strainRate stress : Nat → α) (h : self.isDiagonal = false) :
    toVector 3 (_ViscousPenaltyConstMatrixCartesian2D_CalculateStress self strainRate stress)
      = (toMatrix 3 3 self.matrixData).mulVec
          ![strainRate 0, strainRate 1, 2 * strainRate 2] := by
  funext i
  rw [toMatrix_mulVec_three]
  unfold _ViscousPenaltyConstMatrixCartesian2D_CalculateStress
  rw [h]
  simp only [Bool.false_eq_true, if_false, toVector]
  fin_cases i <;>
    simp only [assign1_apply, Nat.reduceEqDiff, if_true, if_false,
      OfNat.ofNat_ne_zero, OfNat.zero_ne_ofNat, OfNat.ofNat_ne_one,
      OfNat.one_ne_ofNat, zero_ne_one, one_ne_zero] <;>
    ring

theorem CalculateStress_3D_general {α : Type} [CommRing α] (self : ConstitutiveMatrix α)
    (strainRate stress : Nat → α) (h : self.isDiagonal = false) :
    toVector 6 (_ViscousPenaltyConstMatrixCartesian3D_CalculateStress self strainRate stress)
      = (toMatrix 6 6 self.matrixData).mulVec
          ![strainRate 0, strainRate 1, strainRate 2, 2 * strainRate 3, 2 * strainRate 4,
            2 * strainRate 5] := by
  funext i
  rw [toMatrix_mulVec_six]
  unfold _ViscousPenaltyConstMatrixCartesian3D_CalculateStress
  rw [h]
  simp only [Bool.false_eq_true, if_false, toVector]
  fin_cases i <;>
    simp only [assign1_apply, Nat.reduceEqDiff, if_true, if_false,
      OfNat.ofNat_ne_zero, OfNat.zero_ne_ofNat, OfNat.ofNat_ne_one,
      OfNat.one_ne_ofNat, zero_ne_one, one_ne_zero] <;>
    ring

/-- C10: with `isDiagonal` false, `CalculateStress` returns `stress = D * s`
for every tensor `D` and every Voigt strain rate `e`, where `s` is `e` with its
shear components doubled: `s = (e0, e1, 2 e2)` and 3 stress components in 2D,
`s = (e0, e1, e2, 2 e3, 2 e4, 2 e5)` and 6 stress components in 3D. -/
theorem C10_CalculateStress_general {α : Type} [CommRing α] (self : ConstitutiveMatrix α)
    (strainRate stress : Nat → α) (h : self.isDiagonal = false) :
    toVector 3 (_ViscousPenaltyConstMatrixCartesian2D_CalculateStress self strainRate stress)
        = (toMatrix 3 3 self.matrixData).mulVec
            ![strainRate 0, strainRate 1, 2 * strainRate 2]
      ∧ toVector 6
          (_ViscousPenaltyConstMatrixCartesian3D_CalculateStress self strainRate stress)
        = (toMatrix 6 6 self.matrixData).mulVec
            ![strainRate 0, strainRate 1, strainRate 2, 2 * strainRate 3, 2 * strainRate 4,
              2 * strainRate 5] :=
  ⟨CalculateStress_2D_general self strainRate stress h,
    CalculateStress_3D_general self strainRate stress h⟩

/-- Witness of C10 on the full integer tensor and the strain rate
(1, 2, 3, 4, 5, 6), where the 2D `stress[0] = 23`. -/
theorem C10_CalculateStress_general_witness :
    sampleFullTensor.isDiagonal = false
      ∧ toVector 3 (_ViscousPenaltyConstMatrixCartesian2D_CalculateStress sampleFullTensor
          sampleStrainRate (fun _ => 0))
        = (toMatrix 3 3 sampleFullTensor.matrixData).mulVec
            ![sampleStrainRate 0, sampleStrainRate 1, 2 * sampleStrainRate 2]
      ∧ toVector 6 (_ViscousPenaltyConstMatrixCartesian3D_CalculateStress sampleFullTensor
          sampleStrainRate (fun _ => 0))
        = (toMatrix 6 6 sampleFullTensor.matrixData).mulVec
            ![sampleStrainRate 0, sampleStrainRate 1, sampleStrainRate 2,
              2 * sampleStrainRate 3, 2 * sampleStrainRate 4, 2 * sampleStrainRate 5]
      ∧ _ViscousPenaltyConstMatrixCartesian2D_CalculateStress sampleFullTensor
          sampleStrainRate (fun _ => 0) 0 = 23 :=
  ⟨rfl, (C10_CalculateStress_general sampleFullTensor sampleStrainRate (fun _ => 0) rfl).1,
    (C10_CalculateStress_general sampleFullTensor sampleStrainRate (fun _ => 0) rfl).2,
    by decide⟩

/-! ### The loops of `AssembleElement` -/

theorem spec_B2D_transpose_mul {α : Type} [CommRing α] (dx dy : α)
    (M : Matrix (Fin 3) (Fin 2) α) (a b : Fin 2) :
    ((spec_B2D dx dy).transpose * M) a b =
      if a.val = 0 then dx * M 0 b + dy * M 2 b else dy * M 1 b + dx * M 2 b := by
  rw [Matrix.mul_apply, Fin.sum_univ_three]
  fin_cases a
  · show dx * M 0 b + 0 * M 1 b + dy * M 2 b = dx * M 0 b + dy * M 2 b
    ring
  · show 0 * M 0 b + dy * M 1 b + dx * M 2 b = dy * M 1 b + dx * M 2 b
    ring

theorem spec_B3D_transpose_mul {α : Type} [CommRing α] (dx dy dz : α)
    (M : Matrix (Fin 6) (Fin 3) α) (a b : Fin 3) :
    ((spec_B3D dx dy dz).transpose * M) a b =
      if a.val = 0 then dx * M 0 b + dy * M 3 b + dz * M 4 b
      else if a.val = 1 then dy * M 1 b + dx * M 3 b + dz * M 5 b
      else dz * M 2 b + dx * M 4 b + dy * M 5 b := by
  rw [Matrix.mul_apply, Fin.sum_univ_six]
  fin_cases a
  · show dx * M 0 b + 0 * M 1 b + 0 * M 2 b + dy * M 3 b + dz * M 4 b + 0 * M 5 b
      = dx * M 0 b + dy * M 3 b + dz * M 4 b
    ring
  · show 0 * M 0 b + dy * M 1 b + 0 * M 2 b + dx * M 3 b + 0 * M 4 b + dz * M 5 b
      = dy * M 1 b + dx * M 3 b + dz * M 5 b
    ring
  · show 0 * M 0 b + 0 * M 1 b + dz * M 2 b + 0 * M 3 b + dx * M 4 b + dy * M 5 b
      = dz * M 2 b + dx * M 4 b + dy * M 5 b
    ring

/-- One pass of the 2D Picard inner loop, read at an entry of the block of the
node pair `(j, i)`: the entry grows by the `[a][b]` entry of
`B(colNode)^T * Dtilda_B` when the pass is that of the pair, and is left alone
otherwise. -/
theorem colNodeBody_2D_Picard_apply {α : Type} [CommRing α] (sle : SystemLinearEquations)
    (self : ViscousPenaltyConstMatrixCartesian α) (particle : IntegrationPoint α) (eta : α)
    (rowNode_I colNode_I : Nat) (elStiffMat : Nat → Nat → α)
    (hP : sle.nlFormJacobian = false) (i j : Nat) (a b : Fin 2) :
    AssembleElement_colNodeBody 2 sle self particle eta rowNode_I elStiffMat colNode_I
        (j * 2 + a.val) (i * 2 + b.val)
      = elStiffMat (j * 2 + a.val) (i * 2 + b.val)
        + if colNode_I = j ∧ rowNode_I = i then
            ((spec_nodeB2D particle.GNx colNode_I).transpose * toMatrix 3 2 self.Dtilda_B) a b
          else 0 := by
  have ha := a.isLt
  have hb := b.isLt
  unfold AssembleElement_colNodeBody
  simp only [hP, Bool.not_false, if_true]
  by_cases h : colNode_I = j ∧ rowNode_I = i
  · obtain ⟨rfl, rfl⟩ := h
    rw [if_pos ⟨rfl, rfl⟩, spec_nodeB2D, spec_B2D_transpose_mul]
    fin_cases a <;> fin_cases b <;>
      simp (disch := omega) only [addAssign_same, addAssign_ne, Fin.zero_eta, Fin.mk_one,
        Fin.val_zero, Fin.val_one, add_zero, if_true, if_false, one_ne_zero, toMatrix,
        I_AXIS, J_AXIS, Fin.isValue, Fin.val_two]
  · rw [if_neg h, add_zero]
    simp (disch := omega) only [addAssign_ne]

/-- One pass of the 3D inner loop, read at an entry of the block of the node
pair `(j, i)`. -/
theorem colNodeBody_3D_apply {α : Type} [CommRing α] (sle : SystemLinearEquations)
    (self : ViscousPenaltyConstMatrixCartesian α) (particle : IntegrationPoint α) (eta : α)
    (rowNode_I colNode_I : Nat) (elStiffMat : Nat → Nat → α)
    (i j : Nat) (a b : Fin 3) :
    AssembleElement_colNodeBody 3 sle self particle eta rowNode_I elStiffMat colNode_I
        (j * 3 + a.val) (i * 3 + b.val)
      = elStiffMat (j * 3 + a.val) (i * 3 + b.val)
        + if colNode_I = j ∧ rowNode_I = i then
            ((spec_nodeB3D particle.GNx colNode_I).transpose * toMatrix 6 3 self.Dtilda_B) a b
          else 0 := by
  have ha := a.isLt
  have hb := b.isLt
  unfold AssembleElement_colNodeBody
  simp only [show ¬ (3 = 2) by decide, if_false]
  by_cases h : colNode_I = j ∧ rowNode_I = i
  · obtain ⟨rfl, rfl⟩ := h
    rw [if_pos ⟨rfl, rfl⟩, spec_nodeB3D, spec_B3D_transpose_mul]
    fin_cases a <;> fin_cases b <;>
      simp (disch := omega) only [addAssign_same, addAssign_ne, Fin.zero_eta, Fin.mk_one,
        Fin.val_zero, Fin.val_one, add_zero, if_true, if_false, one_ne_zero, toMatrix,
        I_AXIS, J_AXIS, K_AXIS, Fin.isValue, Fin.val_two, Fin.reduceFinMk,
        OfNat.ofNat_ne_zero, OfNat.ofNat_ne_one] <;> rfl
  · rw [if_neg h, add_zero]
    simp (disch := omega) only [addAssign_ne]

theorem foldl_add_apply {α β : Type} [AddCommMonoid α] (f : (Nat → Nat → α) → β → Nat → Nat → α)
    (g : β → α) (r c : Nat) (l : List β)
    (h : ∀ K x, x ∈ l → f K x r c = K r c + g x) (K : Nat → Nat → α) :
    l.foldl f K r c = K r c + (l.map g).sum := by
  induction l generalizing K with
  | nil => simp
  | cons x xs ih =>
    rw [List.foldl_cons, ih (fun K y hy => h K y (List.mem_cons_of_mem _ hy)),
      h K x (List.mem_cons_self _ _), List.map_cons, List.sum_cons, add_assoc]

theorem sum_range_ite_eq {α : Type} [AddCommMonoid α] (n j : Nat) (P : Prop) [Decidable P]
    (v : Nat → α) :
    ((List.range n).map (fun x => if x = j ∧ P then v x else 0)).sum
      = if j < n ∧ P then v j else 0 := by
  induction n with
  | zero => simp
  | succ n ih =>
    rw [List.range_succ, List.map_append, List.sum_append, ih]
    simp only [List.map_cons, List.map_nil, List.sum_cons, List.sum_nil, add_zero]
    by_cases hP : P
    · by_cases hj : j < n
      · have : ¬ (n = j) := by omega
        simp [hP, hj, this, Nat.lt_succ_of_lt hj]
      · by_cases hn : n = j
        · subst hn
          simp [hP]
        · have : ¬ (j < n + 1) := by omega
          simp [hP, hj, hn, this]
    · simp [hP]

theorem colLoop_2D_Picard_apply {α : Type} [CommRing α] (sle : SystemLinearEquations)
    (self : ViscousPenaltyConstMatrixCartesian α) (particle : IntegrationPoint α) (eta : α)
    (rowNode_I n : Nat) (elStiffMat : Nat → Nat → α)
    (hP : sle.nlFormJacobian = false) (i j : Nat) (a b : Fin 2) :
    (List.range n).foldl (AssembleElement_colNodeBody 2 sle self particle eta rowNode_I)
        elStiffMat (j * 2 + a.val) (i * 2 + b.val)
      = elStiffMat (j * 2 + a.val) (i * 2 + b.val)
        + if j < n ∧ rowNode_I = i then
            ((spec_nodeB2D particle.GNx j).transpose * toMatrix 3 2 self.Dtilda_B) a b
          else 0 := by
  rw [foldl_add_apply _
    (fun col => if col = j ∧ rowNode_I = i then
      ((spec_nodeB2D particle.GNx col).transpose * toMatrix 3 2 self.Dtilda_B) a b else 0)
    _ _ _ (fun K x _ => colNodeBody_2D_Picard_apply sle self particle eta rowNode_I x K hP i j a b)]
  rw [sum_range_ite_eq n j (rowNode_I = i)
    (fun col => ((spec_nodeB2D particle.GNx col).transpose * toMatrix 3 2 self.Dtilda_B) a b)]

theorem Assemble_D_B_2D_truthful {α : Type} [CommRing α] (self : ConstitutiveMatrix α)
    (GNx : Nat → Nat → α) (node_I : Nat) (D_B : Nat → Nat → α)
    (h : flagTruthful 3 self.isDiagonal self.matrixData) :
    toMatrix 3 2 (_ViscousPenaltyConstMatrixCartesian2D_Assemble_D_B self GNx node_I D_B)
      = toMatrix 3 3 self.matrixData * spec_nodeB2D GNx node_I := by
  cases hd : self.isDiagonal with
  | false => exact Assemble_D_B_2D_general self GNx node_I D_B hd
  | true =>
    have h1 := Assemble_D_B_2D_paths_agree self GNx node_I D_B (h hd)
    have h2 := Assemble_D_B_2D_general { self with isDiagonal := false } GNx node_I D_B rfl
    have h3 : ({ self with isDiagonal := true } : ConstitutiveMatrix α) = self := by
      cases self
      simp only at hd
      simp [hd]
    rw [h3] at h1
    rw [h1, h2]

theorem Assemble_D_B_3D_truthful {α : Type} [CommRing α] (self : ConstitutiveMatrix α)
    (GNx : Nat → Nat → α) (node_I : Nat) (D_B : Nat → Nat → α)
    (h : flagTruthful 6 self.isDiagonal self.matrixData) :
    toMatrix 6 3 (_ViscousPenaltyConstMatrixCartesian3D_Assemble_D_B self GNx node_I D_B)
      = toMatrix 6 6 self.matrixData * spec_nodeB3D GNx node_I := by
  cases hd : self.isDiagonal with
  | false => exact Assemble_D_B_3D_general self GNx node_I D_B hd
  | true =>
    have h1 := Assemble_D_B_3D_paths_agree self GNx node_I D_B (h hd)
    have h2 := Assemble_D_B_3D_general { self with isDiagonal := false } GNx node_I D_B rfl
    have h3 : ({ self with isDiagonal := true } : ConstitutiveMatrix α) = self := by
      cases self
      simp only at hd
      simp [hd]
    rw [h3] at h1
    rw [h1, h2]

theorem rowLoop_2D_Picard_apply {α : Type} [CommRing α] (sle : SystemLinearEquations)
    (particle : IntegrationPoint α) (eta : α) (n : Nat)
    (hP : sle.nlFormJacobian = false) (i j : Nat) (a b : Fin 2) (m : Nat)
    (st : ViscousPenaltyConstMatrixCartesian α × (Nat → Nat → α))
    (hdim : st.1.dim = 2) (hflag : flagTruthful 3 st.1.isDiagonal st.1.matrixData) :
    ((List.range m).foldl (AssembleElement_rowNodeBody 2 sle n particle eta) st).1.toConstitutiveMatrix
        = st.1.toConstitutiveMatrix
      ∧ ((List.range m).foldl (AssembleElement_rowNodeBody 2 sle n particle eta) st).2
          (j * 2 + a.val) (i * 2 + b.val)
        = st.2 (j * 2 + a.val) (i * 2 + b.val)
          + if j < n ∧ i < m then
              ((spec_nodeB2D particle.GNx j).transpose
                * (toMatrix 3 3 st.1.matrixData * spec_nodeB2D particle.GNx i)) a b
            else 0 := by
  induction m with
  | zero => simp
  | succ m ih =>
    obtain ⟨ih1, ih2⟩ := ih
    rw [List.range_succ, List.foldl_append, List.foldl_cons, List.foldl_nil]
    generalize (List.range m).foldl (AssembleElement_rowNodeBody 2 sle n particle eta) st = res
      at ih1 ih2
    refine ⟨ih1, ?_⟩
    unfold AssembleElement_rowNodeBody
    simp only
    rw [colLoop_2D_Picard_apply _ _ _ _ _ _ _ hP, ih2]
    simp only [ih1]
    have hD : toMatrix 3 2 (ConstitutiveMatrix_Assemble_D_B st.1.toConstitutiveMatrix
        particle.GNx m res.1.Dtilda_B)
        = toMatrix 3 3 st.1.matrixData * spec_nodeB2D particle.GNx m := by
      unfold ConstitutiveMatrix_Assemble_D_B
      rw [if_pos hdim]
      exact Assemble_D_B_2D_truthful _ _ _ _ hflag
    rw [hD]
    by_cases hj : j < n
    · by_cases hi : i < m
      · have h1 : i < m + 1 := by omega
        have h2 : ¬ (m = i) := by omega
        simp [hj, hi, h1, h2]
      · by_cases hm : m = i
        · subst hm
          simp [hj]
        · have h1 : ¬ (i < m + 1) := by omega
          simp [hj, hi, h1, hm]
    · simp [hj]

/-- The loop over the row nodes rewrites only the scratch buffer of the object. -/
theorem rowLoop_self {α : Type} [CommRing α] (dim : Nat) (sle : SystemLinearEquations)
    (particle : IntegrationPoint α) (eta : α) (n : Nat) (l : List Nat)
    (st : ViscousPenaltyConstMatrixCartesian α × (Nat → Nat → α)) :
    (l.foldl (AssembleElement_rowNodeBody dim sle n particle eta) st).1.toConstitutiveMatrix
        = st.1.toConstitutiveMatrix
      ∧ (l.foldl (AssembleElement_rowNodeBody dim sle n particle eta)
          st).1.incompressibility_Penalty = st.1.incompressibility_Penalty
      ∧ (l.foldl (AssembleElement_rowNodeBody dim sle n particle eta)
          st).1.viscosityWeighting = st.1.viscosityWeighting
      ∧ (l.foldl (AssembleElement_rowNodeBody dim sle n particle eta) st).1.Ni = st.1.Ni := by
  induction l generalizing st with
  | nil => exact ⟨rfl, rfl, rfl, rfl⟩
  | cons x xs ih =>
    rw [List.foldl_cons]
    exact ih _

/-- The body of the quadrature loop keeps the dimension and the penalty
configuration of the object. -/
theorem particleBody_self {α : Type} [CommRing α] (log : α → α) (dim : Nat)
    (sle : SystemLinearEquations) (n : Nat) (st : QuadratureState α)
    (particle : IntegrationPoint α) :
    (AssembleElement_particleBody log dim sle n st particle).self.dim = st.self.dim
      ∧ (AssembleElement_particleBody log dim sle n st particle).self.incompressibility_Penalty
        = st.self.incompressibility_Penalty
      ∧ (AssembleElement_particleBody log dim sle n st particle).self.viscosityWeighting
        = st.self.viscosityWeighting
      ∧ (AssembleElement_particleBody log dim sle n st particle).self.Ni = st.self.Ni := by
  unfold AssembleElement_particleBody
  simp only
  obtain ⟨h1, h2, h3, h4⟩ := rowLoop_self dim sle particle
    ((ConstitutiveMatrix_Assemble st.self.toConstitutiveMatrix particle).matrixData 2 2) n
    (List.range n)
    ({ st.self with
        toConstitutiveMatrix :=
          ConstitutiveMatrix_MultiplyByValue
            (ConstitutiveMatrix_Assemble st.self.toConstitutiveMatrix particle)
            (particle.detJac * particle.weight) }, st.elStiffMat)
  exact ⟨by rw [h1]; rfl, h2, h3, h4⟩

/-- The quadrature loop keeps the dimension and the penalty configuration of
the object. -/
theorem quadratureLoop_self {α : Type} [CommRing α] (log : α → α) (dim : Nat)
    (sle : SystemLinearEquations) (n : Nat) (l : List (IntegrationPoint α))
    (st : QuadratureState α) :
    (l.foldl (AssembleElement_particleBody log dim sle n) st).self.dim = st.self.dim
      ∧ (l.foldl (AssembleElement_particleBody log dim sle n) st).self.incompressibility_Penalty
        = st.self.incompressibility_Penalty
      ∧ (l.foldl (AssembleElement_particleBody log dim sle n) st).self.viscosityWeighting
        = st.self.viscosityWeighting
      ∧ (l.foldl (AssembleElement_particleBody log dim sle n) st).self.Ni = st.self.Ni := by
  induction l generalizing st with
  | nil => exact ⟨rfl, rfl, rfl, rfl⟩
  | cons x xs ih =>
    rw [List.foldl_cons]
    obtain ⟨h1, h2, h3, h4⟩ := ih (AssembleElement_particleBody log dim sle n st x)
    obtain ⟨g1, g2, g3, g4⟩ := particleBody_self log dim sle n st x
    exact ⟨h1.trans g1, h2.trans g2, h3.trans g3, h4.trans g4⟩

theorem scaledTensor_flagTruthful {α : Type} [CommRing α] (n : Nat)
    (particle : IntegrationPoint α)
    (h : flagTruthful n particle.isDiagonal particle.matrixData) :
    flagTruthful n particle.isDiagonal (scaledTensor particle) := by
  intro hd i hi j hj hij
  unfold scaledTensor
  rw [h hd i hi j hj hij, zero_mul]

/-- The body of the quadrature loop in 2D Picard mode, read at an entry of the
block of the node pair `(j, i)`: the point adds the `[a][b]` entry of
`B_j^T * (D~ * B_i)`, `D~` being its scaled tensor. -/
theorem particleBody_2D_Picard_apply {α : Type} [CommRing α] (log : α → α)
    (sle : SystemLinearEquations) (n : Nat) (hP : sle.nlFormJacobian = false)
    (st : QuadratureState α) (particle : IntegrationPoint α) (hdim : st.self.dim = 2)
    (hflag : flagTruthful 3 particle.isDiagonal particle.matrixData)
    (i j : Nat) (a b : Fin 2) :
    (AssembleElement_particleBody log 2 sle n st particle).elStiffMat
        (j * 2 + a.val) (i * 2 + b.val)
      = st.elStiffMat (j * 2 + a.val) (i * 2 + b.val)
        + if j < n ∧ i < n then
            ((spec_nodeB2D particle.GNx j).transpose
              * (toMatrix 3 3 (scaledTensor particle) * spec_nodeB2D particle.GNx i)) a b
          else 0 := by
  unfold AssembleElement_particleBody
  simp only
  exact (rowLoop_2D_Picard_apply sle particle _ n hP i j a b n
    ({ st.self with
        toConstitutiveMatrix :=
          ConstitutiveMatrix_MultiplyByValue
            (ConstitutiveMatrix_Assemble st.self.toConstitutiveMatrix particle)
            (particle.detJac * particle.weight) }, st.elStiffMat)
    hdim (scaledTensor_flagTruthful 3 particle hflag)).2

/-- The quadrature loop in 2D Picard mode, read at an entry of the block of
the node pair `(j, i)`: the sum over the points of their contributions. -/
theorem quadratureLoop_2D_Picard_apply {α : Type} [CommRing α] (log : α → α)
    (sle : SystemLinearEquations) (n : Nat) (hP : sle.nlFormJacobian = false)
    (i j : Nat) (a b : Fin 2) (l : List (IntegrationPoint α))
    (hflag : ∀ p ∈ l, flagTruthful 3 p.isDiagonal p.matrixData)
    (st : QuadratureState α) (hdim : st.self.dim = 2) :
    (l.foldl (AssembleElement_particleBody log 2 sle n) st).elStiffMat
        (j * 2 + a.val) (i * 2 + b.val)
      = st.elStiffMat (j * 2 + a.val) (i * 2 + b.val)
        + (l.map (fun p => if j < n ∧ i < n then
            ((spec_nodeB2D p.GNx j).transpose
              * (toMatrix 3 3 (scaledTensor p) * spec_nodeB2D p.GNx i)) a b
          else 0)).sum := by
  induction l generalizing st with
  | nil => simp
  | cons x xs ih =>
    rw [List.foldl_cons,
      ih (fun p hp => hflag p (List.mem_cons_of_mem _ hp)) _
        ((particleBody_self log 2 sle n st x).1.trans hdim),
      particleBody_2D_Picard_apply log sle n hP st x hdim (hflag x (List.mem_cons_self _ _)),
      List.map_cons, List.sum_cons, add_assoc]


/-! ### The inner loop and the assembled matrix -/

/-- C1 (amended): in Picard mode, for every scaled tensor `D~` whose diagonal
flag is truthful (`isDiagonal` false, or every off-diagonal entry of `D~` zero),
every gradient array `GNx` and every ordered node pair, one pass of the inner
loop of `AssembleElement`, run on the `Dtilda_B` that `Assemble_D_B` produces
for the row node, adds to `elStiffMat[colNode*dim + a][rowNode*dim + b]`
exactly the entry `[a][b]` of `B(colNode)^T * (D~ * B(rowNode))`, for `dim = 2`
(2x2 block, 3-row `B`) and for `dim = 3` (3x3 block, 6-row `B`). -/
theorem C1_inner_loop_adds_Bt_D_B {α : Type} [CommRing α]
    (sle : SystemLinearEquations) (self : ViscousPenaltyConstMatrixCartesian α)
    (particle : IntegrationPoint α) (eta : α) (rowNode_I colNode_I : Nat)
    (elStiffMat : Nat → Nat → α) :
    (sle.nlFormJacobian = false → self.dim = 2 →
      flagTruthful 3 self.isDiagonal self.matrixData →
      ∀ a b : Fin 2,
        AssembleElement_colNodeBody 2 sle
            { self with
              Dtilda_B := ConstitutiveMatrix_Assemble_D_B self.toConstitutiveMatrix
                particle.GNx rowNode_I self.Dtilda_B }
            particle eta rowNode_I elStiffMat colNode_I
            (colNode_I * 2 + a.val) (rowNode_I * 2 + b.val)
          = elStiffMat (colNode_I * 2 + a.val) (rowNode_I * 2 + b.val)
            + ((spec_nodeB2D particle.GNx colNode_I).transpose
                * (toMatrix 3 3 self.matrixData * spec_nodeB2D particle.GNx rowNode_I)) a b)
      ∧ (self.dim = 3 → flagTruthful 6 self.isDiagonal self.matrixData →
        ∀ a b : Fin 3,
          AssembleElement_colNodeBody 3 sle
              { self with
                Dtilda_B := ConstitutiveMatrix_Assemble_D_B self.toConstitutiveMatrix
                  particle.GNx rowNode_I self.Dtilda_B }
              particle eta rowNode_I elStiffMat colNode_I
              (colNode_I * 3 + a.val) (rowNode_I * 3 + b.val)
            = elStiffMat (colNode_I * 3 + a.val) (rowNode_I * 3 + b.val)
              + ((spec_nodeB3D particle.GNx colNode_I).transpose
                  * (toMatrix 6 6 self.matrixData * spec_nodeB3D particle.GNx rowNode_I))
                a b) := by
  constructor
  · intro hP hdim hflag a b
    rw [colNodeBody_2D_Picard_apply sle _ particle eta rowNode_I colNode_I elStiffMat hP
      rowNode_I colNode_I a b, if_pos ⟨rfl, rfl⟩]
    simp only [ConstitutiveMatrix_Assemble_D_B, if_pos hdim]
    rw [Assemble_D_B_2D_truthful _ _ _ _ hflag]
  · intro hdim hflag a b
    rw [colNodeBody_3D_apply sle _ particle eta rowNode_I colNode_I elStiffMat
      rowNode_I colNode_I a b, if_pos ⟨rfl, rfl⟩]
    have h2 : ¬ (self.dim = 2) := by omega
    simp only [ConstitutiveMatrix_Assemble_D_B, if_neg h2]
    rw [Assemble_D_B_3D_truthful _ _ _ _ hflag]

/-- C1 as stated fails on a stale flag: for the 2D tensor with every entry 1
flagged diagonal and gradients all 1, the pass of the pair (0, 0) adds 2 to
`elStiffMat[0][0]`, while the entry `[0][0]` of `B^T * (D~ * B)` is 4. -/
theorem C1_stale_flag_counterexample :
    samplePicard.nlFormJacobian = false ∧ sampleStaleObject.dim = 2
      ∧ AssembleElement_colNodeBody 2 samplePicard
          { sampleStaleObject with
            Dtilda_B := ConstitutiveMatrix_Assemble_D_B sampleStaleObject.toConstitutiveMatrix
              sampleUnitPoint.GNx 0 sampleStaleObject.Dtilda_B }
          sampleUnitPoint 0 0 (fun _ _ => 0) 0 (0 * 2 + 0) (0 * 2 + 0) = 2
      ∧ (0 : ℤ) + ((spec_nodeB2D sampleUnitPoint.GNx 0).transpose
            * (toMatrix 3 3 sampleStaleObject.matrixData * spec_nodeB2D sampleUnitPoint.GNx 0))
          0 0 = 4
      ∧ AssembleElement_colNodeBody 2 samplePicard
          { sampleStaleObject with
            Dtilda_B := ConstitutiveMatrix_Assemble_D_B sampleStaleObject.toConstitutiveMatrix
              sampleUnitPoint.GNx 0 sampleStaleObject.Dtilda_B }
          sampleUnitPoint 0 0 (fun _ _ => 0) 0 (0 * 2 + 0) (0 * 2 + 0)
        ≠ (0 : ℤ) + ((spec_nodeB2D sampleUnitPoint.GNx 0).transpose
            * (toMatrix 3 3 sampleStaleObject.matrixData
              * spec_nodeB2D sampleUnitPoint.GNx 0)) 0 0 := by
  refine ⟨rfl, rfl, ?_, ?_, ?_⟩
  · decide
  · decide
  · decide

theorem toMatrix_scaledTensor {α : Type} [CommRing α] (n : Nat)
    (particle : IntegrationPoint α) :
    toMatrix n n (scaledTensor particle)
      = (particle.weight * particle.detJac) • toMatrix n n particle.matrixData := by
  ext i j
  simp only [toMatrix, scaledTensor, Matrix.smul_apply, smul_eq_mul]
  ring

theorem isotropic_flagTruthful {α : Type} [CommRing α] (particle : IntegrationPoint α)
    (d : Fin 3 → α) (h : toMatrix 3 3 particle.matrixData = Matrix.diagonal d) :
    flagTruthful 3 particle.isDiagonal particle.matrixData := by
  intro _ i hi j hj hij
  have h1 := congrFun (congrFun h ⟨i, hi⟩) ⟨j, hj⟩
  rw [Matrix.diagonal_apply_ne _ (by simpa using hij)] at h1
  exact h1

theorem penaltyTerm_zero {α : Type} [Field α] [DecidableEq α] (exp : α → α)
    (dim n : Nat) (self : ViscousPenaltyConstMatrixCartesian α) (detJac : α)
    (GN0x : Nat → Nat → α) (averaged_eta total_weight : α) (elStiffMat : Nat → Nat → α)
    (h : self.incompressibility_Penalty = 0) :
    AssembleElement_penaltyTerm exp dim n self detJac GN0x averaged_eta total_weight elStiffMat
      = elStiffMat := by
  unfold AssembleElement_penaltyTerm
  rw [if_neg (not_not.mpr h)]

theorem spec_B2D_transpose_diagonal_mul {α : Type} [CommRing α] (dx dy ex ey d0 d1 d2 : α)
    (a b : Fin 2) :
    ((spec_B2D dx dy).transpose * Matrix.diagonal ![d0, d1, d2] * spec_B2D ex ey) a b
      = if a.val = 0 then (if b.val = 0 then dx * d0 * ex + dy * d2 * ey else dy * d2 * ex)
        else (if b.val = 0 then dx * d2 * ey else dy * d1 * ey + dx * d2 * ex) := by
  rw [Matrix.mul_assoc, spec_B2D_transpose_mul]
  simp only [Matrix.diagonal_mul]
  fin_cases a <;> fin_cases b
  · show dx * (d0 * ex) + dy * (d2 * ey) = dx * d0 * ex + dy * d2 * ey
    ring
  · show dx * (d0 * 0) + dy * (d2 * ex) = dy * d2 * ex
    ring
  · show dy * (d1 * 0) + dx * (d2 * ey) = dx * d2 * ey
    ring
  · show dy * (d1 * ey) + dx * (d2 * ex) = dy * d1 * ey + dx * d2 * ex
    ring

/-- C2: end to end in 2D: for an element with `n` nodes whose every quadrature
point carries the isotropic tensor `diag(2 eta, 2 eta, eta)` flagged diagonal,
in Picard mode, with `incompressibility_Penalty = 0` and `elStiffMat` zero on
entry, `AssembleElement` returns, and leaves in
`elStiffMat[j*2 + a][i*2 + b]` the sum over the points `p` of
`weight_p * detJac_p * (B_j(p)^T * diag(2 eta, 2 eta, eta) * B_i(p))[a][b]`,
for all nodes `i`, `j` and components `a`, `b`. -/
theorem C2_isotropic_stiffness_2D {α : Type} [Field α] [DecidableEq α] (log exp : α → α)
    (self : ViscousPenaltyConstMatrixCartesian α) (element : Element α)
    (sle : SystemLinearEquations) (eta : α)
    (hdim : self.dim = 2) (hP : sle.nlFormJacobian = false)
    (hpen : self.incompressibility_Penalty = 0)
    (hD : ∀ p ∈ element.particles, p.isDiagonal = true
      ∧ toMatrix 3 3 p.matrixData = Matrix.diagonal ![2 * eta, 2 * eta, eta]) :
    ∃ K, _ViscousPenaltyConstMatrixCartesian_AssembleElement log exp self 2 element (some sle)
          (fun _ _ => 0) = Except.ok K
      ∧ ∀ i, i < element.nodeCount → ∀ j, j < element.nodeCount → ∀ a b : Fin 2,
        K (j * 2 + a.val) (i * 2 + b.val)
          = (element.particles.map (fun p => p.weight * p.detJac
              * ((spec_nodeB2D p.GNx j).transpose * Matrix.diagonal ![2 * eta, 2 * eta, eta]
                  * spec_nodeB2D p.GNx i) a b)).sum := by
  refine ⟨_, rfl, ?_⟩
  intro i hi j hj a b
  rw [penaltyTerm_zero _ _ _ _ _ _ _ _ _
    ((quadratureLoop_self log 2 sle element.nodeCount element.particles _).2.1.trans hpen)]
  rw [quadratureLoop_2D_Picard_apply log sle element.nodeCount hP i j a b element.particles
    (fun p hp => isotropic_flagTruthful p _ (hD p hp).2) _ hdim, zero_add]
  congr 1
  apply List.map_congr_left
  intro p hp
  rw [if_pos ⟨hj, hi⟩, toMatrix_scaledTensor, (hD p hp).2, Matrix.smul_mul, Matrix.mul_smul,
    Matrix.smul_apply, smul_eq_mul, Matrix.mul_assoc]

theorem sampleIsotropicPoint_tensor (xi eta : ℚ) :
    (sampleIsotropicPoint xi eta).isDiagonal = true
      ∧ toMatrix 3 3 (sampleIsotropicPoint xi eta).matrixData
        = Matrix.diagonal ![(2 : ℚ) * 2, 2 * 2, 2] :=
  ⟨rfl, IsotropicCorrection_2D_zero _ 2 (fun _ _ _ _ => rfl)⟩

theorem sampleElement_isotropic :
    ∀ p ∈ sampleElement.particles, p.isDiagonal = true
      ∧ toMatrix 3 3 p.matrixData = Matrix.diagonal ![(2 : ℚ) * 2, 2 * 2, 2] := by
  intro p hp
  simp only [sampleElement, List.mem_cons, List.mem_singleton, List.not_mem_nil, or_false] at hp
  rcases hp with rfl | rfl | rfl | rfl <;> exact sampleIsotropicPoint_tensor _ _

/-- Witness of C2: the unit-square four-node element with four points of
viscosity `eta = 2` at `(+-1/2, +-1/2)`; there `elStiffMat[0][0] = 15/8` and
`elStiffMat[1][0] = 1/2`. -/
theorem C2_isotropic_stiffness_2D_witness :
    sampleObject2D.dim = 2 ∧ samplePicard.nlFormJacobian = false
      ∧ sampleObject2D.incompressibility_Penalty = 0
      ∧ sampleElement.nodeCount = 4
      ∧ (∀ p ∈ sampleElement.particles, p.isDiagonal = true
        ∧ toMatrix 3 3 p.matrixData = Matrix.diagonal ![(2 : ℚ) * 2, 2 * 2, 2])
      ∧ ∃ K, _ViscousPenaltyConstMatrixCartesian_AssembleElement (fun _ => 0) (fun _ => 0)
            sampleObject2D 2 sampleElement (some samplePicard) (fun _ _ => 0) = Except.ok K
        ∧ (∀ i, i < sampleElement.nodeCount → ∀ j, j < sampleElement.nodeCount →
          ∀ a b : Fin 2,
            K (j * 2 + a.val) (i * 2 + b.val)
              = (sampleElement.particles.map (fun p => p.weight * p.detJac
                  * ((spec_nodeB2D p.GNx j).transpose * Matrix.diagonal ![(2 : ℚ) * 2, 2 * 2, 2]
                      * spec_nodeB2D p.GNx i) a b)).sum)
        ∧ K 0 0 = 15 / 8 ∧ K 1 0 = 1 / 2 := by
  refine ⟨rfl, rfl, rfl, rfl, sampleElement_isotropic, ?_⟩
  obtain ⟨K, hK, hform⟩ := C2_isotropic_stiffness_2D (fun _ => 0) (fun _ => 0) sampleObject2D
    sampleElement samplePicard 2 rfl rfl rfl sampleElement_isotropic
  refine ⟨K, hK, hform, ?_, ?_⟩
  · have h := hform 0 (by decide) 0 (by decide) 0 0
    simp only [Fin.val_zero, zero_mul, add_zero] at h
    rw [h]
    simp only [spec_nodeB2D, spec_B2D_transpose_diagonal_mul, sampleElement,
      sampleIsotropicPoint, sampleQ1GNx, List.map_cons, List.map_nil, List.sum_cons,
      List.sum_nil]
    norm_num
  · have h := hform 0 (by decide) 0 (by decide) 1 0
    simp only [Fin.val_zero, Fin.val_one, zero_mul, add_zero, zero_add] at h
    rw [h]
    simp only [spec_nodeB2D, spec_B2D_transpose_diagonal_mul, sampleElement,
      sampleIsotropicPoint, sampleQ1GNx, List.map_cons, List.map_nil, List.sum_cons,
      List.sum_nil]
    norm_num

theorem sampleFullObject_flagTruthful (n dim : Nat) :
    flagTruthful n (sampleFullObject dim).isDiagonal (sampleFullObject dim).matrixData := by
  intro h
  exact absurd h Bool.false_ne_true

/-- Witness of C1 (amended): the full integer tensor flagged non-diagonal, the
node pair (rowNode 1, colNode 2), in 2D and in 3D. -/
theorem C1_inner_loop_adds_Bt_D_B_witness :
    samplePicard.nlFormJacobian = false
      ∧ flagTruthful 3 (sampleFullObject 2).isDiagonal (sampleFullObject 2).matrixData
      ∧ flagTruthful 6 (sampleFullObject 3).isDiagonal (sampleFullObject 3).matrixData
      ∧ AssembleElement_colNodeBody 2 samplePicard
          { sampleFullObject 2 with
            Dtilda_B := ConstitutiveMatrix_Assemble_D_B (sampleFullObject 2).toConstitutiveMatrix
              sampleUnitPoint.GNx 1 (sampleFullObject 2).Dtilda_B }
          sampleUnitPoint 0 1 (fun _ _ => 0) 2 (2 * 2 + (1 : Fin 2).val) (1 * 2 + (0 : Fin 2).val)
        = (0 : ℤ) + ((spec_nodeB2D sampleUnitPoint.GNx 2).transpose
            * (toMatrix 3 3 (sampleFullObject 2).matrixData
              * spec_nodeB2D sampleUnitPoint.GNx 1)) 1 0
      ∧ AssembleElement_colNodeBody 3 samplePicard
          { sampleFullObject 3 with
            Dtilda_B := ConstitutiveMatrix_Assemble_D_B (sampleFullObject 3).toConstitutiveMatrix
              sampleUnitPoint.GNx 1 (sampleFullObject 3).Dtilda_B }
          sampleUnitPoint 0 1 (fun _ _ => 0) 2 (2 * 3 + (2 : Fin 3).val) (1 * 3 + (1 : Fin 3).val)
        = (0 : ℤ) + ((spec_nodeB3D sampleUnitPoint.GNx 2).transpose
            * (toMatrix 6 6 (sampleFullObject 3).matrixData
              * spec_nodeB3D sampleUnitPoint.GNx 1)) 2 1 :=
  ⟨rfl, sampleFullObject_flagTruthful 3 2, sampleFullObject_flagTruthful 6 3,
    (C1_inner_loop_adds_Bt_D_B samplePicard (sampleFullObject 2) sampleUnitPoint 0 1 2
      (fun _ _ => 0)).1 rfl rfl (sampleFullObject_flagTruthful 3 2) 1 0,
    (C1_inner_loop_adds_Bt_D_B samplePicard (sampleFullObject 3) sampleUnitPoint 0 1 2
      (fun _ _ => 0)).2 rfl (sampleFullObject_flagTruthful 6 3) 2 1⟩

/-! ### Stress recovery: the two paths -/

theorem assign1_same {α : Type} (s : Nat → α) (i : Nat) (v : α) :
    assign1 s i v i = v := by
  simp [assign1_apply]

theorem assign1_ne {α : Type} (s : Nat → α) (i : Nat) (v : α) (k : Nat) (h : ¬ (k = i)) :
    assign1 s i v k = s k := by
  simp [assign1_apply, h]

theorem CalculateStress_2D_paths_agree {α : Type} [CommRing α] (self : ConstitutiveMatrix α)
    (strainRate stress : Nat → α) (h : offDiagonalZero 3 self.matrixData) :
    toVector 3 (_ViscousPenaltyConstMatrixCartesian2D_CalculateStress
        { self with isDiagonal := true } strainRate stress)
      = toVector 3 (_ViscousPenaltyConstMatrixCartesian2D_CalculateStress
        { self with isDiagonal := false } strainRate stress) := by
  have z : ∀ i j, i < 3 → j < 3 → i ≠ j → self.matrixData i j = 0 :=
    fun i j hi hj hij => h i hi j hj hij
  funext i
  unfold _ViscousPenaltyConstMatrixCartesian2D_CalculateStress
  simp only [Bool.false_eq_true, if_false, if_true, toVector]
  fin_cases i <;>
    simp (disch := decide) only [assign1_same, assign1_ne] <;>
    simp [z]

theorem CalculateStress_3D_paths_agree {α : Type} [CommRing α] (self : ConstitutiveMatrix α)
    (strainRate stress : Nat → α) (h : offDiagonalZero 6 self.matrixData) :
    toVector 6 (_ViscousPenaltyConstMatrixCartesian3D_CalculateStress
        { self with isDiagonal := true } strainRate stress)
      = toVector 6 (_ViscousPenaltyConstMatrixCartesian3D_CalculateStress
        { self with isDiagonal := false } strainRate stress) := by
  have z : ∀ i j, i < 6 → j < 6 → i ≠ j → self.matrixData i j = 0 :=
    fun i j hi hj hij => h i hi j hj hij
  funext i
  unfold _ViscousPenaltyConstMatrixCartesian3D_CalculateStress
  simp only [Bool.false_eq_true, if_false, if_true, toVector]
  fin_cases i <;>
    simp (disch := decide) only [assign1_same, assign1_ne] <;>
    simp [z] <;>
    ring

/-- C11: for every tensor whose off-diagonal entries are all zero and every
strain-rate vector, `CalculateStress` run with `isDiagonal = true` writes the
same stress vector, component for component, as run with `isDiagonal = false`,
in 2D (3 components) and in 3D (6 components). -/
theorem C11_CalculateStress_fast_path_agrees {α : Type} [CommRing α]
    (self : ConstitutiveMatrix α) (strainRate stress : Nat → α) :
    (offDiagonalZero 3 self.matrixData →
      toVector 3 (_ViscousPenaltyConstMatrixCartesian2D_CalculateStress
          { self with isDiagonal := true } strainRate stress)
        = toVector 3 (_ViscousPenaltyConstMatrixCartesian2D_CalculateStress
          { self with isDiagonal := false } strainRate stress))
      ∧ (offDiagonalZero 6 self.matrixData →
        toVector 6 (_ViscousPenaltyConstMatrixCartesian3D_CalculateStress
            { self with isDiagonal := true } strainRate stress)
          = toVector 6 (_ViscousPenaltyConstMatrixCartesian3D_CalculateStress
            { self with isDiagonal := false } strainRate stress)) :=
  ⟨CalculateStress_2D_paths_agree self strainRate stress,
    CalculateStress_3D_paths_agree self strainRate stress⟩

/-- Witness of C11 on the diagonal tensor `diag(2, 3, 4, 5, 6, 7)` and the strain
rate (1, 2, 3, 4, 5, 6), where the 3D fast path gives `stress[5] = 84`. -/
theorem C11_CalculateStress_fast_path_agrees_witness :
    offDiagonalZero 3 sampleDiagonalTensor.matrixData
      ∧ offDiagonalZero 6 sampleDiagonalTensor.matrixData
      ∧ toVector 3 (_ViscousPenaltyConstMatrixCartesian2D_CalculateStress
          { sampleDiagonalTensor with isDiagonal := true } sampleStrainRate (fun _ => 0))
        = toVector 3 (_ViscousPenaltyConstMatrixCartesian2D_CalculateStress
          { sampleDiagonalTensor with isDiagonal := false } sampleStrainRate (fun _ => 0))
      ∧ toVector 6 (_ViscousPenaltyConstMatrixCartesian3D_CalculateStress
          { sampleDiagonalTensor with isDiagonal := true } sampleStrainRate (fun _ => 0))
        = toVector 6 (_ViscousPenaltyConstMatrixCartesian3D_CalculateStress
          { sampleDiagonalTensor with isDiagonal := false } sampleStrainRate (fun _ => 0))
      ∧ _ViscousPenaltyConstMatrixCartesian3D_CalculateStress
          { sampleDiagonalTensor with isDiagonal := true } sampleStrainRate (fun _ => 0) 5 = 84 :=
  ⟨sampleDiagonalTensor_offDiagonalZero 3, sampleDiagonalTensor_offDiagonalZero 6,
    (C11_CalculateStress_fast_path_agrees sampleDiagonalTensor sampleStrainRate
      (fun _ => 0)).1 (sampleDiagonalTensor_offDiagonalZero 3),
    (C11_CalculateStress_fast_path_agrees sampleDiagonalTensor sampleStrainRate
      (fun _ => 0)).2 (sampleDiagonalTensor_offDiagonalZero 6),
    by decide⟩

/-! ### The penalty term -/

/-- One pass of the 2D penalty loop, read at an entry of the block of the node
pair `(j, i)`. -/
theorem penaltyColNodeBody_2D_apply {α : Type} [CommRing α]
    (P detJac eta : α) (GN0x : Nat → Nat → α) (rowNode_I colNode_I : Nat)
    (elStiffMat : Nat → Nat → α) (i j : Nat) (a b : Fin 2) :
    AssembleElement_penaltyColNodeBody 2 P detJac eta GN0x rowNode_I elStiffMat colNode_I
        (j * 2 + a.val) (i * 2 + b.val)
      = elStiffMat (j * 2 + a.val) (i * 2 + b.val)
        + if colNode_I = j ∧ rowNode_I = i then
            P * detJac * eta * GN0x a.val colNode_I * GN0x b.val rowNode_I
          else 0 := by
  have ha := a.isLt
  have hb := b.isLt
  unfold AssembleElement_penaltyColNodeBody
  simp only [if_true]
  by_cases h : colNode_I = j ∧ rowNode_I = i
  · obtain ⟨rfl, rfl⟩ := h
    rw [if_pos ⟨rfl, rfl⟩]
    fin_cases a <;> fin_cases b <;>
      simp (disch := omega) only [addAssign_same, addAssign_ne, Fin.zero_eta, Fin.mk_one,
        Fin.val_zero, Fin.val_one, add_zero, I_AXIS, J_AXIS, Fin.isValue]
  · rw [if_neg h, add_zero]
    simp (disch := omega) only [addAssign_ne]

/-- One pass of the 3D penalty loop, read at an entry of the block of the node
pair `(j, i)`. -/
theorem penaltyColNodeBody_3D_apply {α : Type} [CommRing α]
    (P detJac eta : α) (GN0x : Nat → Nat → α) (rowNode_I colNode_I : Nat)
    (elStiffMat : Nat → Nat → α) (i j : Nat) (a b : Fin 3) :
    AssembleElement_penaltyColNodeBody 3 P detJac eta GN0x rowNode_I elStiffMat colNode_I
        (j * 3 + a.val) (i * 3 + b.val)
      = elStiffMat (j * 3 + a.val) (i * 3 + b.val)
        + if colNode_I = j ∧ rowNode_I = i then
            P * detJac * eta * GN0x a.val colNode_I * GN0x b.val rowNode_I
          else 0 := by
  have ha := a.isLt
  have hb := b.isLt
  unfold AssembleElement_penaltyColNodeBody
  simp only [show ¬ (2 = 3) by decide, if_false]
  by_cases h : colNode_I = j ∧ rowNode_I = i
  · obtain ⟨rfl, rfl⟩ := h
    rw [if_pos ⟨rfl, rfl⟩]
    fin_cases a <;> fin_cases b <;>
      simp (disch := omega) only [addAssign_same, addAssign_ne, Fin.zero_eta, Fin.mk_one,
        Fin.val_zero, Fin.val_one, add_zero, I_AXIS, J_AXIS, K_AXIS, Fin.isValue,
        Fin.val_two, Fin.reduceFinMk] <;>
      ring
  · rw [if_neg h, add_zero]
    simp (disch := omega) only [addAssign_ne]

/-- The two nested penalty loops in 2D, read at an entry of the block of the
node pair `(j, i)`: the pair is added exactly once. -/
theorem penaltyLoops_2D_apply {α : Type} [CommRing α]
    (P detJac eta : α) (GN0x : Nat → Nat → α) (n : Nat)
    (elStiffMat : Nat → Nat → α) (i j : Nat) (a b : Fin 2) :
    (List.range n).foldl
        (fun K rowNode_I =>
          (List.range n).foldl
            (AssembleElement_penaltyColNodeBody 2 P detJac eta GN0x rowNode_I) K)
        elStiffMat (j * 2 + a.val) (i * 2 + b.val)
      = elStiffMat (j * 2 + a.val) (i * 2 + b.val)
        + if i < n ∧ j < n then P * detJac * eta * GN0x a.val j * GN0x b.val i else 0 := by
  rw [foldl_add_apply _
    (fun row => if row = i ∧ j < n then P * detJac * eta * GN0x a.val j * GN0x b.val row
      else 0) _ _ _ ?_, sum_range_ite_eq n i (j < n)
        (fun row => P * detJac * eta * GN0x a.val j * GN0x b.val row)]
  intro K row _
  rw [foldl_add_apply _
    (fun col => if col = j ∧ row = i then P * detJac * eta * GN0x a.val col * GN0x b.val row
      else 0) _ _ _
    (fun K' x _ => penaltyColNodeBody_2D_apply P detJac eta GN0x row x K' i j a b),
    sum_range_ite_eq n j (row = i)
      (fun col => P * detJac * eta * GN0x a.val col * GN0x b.val row)]
  simp only [and_comm]

/-- The two nested penalty loops in 3D, read at an entry of the block of the
node pair `(j, i)`: the pair is added exactly once. -/
theorem penaltyLoops_3D_apply {α : Type} [CommRing α]
    (P detJac eta : α) (GN0x : Nat → Nat → α) (n : Nat)
    (elStiffMat : Nat → Nat → α) (i j : Nat) (a b : Fin 3) :
    (List.range n).foldl
        (fun K rowNode_I =>
          (List.range n).foldl
            (AssembleElement_penaltyColNodeBody 3 P detJac eta GN0x rowNode_I) K)
        elStiffMat (j * 3 + a.val) (i * 3 + b.val)
      = elStiffMat (j * 3 + a.val) (i * 3 + b.val)
        + if i < n ∧ j < n then P * detJac * eta * GN0x a.val j * GN0x b.val i else 0 := by
  rw [foldl_add_apply _
    (fun row => if row = i ∧ j < n then P * detJac * eta * GN0x a.val j * GN0x b.val row
      else 0) _ _ _ ?_, sum_range_ite_eq n i (j < n)
        (fun row => P * detJac * eta * GN0x a.val j * GN0x b.val row)]
  intro K row _
  rw [foldl_add_apply _
    (fun col => if col = j ∧ row = i then P * detJac * eta * GN0x a.val col * GN0x b.val row
      else 0) _ _ _
    (fun K' x _ => penaltyColNodeBody_3D_apply P detJac eta GN0x row x K' i j a b),
    sum_range_ite_eq n j (row = i)
      (fun col => P * detJac * eta * GN0x a.val col * GN0x b.val row)]
  simp only [and_comm]

/-- The accumulators of the quadrature loop: each point adds
`weight * log(matrixData[2][2])` to `averaged_eta` and `weight` to
`total_weight`, whatever the mode and the dimension. -/
theorem quadratureLoop_accumulators {α : Type} [CommRing α] (log : α → α) (dim : Nat)
    (sle : SystemLinearEquations) (n : Nat) (l : List (IntegrationPoint α))
    (st : QuadratureState α) :
    (l.foldl (AssembleElement_particleBody log dim sle n) st).averaged_eta
        = st.averaged_eta + (l.map (fun p => p.weight * log (p.matrixData 2 2))).sum
      ∧ (l.foldl (AssembleElement_particleBody log dim sle n) st).total_weight
        = st.total_weight + (l.map (fun p => p.weight)).sum := by
  induction l generalizing st with
  | nil => simp
  | cons x xs ih =>
    rw [List.foldl_cons]
    obtain ⟨h1, h2⟩ := ih (AssembleElement_particleBody log dim sle n st x)
    rw [h1, h2]
    simp only [List.map_cons, List.sum_cons]
    constructor
    · show st.averaged_eta + x.weight * log (x.matrixData 2 2) + _ = _
      rw [add_assoc]
    · show st.total_weight + x.weight + _ = _
      rw [add_assoc]

/-- The call of `AssembleElement` with a solve state is the quadrature loop
followed by the penalty step at the centre of the element. -/
theorem AssembleElement_some {α : Type} [Field α] [DecidableEq α] (log exp : α → α)
    (self : ViscousPenaltyConstMatrixCartesian α) (dim : Nat) (element : Element α)
    (sle : SystemLinearEquations) (elStiffMat : Nat → Nat → α) :
    _ViscousPenaltyConstMatrixCartesian_AssembleElement log exp self dim element (some sle)
        elStiffMat
      = Except.ok (AssembleElement_penaltyTerm exp dim element.nodeCount
          (AssembleElement_quadratureLoop log self dim element sle elStiffMat).self
          element.detJac0 element.GN0x
          (AssembleElement_quadratureLoop log self dim element sle elStiffMat).averaged_eta
          (AssembleElement_quadratureLoop log self dim element sle elStiffMat).total_weight
          (AssembleElement_quadratureLoop log self dim element sle elStiffMat).elStiffMat) :=
  rfl

/-- The object at the end of the quadrature loop has the dimension and the
penalty configuration it started with. -/
theorem AssembleElement_quadratureLoop_self {α : Type} [CommRing α] (log : α → α)
    (self : ViscousPenaltyConstMatrixCartesian α) (dim : Nat) (element : Element α)
    (sle : SystemLinearEquations) (elStiffMat : Nat → Nat → α) :
    (AssembleElement_quadratureLoop log self dim element sle elStiffMat).self.dim = self.dim
      ∧ (AssembleElement_quadratureLoop log self dim element sle
          elStiffMat).self.incompressibility_Penalty = self.incompressibility_Penalty
      ∧ (AssembleElement_quadratureLoop log self dim element sle
          elStiffMat).self.viscosityWeighting = self.viscosityWeighting :=
  ⟨(quadratureLoop_self log dim sle element.nodeCount element.particles _).1,
    (quadratureLoop_self log dim sle element.nodeCount element.particles _).2.1,
    (quadratureLoop_self log dim sle element.nodeCount element.particles _).2.2.1⟩

/-- The accumulators at the end of the quadrature loop are the weighted sum of
the logarithms and the sum of the weights. -/
theorem AssembleElement_quadratureLoop_accumulators {α : Type} [CommRing α] (log : α → α)
    (self : ViscousPenaltyConstMatrixCartesian α) (dim : Nat) (element : Element α)
    (sle : SystemLinearEquations) (elStiffMat : Nat → Nat → α) :
    (AssembleElement_quadratureLoop log self dim element sle elStiffMat).averaged_eta
        = logSum log element.particles
      ∧ (AssembleElement_quadratureLoop log self dim element sle elStiffMat).total_weight
        = totalWeight element.particles := by
  obtain ⟨h1, h2⟩ := quadratureLoop_accumulators log dim sle element.nodeCount
    element.particles
    { self := self, elStiffMat := elStiffMat, averaged_eta := 0, total_weight := 0 }
  exact ⟨by rw [AssembleElement_quadratureLoop, h1, zero_add, logSum],
    by rw [AssembleElement_quadratureLoop, h2, zero_add, totalWeight]⟩

/-- With a non-zero coefficient the penalty step is the two nested loops run
with the averaged viscosity of source lines 422-425. -/
theorem penaltyTerm_nonzero {α : Type} [Field α] [DecidableEq α] (exp : α → α)
    (dim n : Nat) (self : ViscousPenaltyConstMatrixCartesian α) (detJac : α)
    (GN0x : Nat → Nat → α) (averaged_eta total_weight : α) (elStiffMat : Nat → Nat → α)
    (h : self.incompressibility_Penalty ≠ 0) :
    AssembleElement_penaltyTerm exp dim n self detJac GN0x averaged_eta total_weight elStiffMat
      = (List.range n).foldl
          (fun K rowNode_I =>
            (List.range n).foldl
              (AssembleElement_penaltyColNodeBody dim self.incompressibility_Penalty detJac
                (AssembleElement_averagedEta exp self.viscosityWeighting averaged_eta
                  total_weight) GN0x rowNode_I) K)
          elStiffMat := by
  unfold AssembleElement_penaltyTerm
  rw [if_pos h]

/-- C12: when `incompressibility_Penalty != 0`, the penalty step, run once per
call after the quadrature loop with `detJac` and `GN0x` taken at the centre of
the element, adds for every ordered node pair `(rowNode i, colNode j)` and
components `a, b < dim` exactly
`incompressibility_Penalty * detJac * averaged_eta * GN0x[a][j] * GN0x[b][i]`
to `elStiffMat[j*dim + a][i*dim + b]`, for `dim = 2` and `dim = 3`; each pair is
added exactly once. -/
theorem C12_penalty_term_entries {α : Type} [Field α] [DecidableEq α] (log exp : α → α)
    (self : ViscousPenaltyConstMatrixCartesian α) (element : Element α)
    (sle : SystemLinearEquations) (elStiffMat : Nat → Nat → α)
    (hP : self.incompressibility_Penalty ≠ 0) :
    (∃ K, _ViscousPenaltyConstMatrixCartesian_AssembleElement log exp self 2 element (some sle)
          elStiffMat = Except.ok K
        ∧ ∀ i, i < element.nodeCount → ∀ j, j < element.nodeCount → ∀ a b : Fin 2,
          K (j * 2 + a.val) (i * 2 + b.val)
            = (AssembleElement_quadratureLoop log self 2 element sle elStiffMat).elStiffMat
                (j * 2 + a.val) (i * 2 + b.val)
              + self.incompressibility_Penalty * element.detJac0
                * AssembleElement_averagedEta exp self.viscosityWeighting
                    (AssembleElement_quadratureLoop log self 2 element sle
                      elStiffMat).averaged_eta
                    (AssembleElement_quadratureLoop log self 2 element sle
                      elStiffMat).total_weight
                * element.GN0x a.val j * element.GN0x b.val i)
      ∧ (∃ K, _ViscousPenaltyConstMatrixCartesian_AssembleElement log exp self 3 element
            (some sle) elStiffMat = Except.ok K
          ∧ ∀ i, i < element.nodeCount → ∀ j, j < element.nodeCount → ∀ a b : Fin 3,
            K (j * 3 + a.val) (i * 3 + b.val)
              = (AssembleElement_quadratureLoop log self 3 element sle elStiffMat).elStiffMat
                  (j * 3 + a.val) (i * 3 + b.val)
                + self.incompressibility_Penalty * element.detJac0
                  * AssembleElement_averagedEta exp self.viscosityWeighting
                      (AssembleElement_quadratureLoop log self 3 element sle
                        elStiffMat).averaged_eta
                      (AssembleElement_quadratureLoop log self 3 element sle
                        elStiffMat).total_weight
                  * element.GN0x a.val j * element.GN0x b.val i) := by
  constructor
  · refine ⟨_, AssembleElement_some log exp self 2 element sle elStiffMat, ?_⟩
    intro i hi j hj a b
    obtain ⟨_, h2, h3⟩ := AssembleElement_quadratureLoop_self log self 2 element sle elStiffMat
    rw [penaltyTerm_nonzero _ _ _ _ _ _ _ _ _ (by rw [h2]; exact hP), penaltyLoops_2D_apply,
      if_pos ⟨hi, hj⟩, h2, h3]
  · refine ⟨_, AssembleElement_some log exp self 3 element sle elStiffMat, ?_⟩
    intro i hi j hj a b
    obtain ⟨_, h2, h3⟩ := AssembleElement_quadratureLoop_self log self 3 element sle elStiffMat
    rw [penaltyTerm_nonzero _ _ _ _ _ _ _ _ _ (by rw [h2]; exact hP), penaltyLoops_3D_apply,
      if_pos ⟨hi, hj⟩, h2, h3]

/-- Witness of C12: the unit-square four-node element with four points of
weight 1, penalty coefficient 1 and no viscosity weighting; the penalty step
adds `1 * (1/4) * 1 * (-1/2) * (-1/2) = 1/16` to `elStiffMat[0][0]`. -/
theorem C12_penalty_term_entries_witness :
    (samplePenaltyObject 2 (1 : ℚ) false).incompressibility_Penalty ≠ 0
      ∧ ∃ K, _ViscousPenaltyConstMatrixCartesian_AssembleElement (fun _ => 0) (fun _ => 0)
            (samplePenaltyObject 2 (1 : ℚ) false) 2 (sampleUniformElement [1, 1, 1, 1] 2)
            (some samplePicard) (fun _ _ => 0) = Except.ok K
        ∧ K 0 0
          = (AssembleElement_quadratureLoop (fun _ => 0) (samplePenaltyObject 2 (1 : ℚ) false) 2
              (sampleUniformElement [1, 1, 1, 1] 2) samplePicard (fun _ _ => 0)).elStiffMat 0 0
            + 1 / 16 := by
  have hP : (samplePenaltyObject 2 (1 : ℚ) false).incompressibility_Penalty ≠ 0 :=
    one_ne_zero
  refine ⟨hP, ?_⟩
  obtain ⟨K, hK, h⟩ := (C12_penalty_term_entries (fun _ => 0) (fun _ => 0)
    (samplePenaltyObject 2 (1 : ℚ) false) (sampleUniformElement [1, 1, 1, 1] 2) samplePicard
    (fun _ _ => 0) hP).1
  refine ⟨K, hK, ?_⟩
  have h0 := h 0 (by decide) 0 (by decide) 0 0
  simp only [Fin.val_zero, zero_mul, add_zero] at h0
  rw [h0]
  simp only [AssembleElement_averagedEta, samplePenaltyObject, sampleUniformElement,
    sampleCentroidGNx]
  norm_num

theorem averagedEta_true {α : Type} [Field α] (exp : α → α) (a t : α) :
    AssembleElement_averagedEta exp true a t = t * exp (a / t) := rfl

theorem averagedEta_false {α : Type} [Field α] (exp : α → α) (a t : α) :
    AssembleElement_averagedEta exp false a t = 1 := rfl

/-- The value of line 423 or 425 in terms of the points of the element. -/
theorem averagedEta_quadratureLoop {α : Type} [Field α] (log exp : α → α)
    (self : ViscousPenaltyConstMatrixCartesian α) (dim : Nat) (element : Element α)
    (sle : SystemLinearEquations) (elStiffMat : Nat → Nat → α) (w : Bool) :
    AssembleElement_averagedEta exp w
        (AssembleElement_quadratureLoop log self dim element sle elStiffMat).averaged_eta
        (AssembleElement_quadratureLoop log self dim element sle elStiffMat).total_weight
      = if w then
          totalWeight element.particles
            * exp (logSum log element.particles / totalWeight element.particles)
        else 1 := by
  obtain ⟨h1, h2⟩ :=
    AssembleElement_quadratureLoop_accumulators log self dim element sle elStiffMat
  rw [h1, h2]
  cases w <;> rfl

/-- The full call with a non-zero coefficient, in terms of the points. -/
theorem AssembleElement_nonzero_penalty {α : Type} [Field α] [DecidableEq α]
    (log exp : α → α) (self : ViscousPenaltyConstMatrixCartesian α) (dim : Nat)
    (element : Element α) (sle : SystemLinearEquations) (elStiffMat : Nat → Nat → α)
    (hP : self.incompressibility_Penalty ≠ 0) :
    _ViscousPenaltyConstMatrixCartesian_AssembleElement log exp self dim element (some sle)
        elStiffMat
      = Except.ok ((List.range element.nodeCount).foldl
          (fun K rowNode_I =>
            (List.range element.nodeCount).foldl
              (AssembleElement_penaltyColNodeBody dim self.incompressibility_Penalty
                element.detJac0
                (if self.viscosityWeighting then
                  totalWeight element.particles
                    * exp (logSum log element.particles / totalWeight element.particles)
                else 1) element.GN0x rowNode_I) K)
          (AssembleElement_quadratureLoop log self dim element sle elStiffMat).elStiffMat) := by
  obtain ⟨_, h2, h3⟩ := AssembleElement_quadratureLoop_self log self dim element sle elStiffMat
  rw [AssembleElement_some, penaltyTerm_nonzero _ _ _ _ _ _ _ _ _ (by rw [h2]; exact hP),
    averagedEta_quadratureLoop, h2, h3]

/-- C13: the averaged viscosity used by the penalty step is
`totalWeight * exp(logSum / totalWeight)` when `viscosityWeighting` is true,
with `logSum` the sum over the points of `weight_p * ln(eta_p)` (`eta_p` being
the value read at source line 310) and `totalWeight` the sum of the weights,
and it is 1 when `viscosityWeighting` is false, whatever the viscosities and
the weights. -/
theorem C13_averaged_viscosity {α : Type} [Field α] [DecidableEq α] (log exp : α → α)
    (self : ViscousPenaltyConstMatrixCartesian α) (dim : Nat) (element : Element α)
    (sle : SystemLinearEquations) (elStiffMat : Nat → Nat → α) :
    (AssembleElement_quadratureLoop log self dim element sle elStiffMat).averaged_eta
        = (element.particles.map (fun p => p.weight * log (p.matrixData 2 2))).sum
      ∧ (AssembleElement_quadratureLoop log self dim element sle elStiffMat).total_weight
        = (element.particles.map (fun p => p.weight)).sum
      ∧ (∀ a t : α, AssembleElement_averagedEta exp true a t = t * exp (a / t))
      ∧ (∀ a t : α, AssembleElement_averagedEta exp false a t = 1)
      ∧ (self.incompressibility_Penalty ≠ 0 →
        _ViscousPenaltyConstMatrixCartesian_AssembleElement log exp self dim element (some sle)
            elStiffMat
          = Except.ok ((List.range element.nodeCount).foldl
              (fun K rowNode_I =>
                (List.range element.nodeCount).foldl
                  (AssembleElement_penaltyColNodeBody dim self.incompressibility_Penalty
                    element.detJac0
                    (if self.viscosityWeighting then
                      totalWeight element.particles
                        * exp (logSum log element.particles / totalWeight element.particles)
                    else 1) element.GN0x rowNode_I) K)
              (AssembleElement_quadratureLoop log self dim element sle
                elStiffMat).elStiffMat)) :=
  ⟨(AssembleElement_quadratureLoop_accumulators log self dim element sle elStiffMat).1,
    (AssembleElement_quadratureLoop_accumulators log self dim element sle elStiffMat).2,
    averagedEta_true exp, averagedEta_false exp,
    AssembleElement_nonzero_penalty log exp self dim element sle elStiffMat⟩

/-- Witness of C13 over the reals, with the library logarithm and exponential:
the unit-square element with four points of weight 1 and viscosity 2, penalty
coefficient 1 and viscosity weighting on. -/
theorem C13_averaged_viscosity_witness :
    (samplePenaltyObject 2 (1 : ℝ) true).incompressibility_Penalty ≠ 0
      ∧ _ViscousPenaltyConstMatrixCartesian_AssembleElement Real.log Real.exp
          (samplePenaltyObject 2 (1 : ℝ) true) 2 (sampleUniformElement [1, 1, 1, 1] 2)
          (some samplePicard) (fun _ _ => 0)
        = Except.ok ((List.range 4).foldl
            (fun K rowNode_I =>
              (List.range 4).foldl
                (AssembleElement_penaltyColNodeBody 2 1 (1 / 4)
                  (totalWeight (sampleUniformElement [1, 1, 1, (1 : ℝ)] 2).particles
                    * Real.exp (logSum Real.log (sampleUniformElement [1, 1, 1, (1 : ℝ)] 2).particles
                      / totalWeight (sampleUniformElement [1, 1, 1, (1 : ℝ)] 2).particles))
                  sampleCentroidGNx rowNode_I) K)
            (AssembleElement_quadratureLoop Real.log (samplePenaltyObject 2 (1 : ℝ) true) 2
              (sampleUniformElement [1, 1, 1, 1] 2) samplePicard (fun _ _ => 0)).elStiffMat) :=
  ⟨one_ne_zero,
    (C13_averaged_viscosity Real.log Real.exp (samplePenaltyObject 2 (1 : ℝ) true) 2
      (sampleUniformElement [1, 1, 1, 1] 2) samplePicard (fun _ _ => 0)).2.2.2.2 one_ne_zero⟩

/-- The control flow of lines 411-425 and the value they leave in
`averaged_eta`: the product of line 423 when the division is reached, the
constant of line 425 when the coefficient is non-zero and weighting is off. -/
theorem averagingDivision_spec {α : Type} [Field α] [DecidableEq α] (exp : α → α)
    (self : ViscousPenaltyConstMatrixCartesian α) (a t : α) :
    (self.incompressibility_Penalty = 0 → AssembleElement_averagingDivision self a t = none)
      ∧ (self.incompressibility_Penalty ≠ 0 → self.viscosityWeighting = true →
        AssembleElement_averagingDivision self a t = some (a, t)
          ∧ AssembleElement_averagedEta exp self.viscosityWeighting a t = t * exp (a / t))
      ∧ (self.incompressibility_Penalty ≠ 0 → self.viscosityWeighting = false →
        AssembleElement_averagingDivision self a t = none
          ∧ AssembleElement_averagedEta exp self.viscosityWeighting a t = 1) := by
  refine ⟨fun h => ?_, fun h hw => ?_, fun h hw => ?_⟩
  · unfold AssembleElement_averagingDivision
    rw [if_neg (not_not.mpr h)]
  · unfold AssembleElement_averagingDivision
    rw [if_pos h, if_pos hw, hw]
    exact ⟨rfl, rfl⟩
  · unfold AssembleElement_averagingDivision
    rw [if_pos h, hw]
    exact ⟨rfl, rfl⟩

/-- C15: if `incompressibility_Penalty = 0`, the penalty step of
`AssembleElement` changes no entry of `elStiffMat` (the matrix after the whole
call is the matrix after the quadrature loop), and the averaging step is not
executed: control does not reach the division of line 423, and the result is
the same whatever the exponential function is; for every element, weights and
viscosities. -/
theorem C15_zero_penalty_skips_step {α : Type} [Field α] [DecidableEq α] (log exp : α → α)
    (self : ViscousPenaltyConstMatrixCartesian α) (dim : Nat) (element : Element α)
    (sle : SystemLinearEquations) (elStiffMat : Nat → Nat → α)
    (hP : self.incompressibility_Penalty = 0) :
    _ViscousPenaltyConstMatrixCartesian_AssembleElement log exp self dim element (some sle)
        elStiffMat
        = Except.ok
          (AssembleElement_quadratureLoop log self dim element sle elStiffMat).elStiffMat
      ∧ (∀ (n : Nat) (detJac : α) (GN0x : Nat → Nat → α) (averaged_eta total_weight : α)
          (K : Nat → Nat → α),
        AssembleElement_penaltyTerm exp dim n self detJac GN0x averaged_eta total_weight K = K)
      ∧ AssembleElement_averagingDivision
          (AssembleElement_quadratureLoop log self dim element sle elStiffMat).self
          (AssembleElement_quadratureLoop log self dim element sle elStiffMat).averaged_eta
          (AssembleElement_quadratureLoop log self dim element sle elStiffMat).total_weight
        = none
      ∧ (∀ exp2 : α → α,
        _ViscousPenaltyConstMatrixCartesian_AssembleElement log exp2 self dim element
            (some sle) elStiffMat
          = _ViscousPenaltyConstMatrixCartesian_AssembleElement log exp self dim element
            (some sle) elStiffMat) := by
  have h2 := (AssembleElement_quadratureLoop_self log self dim element sle elStiffMat).2.1
  have hq : (AssembleElement_quadratureLoop log self dim element sle
      elStiffMat).self.incompressibility_Penalty = 0 := h2.trans hP
  refine ⟨?_, ?_, ?_, ?_⟩
  · rw [AssembleElement_some, penaltyTerm_zero _ _ _ _ _ _ _ _ _ hq]
  · intro n detJac GN0x a t K
    exact penaltyTerm_zero exp dim n self detJac GN0x a t K hP
  · exact (averagingDivision_spec exp _ _ _).1 hq
  · intro exp2
    rw [AssembleElement_some, AssembleElement_some, penaltyTerm_zero _ _ _ _ _ _ _ _ _ hq,
      penaltyTerm_zero _ _ _ _ _ _ _ _ _ hq]

/-- Witness of C15: the unit-square element of the C2 witness with penalty
coefficient 0. -/
theorem C15_zero_penalty_skips_step_witness :
    sampleObject2D.incompressibility_Penalty = 0
      ∧ _ViscousPenaltyConstMatrixCartesian_AssembleElement (fun _ => 0) (fun _ => 0)
          sampleObject2D 2 sampleElement (some samplePicard) (fun _ _ => 0)
        = Except.ok (AssembleElement_quadratureLoop (fun _ => 0) sampleObject2D 2 sampleElement
            samplePicard (fun _ _ => 0)).elStiffMat
      ∧ AssembleElement_averagingDivision
          (AssembleElement_quadratureLoop (fun _ => 0) sampleObject2D 2 sampleElement
            samplePicard (fun _ _ => 0)).self
          (AssembleElement_quadratureLoop (fun _ => 0) sampleObject2D 2 sampleElement
            samplePicard (fun _ _ => 0)).averaged_eta
          (AssembleElement_quadratureLoop (fun _ => 0) sampleObject2D 2 sampleElement
            samplePicard (fun _ _ => 0)).total_weight
        = none :=
  ⟨rfl,
    (C15_zero_penalty_skips_step (fun _ => 0) (fun _ => 0) sampleObject2D 2 sampleElement
      samplePicard (fun _ _ => 0) rfl).1,
    (C15_zero_penalty_skips_step (fun _ => 0) (fun _ => 0) sampleObject2D 2 sampleElement
      samplePicard (fun _ _ => 0) rfl).2.2.1⟩

/-- C18: `AssembleElement` called with a NULL solve state fails with the
error of the firewall of line 258, whatever the other arguments are: no field
of `sle` has been read (the error is not that of a read of a NULL `sle`) and
no matrix is produced; with a solve state the firewall does not fire and the
call returns a matrix. -/
theorem C18_null_sle_fails_fast {α : Type} [Field α] [DecidableEq α] (log exp : α → α)
    (self : ViscousPenaltyConstMatrixCartesian α) (dim : Nat) (element : Element α)
    (elStiffMat : Nat → Nat → α) :
    Journal_Firewall (none : Option SystemLinearEquations).isSome
        "In func _ViscousPenaltyConstMatrixCartesian_AssembleElement: SLE is NULL."
        = Except.error
          "In func _ViscousPenaltyConstMatrixCartesian_AssembleElement: SLE is NULL."
      ∧ _ViscousPenaltyConstMatrixCartesian_AssembleElement log exp self dim element none
          elStiffMat
        = Except.error
          "In func _ViscousPenaltyConstMatrixCartesian_AssembleElement: SLE is NULL."
      ∧ (∀ K : Nat → Nat → α,
        _ViscousPenaltyConstMatrixCartesian_AssembleElement log exp self dim element none
            elStiffMat ≠ Except.ok K)
      ∧ (∀ sle : SystemLinearEquations,
        Journal_Firewall (some sle).isSome
            "In func _ViscousPenaltyConstMatrixCartesian_AssembleElement: SLE is NULL."
          = Except.ok ()
        ∧ ∃ K : Nat → Nat → α,
          _ViscousPenaltyConstMatrixCartesian_AssembleElement log exp self dim element
            (some sle) elStiffMat = Except.ok K) := by
  refine ⟨rfl, rfl, ?_, fun sle =>
    ⟨rfl, _, AssembleElement_some log exp self dim element sle elStiffMat⟩⟩
  intro K h
  cases h

/-! ### Uniform viscosity -/

theorem logSum_uniform {α : Type} [CommRing α] (log : α → α)
    (ps : List (IntegrationPoint α)) (eta : α)
    (hu : ∀ p ∈ ps, p.matrixData 2 2 = eta) :
    logSum log ps = totalWeight ps * log eta := by
  induction ps with
  | nil => simp [logSum, totalWeight]
  | cons p ps ih =>
    have h1 := hu p (List.mem_cons_self _ _)
    have h2 := ih (fun q hq => hu q (List.mem_cons_of_mem _ hq))
    unfold logSum totalWeight at *
    simp only [List.map_cons, List.sum_cons]
    rw [h2, h1]
    ring

theorem totalWeight_pos (ps : List (IntegrationPoint ℝ)) (hN : ps ≠ [])
    (hw : ∀ p ∈ ps, 0 < p.weight) : 0 < totalWeight ps := by
  unfold totalWeight
  apply List.sum_pos
  · intro x hx
    obtain ⟨p, hp, rfl⟩ := List.mem_map.mp hx
    exact hw p hp
  · intro h
    exact hN (List.map_eq_nil_iff.mp h)

/-- With the same viscosity `eta` at every point and a non-zero total weight,
line 423 leaves `total_weight * eta` in `averaged_eta`. -/
theorem quadratureLoop_averagedEta_uniform {α : Type} [Field α] (log exp : α → α)
    (self : ViscousPenaltyConstMatrixCartesian α) (dim : Nat) (element : Element α)
    (sle : SystemLinearEquations) (elStiffMat : Nat → Nat → α) (eta : α)
    (hu : ∀ p ∈ element.particles, p.matrixData 2 2 = eta)
    (hexp : exp (log eta) = eta) (hW : totalWeight element.particles ≠ 0) :
    AssembleElement_averagedEta exp true
        (AssembleElement_quadratureLoop log self dim element sle elStiffMat).averaged_eta
        (AssembleElement_quadratureLoop log self dim element sle elStiffMat).total_weight
      = totalWeight element.particles * eta := by
  obtain ⟨a1, a2⟩ :=
    AssembleElement_quadratureLoop_accumulators log self dim element sle elStiffMat
  rw [a1, a2, averagedEta_true, logSum_uniform log _ eta hu, mul_div_cancel_left₀ _ hW, hexp]

/-- The diagonal entries after the whole call, for a 2D element with the same
viscosity at every point, weighting on and a non-zero penalty coefficient. -/
theorem AssembleElement_uniform_diagonal {α : Type} [Field α] [DecidableEq α]
    (log exp : α → α)
    (self : ViscousPenaltyConstMatrixCartesian α) (element : Element α)
    (sle : SystemLinearEquations) (elStiffMat : Nat → Nat → α) (eta : α)
    (hP : self.incompressibility_Penalty ≠ 0) (hV : self.viscosityWeighting = true)
    (hu : ∀ p ∈ element.particles, p.matrixData 2 2 = eta)
    (hexp : exp (log eta) = eta) (hW : totalWeight element.particles ≠ 0) :
    ∃ K : Nat → Nat → α,
      _ViscousPenaltyConstMatrixCartesian_AssembleElement log exp self 2 element (some sle)
          elStiffMat = Except.ok K
        ∧ ∀ i, i < element.nodeCount → ∀ a : Fin 2,
          K (i * 2 + a.val) (i * 2 + a.val)
            = (AssembleElement_quadratureLoop log self 2 element sle elStiffMat).elStiffMat
                (i * 2 + a.val) (i * 2 + a.val)
              + self.incompressibility_Penalty * element.detJac0
                * (totalWeight element.particles * eta) * element.GN0x a.val i ^ 2 := by
  refine ⟨_, AssembleElement_nonzero_penalty log exp self 2 element sle elStiffMat hP, ?_⟩
  intro i hi a
  rw [penaltyLoops_2D_apply, if_pos ⟨hi, hi⟩, hV, if_pos rfl,
    logSum_uniform log _ eta hu, mul_div_cancel_left₀ _ hW, hexp]
  ring

theorem sampleUniformElement_totalWeight (eta : ℝ) :
    totalWeight (sampleUniformElement [1, 1, 1, (1 : ℝ)] eta).particles = 4 := by
  show (1 : ℝ) + (1 + (1 + (1 + 0))) = 4
  norm_num

theorem sampleUniformElement_uniform (ws : List ℝ) (eta : ℝ) :
    ∀ p ∈ (sampleUniformElement ws eta).particles, p.matrixData 2 2 = eta := by
  intro p hp
  obtain ⟨w, _, rfl⟩ := List.mem_map.mp hp
  rfl

theorem sampleUniformElement_weights :
    ∀ p ∈ (sampleUniformElement [1, 1, 1, (1 : ℝ)] 2).particles, 0 < p.weight := by
  intro p hp
  obtain ⟨w, hw, rfl⟩ := List.mem_map.mp hp
  show 0 < w
  simp only [List.mem_cons, List.mem_singleton, List.not_mem_nil, or_false, or_self] at hw
  rw [hw]
  exact one_pos

/-- C16 (amended): for a 2D element whose points all report the viscosity 2,
with `incompressibility_Penalty = 1`, `viscosityWeighting = true` and positive
weights, `AssembleElement` over the reals returns a matrix in which the penalty
step has increased the diagonal entry `[i*2+a][i*2+a]` of every node `i` and
component `a` by `1 * detJac(centroid) * (totalWeight * 2) * GN0x[a][i]^2`:
the increase is proportional to the sum of the quadrature weights, and is
`1 * detJac(centroid) * 2 * GN0x[a][i]^2` when the weights sum to 1. -/
theorem C16_uniform_penalty_diagonal (self : ViscousPenaltyConstMatrixCartesian ℝ)
    (element : Element ℝ) (sle : SystemLinearEquations) (elStiffMat : Nat → Nat → ℝ)
    (hP : self.incompressibility_Penalty = 1) (hV : self.viscosityWeighting = true)
    (hN : element.particles ≠ []) (hw : ∀ p ∈ element.particles, 0 < p.weight)
    (hu : ∀ p ∈ element.particles, p.matrixData 2 2 = 2) :
    ∃ K : Nat → Nat → ℝ,
      _ViscousPenaltyConstMatrixCartesian_AssembleElement Real.log Real.exp self 2 element
          (some sle) elStiffMat = Except.ok K
        ∧ (∀ i, i < element.nodeCount → ∀ a : Fin 2,
          K (i * 2 + a.val) (i * 2 + a.val)
            = (AssembleElement_quadratureLoop Real.log self 2 element sle
                elStiffMat).elStiffMat (i * 2 + a.val) (i * 2 + a.val)
              + 1 * element.detJac0 * (totalWeight element.particles * 2)
                * element.GN0x a.val i ^ 2)
        ∧ (totalWeight element.particles = 1 →
          ∀ i, i < element.nodeCount → ∀ a : Fin 2,
            K (i * 2 + a.val) (i * 2 + a.val)
              = (AssembleElement_quadratureLoop Real.log self 2 element sle
                  elStiffMat).elStiffMat (i * 2 + a.val) (i * 2 + a.val)
                + 1 * element.detJac0 * 2 * element.GN0x a.val i ^ 2) := by
  have hW := totalWeight_pos element.particles hN hw
  obtain ⟨K, hK, h⟩ := AssembleElement_uniform_diagonal Real.log Real.exp self element sle
    elStiffMat 2 (by rw [hP]; exact one_ne_zero) hV hu (Real.exp_log two_pos) (ne_of_gt hW)
  refine ⟨K, hK, ?_, ?_⟩
  · intro i hi a
    rw [h i hi a, hP]
  · intro h1 i hi a
    rw [h i hi a, hP, h1]
    ring

/-- Witness of C16 (amended): the unit-square element with four points of
weight 1 and viscosity 2. -/
theorem C16_uniform_penalty_diagonal_witness :
    (samplePenaltyObject 2 (1 : ℝ) true).incompressibility_Penalty = 1
      ∧ (samplePenaltyObject 2 (1 : ℝ) true).viscosityWeighting = true
      ∧ (sampleUniformElement [1, 1, 1, (1 : ℝ)] 2).particles ≠ []
      ∧ (∀ p ∈ (sampleUniformElement [1, 1, 1, (1 : ℝ)] 2).particles, 0 < p.weight)
      ∧ (∀ p ∈ (sampleUniformElement [1, 1, 1, (1 : ℝ)] 2).particles, p.matrixData 2 2 = 2)
      ∧ ∃ K : Nat → Nat → ℝ,
        _ViscousPenaltyConstMatrixCartesian_AssembleElement Real.log Real.exp
            (samplePenaltyObject 2 (1 : ℝ) true) 2 (sampleUniformElement [1, 1, 1, 1] 2)
            (some samplePicard) (fun _ _ => 0) = Except.ok K
          ∧ K 0 0
            = (AssembleElement_quadratureLoop Real.log (samplePenaltyObject 2 (1 : ℝ) true) 2
                (sampleUniformElement [1, 1, 1, 1] 2) samplePicard (fun _ _ => 0)).elStiffMat
                0 0
              + 1 * (sampleUniformElement [1, 1, 1, (1 : ℝ)] 2).detJac0
                * (totalWeight (sampleUniformElement [1, 1, 1, (1 : ℝ)] 2).particles * 2)
                * (sampleUniformElement [1, 1, 1, (1 : ℝ)] 2).GN0x 0 0 ^ 2 := by
  refine ⟨rfl, rfl, List.cons_ne_nil _ _, sampleUniformElement_weights,
    sampleUniformElement_uniform _ 2, ?_⟩
  obtain ⟨K, hK, h, _⟩ := C16_uniform_penalty_diagonal (samplePenaltyObject 2 (1 : ℝ) true)
    (sampleUniformElement [1, 1, 1, 1] 2) samplePicard (fun _ _ => 0) rfl rfl
    (List.cons_ne_nil _ _) sampleUniformElement_weights (sampleUniformElement_uniform _ 2)
  exact ⟨K, hK, h 0 (by decide) 0⟩

/-- C16 as stated fails on the unit-square four-node element with four points
of weight 1 and viscosity 2, penalty coefficient 1 and weighting on: the
penalty step increases the entry `[0][0]` by `1/2`, while
`1 * detJac(centroid) * 2 * GN0x[0][0]^2` is `1/8`. -/
theorem C16_weight_sum_counterexample :
    ∃ K : Nat → Nat → ℝ,
      _ViscousPenaltyConstMatrixCartesian_AssembleElement Real.log Real.exp
          (samplePenaltyObject 2 (1 : ℝ) true) 2 (sampleUniformElement [1, 1, 1, 1] 2)
          (some samplePicard) (fun _ _ => 0) = Except.ok K
        ∧ K 0 0
          = (AssembleElement_quadratureLoop Real.log (samplePenaltyObject 2 (1 : ℝ) true) 2
              (sampleUniformElement [1, 1, 1, 1] 2) samplePicard (fun _ _ => 0)).elStiffMat
              0 0 + 1 / 2
        ∧ 1 * (sampleUniformElement [1, 1, 1, (1 : ℝ)] 2).detJac0 * 2
            * (sampleUniformElement [1, 1, 1, (1 : ℝ)] 2).GN0x 0 0 ^ 2 = 1 / 8
        ∧ (1 / 2 : ℝ) ≠ 1 / 8 := by
  obtain ⟨K, hK, h⟩ := AssembleElement_uniform_diagonal Real.log Real.exp
    (samplePenaltyObject 2 (1 : ℝ) true) (sampleUniformElement [1, 1, 1, 1] 2) samplePicard
    (fun _ _ => 0) 2 one_ne_zero rfl (sampleUniformElement_uniform _ 2)
    (Real.exp_log two_pos) (by rw [sampleUniformElement_totalWeight]; norm_num)
  refine ⟨K, hK, (h 0 (by decide) 0).trans ?_, ?_, by norm_num⟩
  · rw [sampleUniformElement_totalWeight]
    show _ + (1 : ℝ) * (1 / 4) * (4 * 2) * ((if (0 : ℕ) = 0 then
      (if 0 % 2 = 0 then (-1 : ℝ) else 1) / 2 else (if 0 / 2 = 0 then (-1 : ℝ) else 1) / 2)) ^ 2
      = _ + 1 / 2
    norm_num
  · show (1 : ℝ) * (1 / 4) * 2 * ((if (0 : ℕ) = 0 then
      (if 0 % 2 = 0 then (-1 : ℝ) else 1) / 2 else (if 0 / 2 = 0 then (-1 : ℝ) else 1) / 2)) ^ 2
      = 1 / 8
    norm_num

/-! ### The 3D inner loop -/

theorem colLoop_3D_apply {α : Type} [CommRing α] (sle : SystemLinearEquations)
    (self : ViscousPenaltyConstMatrixCartesian α) (particle : IntegrationPoint α) (eta : α)
    (rowNode_I n : Nat) (elStiffMat : Nat → Nat → α) (i j : Nat) (a b : Fin 3) :
    (List.range n).foldl (AssembleElement_colNodeBody 3 sle self particle eta rowNode_I)
        elStiffMat (j * 3 + a.val) (i * 3 + b.val)
      = elStiffMat (j * 3 + a.val) (i * 3 + b.val)
        + if j < n ∧ rowNode_I = i then
            ((spec_nodeB3D particle.GNx j).transpose * toMatrix 6 3 self.Dtilda_B) a b
          else 0 := by
  rw [foldl_add_apply _
    (fun col => if col = j ∧ rowNode_I = i then
      ((spec_nodeB3D particle.GNx col).transpose * toMatrix 6 3 self.Dtilda_B) a b else 0)
    _ _ _ (fun K x _ => colNodeBody_3D_apply sle self particle eta rowNode_I x K i j a b)]
  rw [sum_range_ite_eq n j (rowNode_I = i)
    (fun col => ((spec_nodeB3D particle.GNx col).transpose * toMatrix 6 3 self.Dtilda_B) a b)]

theorem rowLoop_3D_apply {α : Type} [CommRing α] (sle : SystemLinearEquations)
    (particle : IntegrationPoint α) (eta : α) (n : Nat) (i j : Nat) (a b : Fin 3) (m : Nat)
    (st : ViscousPenaltyConstMatrixCartesian α × (Nat → Nat → α))
    (hdim : st.1.dim = 3) (hflag : flagTruthful 6 st.1.isDiagonal st.1.matrixData) :
    ((List.range m).foldl (AssembleElement_rowNodeBody 3 sle n particle eta) st).1.toConstitutiveMatrix
        = st.1.toConstitutiveMatrix
      ∧ ((List.range m).foldl (AssembleElement_rowNodeBody 3 sle n particle eta) st).2
          (j * 3 + a.val) (i * 3 + b.val)
        = st.2 (j * 3 + a.val) (i * 3 + b.val)
          + if j < n ∧ i < m then
              ((spec_nodeB3D particle.GNx j).transpose
                * (toMatrix 6 6 st.1.matrixData * spec_nodeB3D particle.GNx i)) a b
            else 0 := by
  induction m with
  | zero => simp
  | succ m ih =>
    obtain ⟨ih1, ih2⟩ := ih
    rw [List.range_succ, List.foldl_append, List.foldl_cons, List.foldl_nil]
    generalize (List.range m).foldl (AssembleElement_rowNodeBody 3 sle n particle eta) st = res
      at ih1 ih2
    refine ⟨ih1, ?_⟩
    unfold AssembleElement_rowNodeBody
    simp only
    rw [colLoop_3D_apply, ih2]
    simp only [ih1]
    have hD : toMatrix 6 3 (ConstitutiveMatrix_Assemble_D_B st.1.toConstitutiveMatrix
        particle.GNx m res.1.Dtilda_B)
        = toMatrix 6 6 st.1.matrixData * spec_nodeB3D particle.GNx m := by
      unfold ConstitutiveMatrix_Assemble_D_B
      rw [if_neg (by rw [hdim]; decide)]
      exact Assemble_D_B_3D_truthful _ _ _ _ hflag
    rw [hD]
    by_cases hj : j < n
    · by_cases hi : i < m
      · have h1 : i < m + 1 := by omega
        have h2 : ¬ (m = i) := by omega
        simp [hj, hi, h1, h2]
      · by_cases hm : m = i
        · subst hm
          simp [hj]
        · have h1 : ¬ (i < m + 1) := by omega
          simp [hj, hi, h1, hm]
    · simp [hj]

/-- The body of the quadrature loop in 3D, read at an entry of the block of the
node pair `(j, i)`: the point adds the `[a][b]` entry of `B_j^T * (D~ * B_i)`,
whatever the solve state is. -/
theorem particleBody_3D_apply {α : Type} [CommRing α] (log : α → α)
    (sle : SystemLinearEquations) (n : Nat)
    (st : QuadratureState α) (particle : IntegrationPoint α) (hdim : st.self.dim = 3)
    (hflag : flagTruthful 6 particle.isDiagonal particle.matrixData)
    (i j : Nat) (a b : Fin 3) :
    (AssembleElement_particleBody log 3 sle n st particle).elStiffMat
        (j * 3 + a.val) (i * 3 + b.val)
      = st.elStiffMat (j * 3 + a.val) (i * 3 + b.val)
        + if j < n ∧ i < n then
            ((spec_nodeB3D particle.GNx j).transpose
              * (toMatrix 6 6 (scaledTensor particle) * spec_nodeB3D particle.GNx i)) a b
          else 0 := by
  unfold AssembleElement_particleBody
  simp only
  exact (rowLoop_3D_apply sle particle _ n i j a b n
    ({ st.self with
        toConstitutiveMatrix :=
          ConstitutiveMatrix_MultiplyByValue
            (ConstitutiveMatrix_Assemble st.self.toConstitutiveMatrix particle)
            (particle.detJac * particle.weight) }, st.elStiffMat)
    hdim (scaledTensor_flagTruthful 6 particle hflag)).2

theorem quadratureLoop_3D_apply {α : Type} [CommRing α] (log : α → α)
    (sle : SystemLinearEquations) (n : Nat)
    (i j : Nat) (a b : Fin 3) (l : List (IntegrationPoint α))
    (hflag : ∀ p ∈ l, flagTruthful 6 p.isDiagonal p.matrixData)
    (st : QuadratureState α) (hdim : st.self.dim = 3) :
    (l.foldl (AssembleElement_particleBody log 3 sle n) st).elStiffMat
        (j * 3 + a.val) (i * 3 + b.val)
      = st.elStiffMat (j * 3 + a.val) (i * 3 + b.val)
        + (l.map (fun p => if j < n ∧ i < n then
            ((spec_nodeB3D p.GNx j).transpose
              * (toMatrix 6 6 (scaledTensor p) * spec_nodeB3D p.GNx i)) a b
          else 0)).sum := by
  induction l generalizing st with
  | nil => simp
  | cons x xs ih =>
    rw [List.foldl_cons,
      ih (fun p hp => hflag p (List.mem_cons_of_mem _ hp)) _
        ((particleBody_self log 3 sle n st x).1.trans hdim),
      particleBody_3D_apply log sle n st x hdim (hflag x (List.mem_cons_self _ _)),
      List.map_cons, List.sum_cons, add_assoc]

/-- The 3D branch of the inner loop does not read the solve state. -/
theorem colNodeBody_3D_sle {α : Type} [CommRing α] (sle sle2 : SystemLinearEquations) :
    AssembleElement_colNodeBody (α := α) 3 sle = AssembleElement_colNodeBody 3 sle2 := by
  funext self particle eta rowNode_I elStiffMat colNode_I
  unfold AssembleElement_colNodeBody
  simp only [show ¬ (3 = 2) by decide, if_false]

theorem AssembleElement_3D_sle {α : Type} [Field α] [DecidableEq α] (log exp : α → α)
    (self : ViscousPenaltyConstMatrixCartesian α) (element : Element α)
    (sle sle2 : SystemLinearEquations) (elStiffMat : Nat → Nat → α) :
    _ViscousPenaltyConstMatrixCartesian_AssembleElement log exp self 3 element (some sle)
        elStiffMat
      = _ViscousPenaltyConstMatrixCartesian_AssembleElement log exp self 3 element (some sle2)
        elStiffMat := by
  have h1 : AssembleElement_rowNodeBody (α := α) 3 sle = AssembleElement_rowNodeBody 3 sle2 := by
    funext n particle eta st rowNode_I
    unfold AssembleElement_rowNodeBody
    rw [colNodeBody_3D_sle sle sle2]
  have h2 : AssembleElement_particleBody log 3 sle
      = AssembleElement_particleBody log 3 sle2 := by
    funext n st particle
    unfold AssembleElement_particleBody
    rw [h1]
  rw [AssembleElement_some, AssembleElement_some]
  unfold AssembleElement_quadratureLoop
  rw [h2]

theorem samplePoint3D_flagTruthful :
    ∀ p ∈ sampleElement3D.particles, flagTruthful 6 p.isDiagonal p.matrixData := by
  intro p hp
  have h : p = samplePoint3D := List.mem_singleton.mp hp
  subst h
  intro _ i _ j _ hij
  show (if i = j then (if i < 3 then (2 : ℚ) else 1) else 0) = 0
  rw [if_neg hij]

theorem sampleElement3D_loop (sle : SystemLinearEquations) :
    (AssembleElement_quadratureLoop (fun x => x) (samplePenaltyObject 3 (0 : ℚ) false) 3
      sampleElement3D sle (fun _ _ => 0)).elStiffMat 0 0 = 4 := by
  have h := quadratureLoop_3D_apply (fun x => x) sle 1 0 0 0 0 sampleElement3D.particles
    samplePoint3D_flagTruthful
    { self := samplePenaltyObject 3 (0 : ℚ) false, elStiffMat := fun _ _ => 0,
      averaged_eta := 0, total_weight := 0 } rfl
  refine Eq.trans ?_ (h.trans ?_)
  · rfl
  · show (0 : ℚ) + ((if 0 < 1 ∧ 0 < 1 then
        ((spec_nodeB3D samplePoint3D.GNx 0).transpose
          * (toMatrix 6 6 (scaledTensor samplePoint3D) * spec_nodeB3D samplePoint3D.GNx 0)) 0 0
        else 0) + 0) = 4
    rw [if_pos ⟨Nat.zero_lt_one, Nat.zero_lt_one⟩, spec_nodeB3D, spec_B3D_transpose_mul]
    have e3 : ((3 : Fin 6) : ℕ) = 3 := rfl
    have e4 : ((4 : Fin 6) : ℕ) = 4 := rfl
    simp only [toMatrix_mul_spec_B3D, Fin.val_zero, if_true, e3, e4, scaledTensor,
      samplePoint3D]
    norm_num

/-- C19 (amended): 3D Newton mode is not a fail-fast state of
`AssembleElement`. With `dim = 3` and `sle->nlFormJacobian` true the call
reports no error and returns the matrix it returns with `nlFormJacobian` false
(the 3D branch of the inner loop does not read the flag); for a 3D object and
tensors with truthful flags, the quadrature loop has added to the `[a][b]`
entry of the block of every node pair `(j, i)` the sum over the points of
`B_j^T * (D~ * B_i)`. -/
theorem C19_newton_3D_accumulates {α : Type} [Field α] [DecidableEq α] (log exp : α → α)
    (self : ViscousPenaltyConstMatrixCartesian α) (element : Element α)
    (hasExecuted : Bool) (nonLinearIteration_I : Nat) (elStiffMat : Nat → Nat → α)
    (hdim : self.dim = 3)
    (hflag : ∀ p ∈ element.particles, flagTruthful 6 p.isDiagonal p.matrixData) :
    (∃ K : Nat → Nat → α,
      _ViscousPenaltyConstMatrixCartesian_AssembleElement log exp self 3 element
          (some { nlFormJacobian := true, hasExecuted := hasExecuted,
                  nonLinearIteration_I := nonLinearIteration_I }) elStiffMat = Except.ok K
        ∧ _ViscousPenaltyConstMatrixCartesian_AssembleElement log exp self 3 element
          (some { nlFormJacobian := false, hasExecuted := hasExecuted,
                  nonLinearIteration_I := nonLinearIteration_I }) elStiffMat = Except.ok K)
      ∧ ∀ (i j : Nat) (a b : Fin 3),
        (AssembleElement_quadratureLoop log self 3 element
            { nlFormJacobian := true, hasExecuted := hasExecuted,
              nonLinearIteration_I := nonLinearIteration_I } elStiffMat).elStiffMat
            (j * 3 + a.val) (i * 3 + b.val)
          = elStiffMat (j * 3 + a.val) (i * 3 + b.val)
            + (element.particles.map (fun p =>
                if j < element.nodeCount ∧ i < element.nodeCount then
                  ((spec_nodeB3D p.GNx j).transpose
                    * (toMatrix 6 6 (scaledTensor p) * spec_nodeB3D p.GNx i)) a b
                else 0)).sum := by
  refine ⟨⟨_, AssembleElement_some log exp self 3 element _ elStiffMat, ?_⟩, ?_⟩
  · rw [← AssembleElement_some log exp self 3 element _ elStiffMat]
    exact AssembleElement_3D_sle log exp self element _ _ elStiffMat
  · intro i j a b
    exact quadratureLoop_3D_apply log _ element.nodeCount i j a b element.particles hflag
      { self := self, elStiffMat := elStiffMat, averaged_eta := 0, total_weight := 0 } hdim

/-- Witness of C19 (amended): the one-node 3D element `sampleElement3D` in
Newton mode. -/
theorem C19_newton_3D_accumulates_witness :
    (samplePenaltyObject 3 (0 : ℚ) false).dim = 3
      ∧ (∀ p ∈ sampleElement3D.particles, flagTruthful 6 p.isDiagonal p.matrixData)
      ∧ ∃ K : Nat → Nat → ℚ,
        _ViscousPenaltyConstMatrixCartesian_AssembleElement (fun x => x) (fun x => x)
            (samplePenaltyObject 3 (0 : ℚ) false) 3 sampleElement3D
            (some { nlFormJacobian := true, hasExecuted := true, nonLinearIteration_I := 1 })
            (fun _ _ => 0) = Except.ok K
          ∧ _ViscousPenaltyConstMatrixCartesian_AssembleElement (fun x => x) (fun x => x)
            (samplePenaltyObject 3 (0 : ℚ) false) 3 sampleElement3D
            (some { nlFormJacobian := false, hasExecuted := true, nonLinearIteration_I := 1 })
            (fun _ _ => 0) = Except.ok K :=
  ⟨rfl, samplePoint3D_flagTruthful,
    (C19_newton_3D_accumulates (fun x => x) (fun x => x) (samplePenaltyObject 3 (0 : ℚ) false)
      sampleElement3D true 1 (fun _ _ => 0) rfl samplePoint3D_flagTruthful).1⟩

/-- C19 as stated fails on the one-node 3D element `sampleElement3D` in Newton
mode: the call with `dim = 3` and `nlFormJacobian` true reports no error and
returns a matrix whose entry `[0][0]`, 0 on entry, is 4. -/
theorem C19_newton_3D_counterexample :
    sampleNewton.nlFormJacobian = true
      ∧ ∃ K : Nat → Nat → ℚ,
        _ViscousPenaltyConstMatrixCartesian_AssembleElement (fun x => x) (fun x => x)
            (samplePenaltyObject 3 (0 : ℚ) false) 3 sampleElement3D (some sampleNewton)
            (fun _ _ => 0) = Except.ok K
          ∧ K 0 0 = 4 := by
  refine ⟨rfl, _, AssembleElement_some _ _ _ 3 _ _ _, ?_⟩
  rw [penaltyTerm_zero _ _ _ _ _ _ _ _ _
    (AssembleElement_quadratureLoop_self (fun x => x) (samplePenaltyObject 3 (0 : ℚ) false) 3
      sampleElement3D sampleNewton (fun _ _ => 0)).2.1]
  exact sampleElement3D_loop sampleNewton

/-! ### Order of the quadrature points -/

theorem addAssign_add {α : Type} [AddMonoid α] (A B : Nat → Nat → α) (i j : Nat) (v : α) :
    addAssign (A + B) i j v = A + addAssign B i j v := by
  funext r c
  simp only [addAssign_apply, Pi.add_apply]
  split_ifs with h
  · obtain ⟨rfl, rfl⟩ := h
    rw [add_assoc]
  · rfl

/-- One pass of the inner loop adds to the matrix amounts that do not depend
on the matrix. -/
theorem colNodeBody_translation {α : Type} [CommRing α] (dim : Nat)
    (sle : SystemLinearEquations) (self : ViscousPenaltyConstMatrixCartesian α)
    (particle : IntegrationPoint α) (eta : α) (rowNode_I : Nat)
    (elStiffMat : Nat → Nat → α) (colNode_I : Nat) :
    AssembleElement_colNodeBody dim sle self particle eta rowNode_I elStiffMat colNode_I
      = elStiffMat
        + AssembleElement_colNodeBody dim sle self particle eta rowNode_I 0 colNode_I := by
  have hK : elStiffMat = elStiffMat + 0 := (add_zero elStiffMat).symm
  unfold AssembleElement_colNodeBody
  simp only []
  split_ifs
  all_goals
    conv_lhs => rw [hK]
    simp only [addAssign_add]

theorem foldl_translation {α β : Type} [AddMonoid α] (f : α → β → α)
    (h : ∀ K x, f K x = K + f 0 x) (l : List β) (K : α) :
    l.foldl f K = K + l.foldl f 0 := by
  induction l generalizing K with
  | nil => exact (add_zero K).symm
  | cons x xs ih =>
    rw [List.foldl_cons, List.foldl_cons, ih (f K x), ih (f 0 x), h K x, add_assoc]

theorem Assemble_D_B_2D_frame {α : Type} [CommRing α] (self : ConstitutiveMatrix α)
    (GNx : Nat → Nat → α) (node_I : Nat) (D_B : Nat → Nat → α) (r c : Nat)
    (h : ¬ (r < 3 ∧ c < 2)) :
    _ViscousPenaltyConstMatrixCartesian2D_Assemble_D_B self GNx node_I D_B r c = D_B r c := by
  unfold _ViscousPenaltyConstMatrixCartesian2D_Assemble_D_B
  simp only []
  split_ifs <;> simp (disch := omega) only [assign_ne]

theorem Assemble_D_B_3D_frame {α : Type} [CommRing α] (self : ConstitutiveMatrix α)
    (GNx : Nat → Nat → α) (node_I : Nat) (D_B : Nat → Nat → α) (r c : Nat)
    (h : ¬ (r < 6 ∧ c < 3)) :
    _ViscousPenaltyConstMatrixCartesian3D_Assemble_D_B self GNx node_I D_B r c = D_B r c := by
  unfold _ViscousPenaltyConstMatrixCartesian3D_Assemble_D_B
  simp only []
  split_ifs <;> simp (disch := omega) only [assign_ne]

theorem Assemble_D_B_2D_written {α : Type} [CommRing α] (self : ConstitutiveMatrix α)
    (GNx : Nat → Nat → α) (node_I : Nat) (D_B D_B2 : Nat → Nat → α) (r c : Nat)
    (hr : r < 3) (hc : c < 2) :
    _ViscousPenaltyConstMatrixCartesian2D_Assemble_D_B self GNx node_I D_B r c
      = _ViscousPenaltyConstMatrixCartesian2D_Assemble_D_B self GNx node_I D_B2 r c := by
  unfold _ViscousPenaltyConstMatrixCartesian2D_Assemble_D_B
  simp only []
  split_ifs <;> interval_cases r <;> interval_cases c <;>
    simp (disch := decide) only [assign_same, assign_ne]

theorem Assemble_D_B_3D_written {α : Type} [CommRing α] (self : ConstitutiveMatrix α)
    (GNx : Nat → Nat → α) (node_I : Nat) (D_B D_B2 : Nat → Nat → α) (r c : Nat)
    (hr : r < 6) (hc : c < 3) :
    _ViscousPenaltyConstMatrixCartesian3D_Assemble_D_B self GNx node_I D_B r c
      = _ViscousPenaltyConstMatrixCartesian3D_Assemble_D_B self GNx node_I D_B2 r c := by
  unfold _ViscousPenaltyConstMatrixCartesian3D_Assemble_D_B
  simp only []
  split_ifs <;> interval_cases r <;> interval_cases c <;>
    simp (disch := decide) only [assign_same, assign_ne]

/-- The scratch buffer keeps its entries outside the written block. -/
theorem Assemble_D_B_frame {α : Type} [CommRing α] (self : ConstitutiveMatrix α)
    (GNx : Nat → Nat → α) (node_I : Nat) (D_B : Nat → Nat → α) (r c : Nat)
    (h : ¬ Dtilda_B_written self.dim r c) :
    ConstitutiveMatrix_Assemble_D_B self GNx node_I D_B r c = D_B r c := by
  unfold Dtilda_B_written at h
  unfold ConstitutiveMatrix_Assemble_D_B
  by_cases hd : self.dim = 2
  · rw [if_pos hd] at h ⊢
    exact Assemble_D_B_2D_frame self GNx node_I D_B r c h
  · rw [if_neg hd] at h ⊢
    exact Assemble_D_B_3D_frame self GNx node_I D_B r c h

/-- The buffer written by `Assemble_D_B` depends on the incoming buffer only
outside the written block. -/
theorem Assemble_D_B_buffer {α : Type} [CommRing α] (self : ConstitutiveMatrix α)
    (GNx : Nat → Nat → α) (node_I : Nat) (D_B D_B2 : Nat → Nat → α)
    (h : ∀ r c, ¬ Dtilda_B_written self.dim r c → D_B r c = D_B2 r c) :
    ConstitutiveMatrix_Assemble_D_B self GNx node_I D_B
      = ConstitutiveMatrix_Assemble_D_B self GNx node_I D_B2 := by
  funext r c
  by_cases hw : Dtilda_B_written self.dim r c
  · unfold Dtilda_B_written at hw
    unfold ConstitutiveMatrix_Assemble_D_B
    by_cases hd : self.dim = 2
    · rw [if_pos hd] at hw
      rw [if_pos hd, if_pos hd]
      exact Assemble_D_B_2D_written self GNx node_I D_B D_B2 r c hw.1 hw.2
    · rw [if_neg hd] at hw
      rw [if_neg hd, if_neg hd]
      exact Assemble_D_B_3D_written self GNx node_I D_B D_B2 r c hw.1 hw.2
  · rw [Assemble_D_B_frame self GNx node_I D_B r c hw,
      Assemble_D_B_frame self GNx node_I D_B2 r c hw, h r c hw]

theorem sameFrame_refl {α : Type} (s : ViscousPenaltyConstMatrixCartesian α) :
    sameFrame s s :=
  ⟨rfl, rfl, rfl, rfl, fun _ _ _ => rfl⟩

theorem sameFrame_symm {α : Type} (s t : ViscousPenaltyConstMatrixCartesian α)
    (h : sameFrame s t) : sameFrame t s := by
  obtain ⟨h1, h2, h3, h4, h5⟩ := h
  exact ⟨h1.symm, h2.symm, h3.symm, h4.symm, fun r c hw => (h5 r c (by rw [h1]; exact hw)).symm⟩

theorem sameFrame_trans {α : Type} (s t u : ViscousPenaltyConstMatrixCartesian α)
    (h : sameFrame s t) (g : sameFrame t u) : sameFrame s u := by
  obtain ⟨h1, h2, h3, h4, h5⟩ := h
  obtain ⟨g1, g2, g3, g4, g5⟩ := g
  exact ⟨h1.trans g1, h2.trans g2, h3.trans g3, h4.trans g4,
    fun r c hw => (h5 r c hw).trans (g5 r c (by rw [← h1]; exact hw))⟩

/-- One pass of the loop over the row nodes, started from two objects with the
same tensor and the same frame, leaves the same object. -/
theorem rowNodeBody_self_eq {α : Type} [CommRing α] (dim : Nat) (sle : SystemLinearEquations)
    (n : Nat) (particle : IntegrationPoint α) (eta : α)
    (s t : ViscousPenaltyConstMatrixCartesian α) (K L : Nat → Nat → α) (rowNode_I : Nat)
    (hc : s.toConstitutiveMatrix = t.toConstitutiveMatrix) (hf : sameFrame s t) :
    (AssembleElement_rowNodeBody dim sle n particle eta (s, K) rowNode_I).1
      = (AssembleElement_rowNodeBody dim sle n particle eta (t, L) rowNode_I).1 := by
  obtain ⟨_, h2, h3, h4, h5⟩ := hf
  have hB := Assemble_D_B_buffer s.toConstitutiveMatrix particle.GNx rowNode_I
    s.Dtilda_B t.Dtilda_B h5
  unfold AssembleElement_rowNodeBody
  simp only []
  rw [hB, hc]
  cases s
  cases t
  simp only at hc h2 h3 h4
  simp only [ViscousPenaltyConstMatrixCartesian.mk.injEq]
  exact ⟨trivial, h3, h4, trivial, h2⟩

theorem rowNodeBody_translation {α : Type} [CommRing α] (dim : Nat)
    (sle : SystemLinearEquations) (n : Nat) (particle : IntegrationPoint α) (eta : α)
    (s : ViscousPenaltyConstMatrixCartesian α) (K : Nat → Nat → α) (rowNode_I : Nat) :
    AssembleElement_rowNodeBody dim sle n particle eta (s, K) rowNode_I
      = ((AssembleElement_rowNodeBody dim sle n particle eta (s, 0) rowNode_I).1,
        K + (AssembleElement_rowNodeBody dim sle n particle eta (s, 0) rowNode_I).2) := by
  unfold AssembleElement_rowNodeBody
  simp only []
  rw [foldl_translation _
    (fun K x => colNodeBody_translation dim sle _ particle eta rowNode_I K x) (List.range n) K]

/-- The loop over the row nodes adds to the matrix amounts that do not depend
on the matrix, and leaves an object that does not depend on it. -/
theorem rowLoop_translation {α : Type} [CommRing α] (dim : Nat)
    (sle : SystemLinearEquations) (n : Nat) (particle : IntegrationPoint α) (eta : α)
    (l : List Nat) (s : ViscousPenaltyConstMatrixCartesian α) (K : Nat → Nat → α) :
    l.foldl (AssembleElement_rowNodeBody dim sle n particle eta) (s, K)
      = ((l.foldl (AssembleElement_rowNodeBody dim sle n particle eta) (s, 0)).1,
        K + (l.foldl (AssembleElement_rowNodeBody dim sle n particle eta) (s, 0)).2) := by
  induction l generalizing s K with
  | nil => simp
  | cons x xs ih =>
    rw [List.foldl_cons, List.foldl_cons, rowNodeBody_translation dim sle n particle eta s K x]
    generalize AssembleElement_rowNodeBody dim sle n particle eta (s, 0) x = y
    obtain ⟨s1, D1⟩ := y
    rw [ih s1 (K + D1), ih s1 D1, add_assoc]

/-- What the loop over the row nodes adds to the matrix depends on the object
only through its tensor and its frame. -/
theorem rowLoop_frame_indep {α : Type} [CommRing α] (dim : Nat)
    (sle : SystemLinearEquations) (n : Nat) (particle : IntegrationPoint α) (eta : α)
    (l : List Nat) (s t : ViscousPenaltyConstMatrixCartesian α)
    (hc : s.toConstitutiveMatrix = t.toConstitutiveMatrix) (hf : sameFrame s t) :
    (l.foldl (AssembleElement_rowNodeBody dim sle n particle eta) (s, 0)).2
      = (l.foldl (AssembleElement_rowNodeBody dim sle n particle eta) (t, 0)).2 := by
  cases l with
  | nil => rfl
  | cons x xs =>
    rw [List.foldl_cons, List.foldl_cons]
    have h1 := rowNodeBody_self_eq dim sle n particle eta s t 0 0 x hc hf
    have h : AssembleElement_rowNodeBody dim sle n particle eta (s, 0) x
        = AssembleElement_rowNodeBody dim sle n particle eta (t, 0) x := by
      apply Prod.ext h1
      show (List.range n).foldl (AssembleElement_colNodeBody dim sle
          (AssembleElement_rowNodeBody dim sle n particle eta (s, 0) x).1 particle eta x) 0
        = (List.range n).foldl (AssembleElement_colNodeBody dim sle
          (AssembleElement_rowNodeBody dim sle n particle eta (t, 0) x).1 particle eta x) 0
      rw [h1]
    rw [h]

/-- The loop over the row nodes keeps the frame of the object. -/
theorem rowLoop_sameFrame {α : Type} [CommRing α] (dim : Nat)
    (sle : SystemLinearEquations) (n : Nat) (particle : IntegrationPoint α) (eta : α)
    (l : List Nat) (st : ViscousPenaltyConstMatrixCartesian α × (Nat → Nat → α)) :
    sameFrame (l.foldl (AssembleElement_rowNodeBody dim sle n particle eta) st).1 st.1 := by
  induction l generalizing st with
  | nil => exact sameFrame_refl _
  | cons x xs ih =>
    rw [List.foldl_cons]
    refine sameFrame_trans _ _ _ (ih _) ?_
    exact ⟨rfl, rfl, rfl, rfl, fun r c hw =>
      Assemble_D_B_frame st.1.toConstitutiveMatrix particle.GNx x st.1.Dtilda_B r c hw⟩

/-- The body of the quadrature loop adds the contribution of the point to the
matrix. -/
theorem particleBody_translation {α : Type} [CommRing α] (log : α → α) (dim : Nat)
    (sle : SystemLinearEquations) (n : Nat) (st : QuadratureState α)
    (particle : IntegrationPoint α) :
    (AssembleElement_particleBody log dim sle n st particle).elStiffMat
      = st.elStiffMat
        + AssembleElement_particleContribution log dim sle n st.self particle :=
  congrArg Prod.snd (rowLoop_translation dim sle n particle _ (List.range n) _ st.elStiffMat)

/-- The contribution of a point depends on the object only through its frame. -/
theorem particleContribution_frame {α : Type} [CommRing α] (log : α → α) (dim : Nat)
    (sle : SystemLinearEquations) (n : Nat) (s t : ViscousPenaltyConstMatrixCartesian α)
    (particle : IntegrationPoint α) (hf : sameFrame s t) :
    AssembleElement_particleContribution log dim sle n s particle
      = AssembleElement_particleContribution log dim sle n t particle := by
  obtain ⟨h1, h2, h3, h4, h5⟩ := hf
  have hA : ConstitutiveMatrix_Assemble s.toConstitutiveMatrix particle
      = ConstitutiveMatrix_Assemble t.toConstitutiveMatrix particle := by
    show ({ dim := s.dim, matrixData := particle.matrixData, isDiagonal := particle.isDiagonal,
            derivs := particle.derivs } : ConstitutiveMatrix α)
      = { dim := t.dim, matrixData := particle.matrixData, isDiagonal := particle.isDiagonal,
          derivs := particle.derivs }
    rw [h1]
  unfold AssembleElement_particleContribution AssembleElement_particleBody
  simp only []
  rw [hA]
  exact rowLoop_frame_indep dim sle n particle _ (List.range n) _ _ rfl
    ⟨rfl, h2, h3, h4, fun r c hw => h5 r c (by rw [h1]; exact hw)⟩

/-- The body of the quadrature loop keeps the frame of the object. -/
theorem particleBody_sameFrame {α : Type} [CommRing α] (log : α → α) (dim : Nat)
    (sle : SystemLinearEquations) (n : Nat) (st : QuadratureState α)
    (particle : IntegrationPoint α) :
    sameFrame (AssembleElement_particleBody log dim sle n st particle).self st.self := by
  unfold AssembleElement_particleBody
  simp only []
  refine sameFrame_trans _ _ _ (rowLoop_sameFrame dim sle n particle _ (List.range n) _) ?_
  exact ⟨rfl, rfl, rfl, rfl, fun _ _ _ => rfl⟩

theorem stateEquiv_refl {α : Type} (st : QuadratureState α) : stateEquiv st st :=
  ⟨sameFrame_refl _, rfl, rfl, rfl⟩

theorem stateEquiv_trans {α : Type} (st su sv : QuadratureState α)
    (h : stateEquiv st su) (g : stateEquiv su sv) : stateEquiv st sv :=
  ⟨sameFrame_trans _ _ _ h.1 g.1, h.2.1.trans g.2.1, h.2.2.1.trans g.2.2.1,
    h.2.2.2.trans g.2.2.2⟩

/-- The body of the quadrature loop respects the equivalence of states. -/
theorem particleBody_stateEquiv {α : Type} [CommRing α] (log : α → α) (dim : Nat)
    (sle : SystemLinearEquations) (n : Nat) (st su : QuadratureState α)
    (particle : IntegrationPoint α) (h : stateEquiv st su) :
    stateEquiv (AssembleElement_particleBody log dim sle n st particle)
      (AssembleElement_particleBody log dim sle n su particle) := by
  obtain ⟨h1, h2, h3, h4⟩ := h
  refine ⟨?_, ?_, ?_, ?_⟩
  · exact sameFrame_trans _ _ _ (particleBody_sameFrame log dim sle n st particle)
      (sameFrame_trans _ _ _ h1
        (sameFrame_symm _ _ (particleBody_sameFrame log dim sle n su particle)))
  · rw [particleBody_translation, particleBody_translation, h2,
      particleContribution_frame log dim sle n st.self su.self particle h1]
  · show st.averaged_eta + particle.weight * log (particle.matrixData 2 2)
      = su.averaged_eta + particle.weight * log (particle.matrixData 2 2)
    rw [h3]
  · show st.total_weight + particle.weight = su.total_weight + particle.weight
    rw [h4]

/-- Two successive points can be exchanged. -/
theorem particleBody_comm {α : Type} [CommRing α] (log : α → α) (dim : Nat)
    (sle : SystemLinearEquations) (n : Nat) (st : QuadratureState α)
    (p q : IntegrationPoint α) :
    stateEquiv
      (AssembleElement_particleBody log dim sle n
        (AssembleElement_particleBody log dim sle n st p) q)
      (AssembleElement_particleBody log dim sle n
        (AssembleElement_particleBody log dim sle n st q) p) := by
  have fp := particleBody_sameFrame log dim sle n st p
  have fq := particleBody_sameFrame log dim sle n st q
  have fpq := particleBody_sameFrame log dim sle n
    (AssembleElement_particleBody log dim sle n st p) q
  have fqp := particleBody_sameFrame log dim sle n
    (AssembleElement_particleBody log dim sle n st q) p
  refine ⟨?_, ?_, ?_, ?_⟩
  · exact sameFrame_trans _ _ _ (sameFrame_trans _ _ _ fpq fp)
      (sameFrame_symm _ _ (sameFrame_trans _ _ _ fqp fq))
  · rw [particleBody_translation, particleBody_translation, particleBody_translation,
      particleBody_translation, particleContribution_frame log dim sle n _ st.self q fp,
      particleContribution_frame log dim sle n _ st.self p fq, add_right_comm]
  · show st.averaged_eta + p.weight * log (p.matrixData 2 2)
        + q.weight * log (q.matrixData 2 2)
      = st.averaged_eta + q.weight * log (q.matrixData 2 2)
        + p.weight * log (p.matrixData 2 2)
    rw [add_right_comm]
  · show st.total_weight + p.weight + q.weight = st.total_weight + q.weight + p.weight
    rw [add_right_comm]

theorem quadratureLoop_stateEquiv {α : Type} [CommRing α] (log : α → α) (dim : Nat)
    (sle : SystemLinearEquations) (n : Nat) (l : List (IntegrationPoint α))
    (st su : QuadratureState α) (h : stateEquiv st su) :
    stateEquiv (l.foldl (AssembleElement_particleBody log dim sle n) st)
      (l.foldl (AssembleElement_particleBody log dim sle n) su) := by
  induction l generalizing st su with
  | nil => exact h
  | cons x xs ih =>
    rw [List.foldl_cons, List.foldl_cons]
    exact ih _ _ (particleBody_stateEquiv log dim sle n st su x h)

/-- The quadrature loop over a permutation of the points ends in an equivalent
state. -/
theorem quadratureLoop_perm {α : Type} [CommRing α] (log : α → α) (dim : Nat)
    (sle : SystemLinearEquations) (n : Nat) (l l2 : List (IntegrationPoint α))
    (h : l.Perm l2) (st : QuadratureState α) :
    stateEquiv (l.foldl (AssembleElement_particleBody log dim sle n) st)
      (l2.foldl (AssembleElement_particleBody log dim sle n) st) := by
  induction h generalizing st with
  | nil => exact stateEquiv_refl _
  | cons x _ ih =>
    rw [List.foldl_cons, List.foldl_cons]
    exact ih _
  | swap x y l =>
    rw [List.foldl_cons, List.foldl_cons, List.foldl_cons, List.foldl_cons]
    exact quadratureLoop_stateEquiv log dim sle n l _ _ (particleBody_comm log dim sle n st y x)
  | trans _ _ ih1 ih2 => exact stateEquiv_trans _ _ _ (ih1 st) (ih2 st)

/-- The penalty term reads only the penalty configuration of the object. -/
theorem penaltyTerm_stateEquiv {α : Type} [Field α] [DecidableEq α] (exp : α → α)
    (dim n : Nat) (detJac : α) (GN0x : Nat → Nat → α) (st su : QuadratureState α)
    (h : stateEquiv st su) :
    AssembleElement_penaltyTerm exp dim n st.self detJac GN0x st.averaged_eta st.total_weight
        st.elStiffMat
      = AssembleElement_penaltyTerm exp dim n su.self detJac GN0x su.averaged_eta
        su.total_weight su.elStiffMat := by
  obtain ⟨⟨_, _, h3, h4, _⟩, h5, h6, h7⟩ := h
  unfold AssembleElement_penaltyTerm
  rw [h3, h4, h5, h6, h7]

/-- C20: the local stiffness matrix assembled by `AssembleElement` does not
depend on the order of the quadrature points: for every object, dimension,
element, solve state (NULL, Picard or Newton), initial `elStiffMat`, penalty
configuration and every permutation `particles2` of the element's list of
points, the call on the permuted element gives the same result, over any field
(the reals in particular). -/
theorem C20_quadrature_order_irrelevant {α : Type} [Field α] [DecidableEq α]
    (log exp : α → α) (self : ViscousPenaltyConstMatrixCartesian α) (dim : Nat)
    (element : Element α) (particles2 : List (IntegrationPoint α))
    (sle : Option SystemLinearEquations) (elStiffMat : Nat → Nat → α)
    (h : element.particles.Perm particles2) :
    _ViscousPenaltyConstMatrixCartesian_AssembleElement log exp self dim element sle
        elStiffMat
      = _ViscousPenaltyConstMatrixCartesian_AssembleElement log exp self dim
        { element with particles := particles2 } sle elStiffMat := by
  cases sle with
  | none => rfl
  | some sle =>
    rw [AssembleElement_some, AssembleElement_some]
    exact congrArg Except.ok (penaltyTerm_stateEquiv exp dim element.nodeCount element.detJac0
      element.GN0x _ _ (quadratureLoop_perm log dim sle element.nodeCount _ _ h _))

/-- Witness of C20: the unit-square element with two points of weights 1 and
3, and the same element with the two points exchanged, in Newton mode with the
penalty term. -/
theorem C20_quadrature_order_irrelevant_witness :
    (sampleUniformElement [1, (3 : ℚ)] 2).particles.Perm
        (sampleUniformElement [3, (1 : ℚ)] 2).particles
      ∧ _ViscousPenaltyConstMatrixCartesian_AssembleElement (fun x => x) (fun x => x)
          (samplePenaltyObject 2 (1 : ℚ) true) 2 (sampleUniformElement [1, 3] 2)
          (some sampleNewton) (fun _ _ => 0)
        = _ViscousPenaltyConstMatrixCartesian_AssembleElement (fun x => x) (fun x => x)
          (samplePenaltyObject 2 (1 : ℚ) true) 2
          { sampleUniformElement [1, (3 : ℚ)] 2 with
            particles := (sampleUniformElement [3, (1 : ℚ)] 2).particles }
          (some sampleNewton) (fun _ _ => 0) :=
  ⟨List.Perm.swap _ _ _,
    C20_quadrature_order_irrelevant (fun x => x) (fun x => x)
      (samplePenaltyObject 2 (1 : ℚ) true) 2 (sampleUniformElement [1, 3] 2)
      (sampleUniformElement [3, (1 : ℚ)] 2).particles (some sampleNewton) (fun _ _ => 0)
      (List.Perm.swap _ _ _)⟩

/-! ### The anisotropic correction -/

/-- The first two columns of every row of the 2D correction sum to zero. -/
theorem correction2D_row_sum {α : Type} [CommRing α] (self : ConstitutiveMatrix α)
    (deltaViscosity : α) (director : Nat → α) (i : Nat) (hi : i < 3) :
    spec_correction2D self deltaViscosity director i 0
      + spec_correction2D self deltaViscosity director i 1 = 0 := by
  unfold spec_correction2D _ViscousPenaltyConstMatrixCartesian2D_SetSecondViscosity
  interval_cases i <;>
    simp (disch := decide) only [addAssign_same, addAssign_ne] <;>
    ring

/-- The first three columns of every row of the 3D correction sum to zero for
a unit director. -/
theorem correction3D_row_sum {α : Type} [CommRing α] (self : ConstitutiveMatrix α)
    (deltaViscosity : α) (director : Nat → α)
    (h : director 0 * director 0 + director 1 * director 1 + director 2 * director 2 = 1)
    (i : Nat) (hi : i < 6) :
    spec_correction3D self deltaViscosity director i 0
      + spec_correction3D self deltaViscosity director i 1
      + spec_correction3D self deltaViscosity director i 2 = 0 := by
  unfold spec_correction3D _ViscousPenaltyConstMatrixCartesian3D_SetSecondViscosity
  interval_cases i <;>
    simp (disch := decide) only [addAssign_same, addAssign_ne, I_AXIS, J_AXIS, K_AXIS]
  · linear_combination (4 * director 0 * director 0 * deltaViscosity) * h
  · linear_combination (4 * director 1 * director 1 * deltaViscosity) * h
  · linear_combination (4 * director 2 * director 2 * deltaViscosity) * h
  · linear_combination (4 * director 0 * director 1 * deltaViscosity) * h
  · linear_combination (4 * director 0 * director 2 * deltaViscosity) * h
  · linear_combination (4 * director 1 * director 2 * deltaViscosity) * h

/-- C27: the anisotropic correction produces no stress from a purely
volumetric strain rate. With `C` the matrix `SetSecondViscosity` adds to `D`:
in 2D `C * (1, 1, 0) = 0` for every director and every `deltaViscosity`; in 3D
`C * (1, 1, 1, 0, 0, 0) = 0` for every `deltaViscosity` and every unit
director; equivalently the first `d` columns of every row of `C` sum to
zero. -/
theorem C27_correction_kills_volumetric {α : Type} [CommRing α]
    (self : ConstitutiveMatrix α) (deltaViscosity : α) (director2 director3 : Nat → α)
    (h : director3 0 * director3 0 + director3 1 * director3 1
      + director3 2 * director3 2 = 1) :
    (toMatrix 3 3 (spec_correction2D self deltaViscosity director2)).mulVec ![1, 1, 0] = 0
      ∧ (∀ i, i < 3 →
        spec_correction2D self deltaViscosity director2 i 0
          + spec_correction2D self deltaViscosity director2 i 1 = 0)
      ∧ (toMatrix 6 6 (spec_correction3D self deltaViscosity director3)).mulVec
          ![1, 1, 1, 0, 0, 0] = 0
      ∧ (∀ i, i < 6 →
        spec_correction3D self deltaViscosity director3 i 0
          + spec_correction3D self deltaViscosity director3 i 1
          + spec_correction3D self deltaViscosity director3 i 2 = 0) := by
  refine ⟨?_, correction2D_row_sum self deltaViscosity director2, ?_,
    correction3D_row_sum self deltaViscosity director3 h⟩
  · funext i
    rw [toMatrix_mulVec_three, mul_one, mul_one, mul_zero, add_zero]
    exact correction2D_row_sum self deltaViscosity director2 i.val i.isLt
  · funext i
    rw [toMatrix_mulVec_six, mul_one, mul_one, mul_one, mul_zero, mul_zero, mul_zero,
      add_zero, add_zero, add_zero]
    exact correction3D_row_sum self deltaViscosity director3 h i.val i.isLt

theorem sampleUnitDirector_unit :
    sampleUnitDirector 0 * sampleUnitDirector 0 + sampleUnitDirector 1 * sampleUnitDirector 1
      + sampleUnitDirector 2 * sampleUnitDirector 2 = 1 := by
  show (2 / 3 : ℚ) * (2 / 3) + 1 / 3 * (1 / 3) + 2 / 3 * (2 / 3) = 1
  norm_num

/-- Witness of C27 on the symmetric sample tensor with `deltaViscosity = 5`,
the 2D director `(3/5, 4/5)` and the unit director `(2/3, 1/3, 2/3)`. -/
theorem C27_correction_kills_volumetric_witness :
    sampleUnitDirector 0 * sampleUnitDirector 0 + sampleUnitDirector 1 * sampleUnitDirector 1
        + sampleUnitDirector 2 * sampleUnitDirector 2 = 1
      ∧ (toMatrix 6 6 (spec_correction3D sampleSymmetricTensor 5 sampleUnitDirector)).mulVec
          ![1, 1, 1, 0, 0, 0] = 0
      ∧ (toMatrix 3 3 (spec_correction2D sampleSymmetricTensor 5 samplePlaneDirector)).mulVec
          ![1, 1, 0] = 0 :=
  ⟨sampleUnitDirector_unit,
    (C27_correction_kills_volumetric sampleSymmetricTensor 5 samplePlaneDirector
      sampleUnitDirector sampleUnitDirector_unit).2.2.1,
    (C27_correction_kills_volumetric sampleSymmetricTensor 5 samplePlaneDirector
      sampleUnitDirector sampleUnitDirector_unit).1⟩

/-- C28: the 3D anisotropic correction restricted to the plane agrees with the
2D one: for every `deltaViscosity` and every director `(n1, n2, 0)` with
`n1^2 + n2^2 = 1`, the entries of the 3D `SetSecondViscosity` correction at
the Voigt indices 0, 1, 3 (xx, yy, xy) equal, entry for entry, the 3 x 3
correction of the 2D `SetSecondViscosity` for the director `(n1, n2)` and the
same `deltaViscosity`, whatever the tensors the two are applied to. -/
theorem C28_plane_restriction_agrees {α : Type} [CommRing α]
    (self2 self3 : ConstitutiveMatrix α) (deltaViscosity : α) (director : Nat → α)
    (h3 : director 2 = 0) (h : director 0 * director 0 + director 1 * director 1 = 1) :
    ∀ i, i < 3 → ∀ j, j < 3 →
      spec_correction3D self3 deltaViscosity director (spec_planeIndex i) (spec_planeIndex j)
        = spec_correction2D self2 deltaViscosity director i j := by
  intro i hi j hj
  unfold spec_correction3D spec_correction2D
    _ViscousPenaltyConstMatrixCartesian3D_SetSecondViscosity
    _ViscousPenaltyConstMatrixCartesian2D_SetSecondViscosity
  interval_cases i <;> interval_cases j <;>
    simp (disch := decide) only [spec_planeIndex, if_true, if_false, addAssign_same,
      addAssign_ne, I_AXIS, J_AXIS, K_AXIS, OfNat.ofNat_ne_zero, OfNat.ofNat_ne_one,
      one_ne_zero, zero_ne_one, Nat.reduceEqDiff, h3]
  · linear_combination (4 * director 0 * director 0 * deltaViscosity) * h
  · ring
  · linear_combination (2 * director 0 * director 1 * deltaViscosity) * h
  · ring
  · linear_combination (4 * director 1 * director 1 * deltaViscosity) * h
  · linear_combination (2 * director 0 * director 1 * deltaViscosity) * h
  · linear_combination (2 * director 0 * director 1 * deltaViscosity) * h
  · linear_combination (2 * director 0 * director 1 * deltaViscosity) * h
  · linear_combination (-deltaViscosity) * h

/-- Witness of C28 on the director `(3/5, 4/5, 0)` with `deltaViscosity = 5`,
the 3D correction applied to the symmetric sample tensor and the 2D one to a
zero tensor. -/
theorem C28_plane_restriction_agrees_witness :
    samplePlaneDirector 2 = 0
      ∧ samplePlaneDirector 0 * samplePlaneDirector 0
        + samplePlaneDirector 1 * samplePlaneDirector 1 = 1
      ∧ spec_correction3D sampleSymmetricTensor 5 samplePlaneDirector 3 3
        = spec_correction2D
          ({ dim := 2, matrixData := fun _ _ => 0, isDiagonal := true, derivs := fun _ => 0 } :
            ConstitutiveMatrix ℚ) 5 samplePlaneDirector 2 2 := by
  have hu : samplePlaneDirector 0 * samplePlaneDirector 0
      + samplePlaneDirector 1 * samplePlaneDirector 1 = 1 := by
    show (3 / 5 : ℚ) * (3 / 5) + 4 / 5 * (4 / 5) = 1
    norm_num
  exact ⟨rfl, hu, C28_plane_restriction_agrees _ sampleSymmetricTensor 5 samplePlaneDirector
    rfl hu 2 (by decide) 2 (by decide)⟩

/-! ### The diagonal flag -/

theorem ZeroMatrix_flagTruthful {α : Type} [Zero α] (n : Nat) (self : ConstitutiveMatrix α) :
    flagTruthful n (ConstitutiveMatrix_ZeroMatrix self).isDiagonal
      (ConstitutiveMatrix_ZeroMatrix self).matrixData :=
  fun _ _ _ _ _ _ => rfl

theorem SetValueInAllEntries_2D_flagTruthful {α : Type} [LinearOrderedField α] (n : Nat)
    (self : ConstitutiveMatrix α) (value : α) :
    flagTruthful n
      (_ViscousPenaltyConstMatrixCartesian2D_SetValueInAllEntries self value).isDiagonal
      (_ViscousPenaltyConstMatrixCartesian2D_SetValueInAllEntries self value).matrixData := by
  unfold _ViscousPenaltyConstMatrixCartesian2D_SetValueInAllEntries
  split_ifs
  · exact ZeroMatrix_flagTruthful n self
  · intro h
    exact absurd h Bool.false_ne_true

theorem SetValueInAllEntries_3D_flagTruthful {α : Type} [LinearOrderedField α] (n : Nat)
    (self : ConstitutiveMatrix α) (value : α) :
    flagTruthful n
      (_ViscousPenaltyConstMatrixCartesian3D_SetValueInAllEntries self value).isDiagonal
      (_ViscousPenaltyConstMatrixCartesian3D_SetValueInAllEntries self value).matrixData := by
  unfold _ViscousPenaltyConstMatrixCartesian3D_SetValueInAllEntries
  split_ifs
  · exact ZeroMatrix_flagTruthful n self
  · intro h
    exact absurd h Bool.false_ne_true

theorem IsotropicCorrection_2D_flagTruthful {α : Type} [CommRing α] (n : Nat)
    (self : ConstitutiveMatrix α) (delta : α)
    (h : flagTruthful n self.isDiagonal self.matrixData) :
    flagTruthful n
      (_ViscousPenaltyConstMatrixCartesian2D_IsotropicCorrection self delta).isDiagonal
      (_ViscousPenaltyConstMatrixCartesian2D_IsotropicCorrection self delta).matrixData := by
  intro hd i hi j hj hij
  rw [IsotropicCorrection_2D_offDiagonal self delta i j hij]
  exact h hd i hi j hj hij

theorem IsotropicCorrection_3D_flagTruthful {α : Type} [CommRing α] (n : Nat)
    (self : ConstitutiveMatrix α) (delta : α)
    (h : flagTruthful n self.isDiagonal self.matrixData) :
    flagTruthful n
      (_ViscousPenaltyConstMatrixCartesian3D_IsotropicCorrection self delta).isDiagonal
      (_ViscousPenaltyConstMatrixCartesian3D_IsotropicCorrection self delta).matrixData := by
  intro hd i hi j hj hij
  rw [IsotropicCorrection_3D_offDiagonal self delta i j hij]
  exact h hd i hi j hj hij

theorem SetSecondViscosity_2D_flagTruthful {α : Type} [CommRing α] (n : Nat)
    (self : ConstitutiveMatrix α) (deltaViscosity : α) (director : Nat → α) :
    flagTruthful n
      (_ViscousPenaltyConstMatrixCartesian2D_SetSecondViscosity self deltaViscosity
        director).isDiagonal
      (_ViscousPenaltyConstMatrixCartesian2D_SetSecondViscosity self deltaViscosity
        director).matrixData :=
  fun h => absurd h Bool.false_ne_true

theorem SetSecondViscosity_3D_flagTruthful {α : Type} [CommRing α] (n : Nat)
    (self : ConstitutiveMatrix α) (deltaViscosity : α) (director : Nat → α) :
    flagTruthful n
      (_ViscousPenaltyConstMatrixCartesian3D_SetSecondViscosity self deltaViscosity
        director).isDiagonal
      (_ViscousPenaltyConstMatrixCartesian3D_SetSecondViscosity self deltaViscosity
        director).matrixData :=
  fun h => absurd h Bool.false_ne_true

/-- Every operation keeps the dimension of the object. -/
theorem applyOp_dim {α : Type} [LinearOrderedField α] (self : ConstitutiveMatrix α)
    (op : TensorOp α) : (ConstitutiveMatrix_applyOp self op).dim = self.dim := by
  cases op <;> unfold ConstitutiveMatrix_applyOp <;> simp only [] <;> split_ifs
  · unfold _ViscousPenaltyConstMatrixCartesian2D_SetValueInAllEntries
    split_ifs <;> rfl
  · unfold _ViscousPenaltyConstMatrixCartesian3D_SetValueInAllEntries
    split_ifs <;> rfl
  all_goals rfl

/-- Every operation keeps the flag truthful. -/
theorem applyOp_flagTruthful {α : Type} [LinearOrderedField α] (n : Nat)
    (self : ConstitutiveMatrix α) (op : TensorOp α)
    (h : flagTruthful n self.isDiagonal self.matrixData) :
    flagTruthful n (ConstitutiveMatrix_applyOp self op).isDiagonal
      (ConstitutiveMatrix_applyOp self op).matrixData := by
  cases op <;> unfold ConstitutiveMatrix_applyOp <;> simp only [] <;> split_ifs
  · exact SetValueInAllEntries_2D_flagTruthful n self _
  · exact SetValueInAllEntries_3D_flagTruthful n self _
  · exact IsotropicCorrection_2D_flagTruthful n self _ h
  · exact IsotropicCorrection_3D_flagTruthful n self _ h
  · exact SetSecondViscosity_2D_flagTruthful n self _ _
  · exact SetSecondViscosity_3D_flagTruthful n self _ _

theorem applyOps_flagTruthful {α : Type} [LinearOrderedField α] (n : Nat)
    (ops : List (TensorOp α)) (self : ConstitutiveMatrix α)
    (h : flagTruthful n self.isDiagonal self.matrixData) :
    flagTruthful n (ops.foldl ConstitutiveMatrix_applyOp self).isDiagonal
      (ops.foldl ConstitutiveMatrix_applyOp self).matrixData := by
  induction ops generalizing self with
  | nil => exact h
  | cons op ops ih =>
    rw [List.foldl_cons]
    exact ih _ (applyOp_flagTruthful n self op h)

theorem applyOps_dim {α : Type} [LinearOrderedField α] (ops : List (TensorOp α))
    (self : ConstitutiveMatrix α) :
    (ops.foldl ConstitutiveMatrix_applyOp self).dim = self.dim := by
  induction ops generalizing self with
  | nil => rfl
  | cons op ops ih =>
    rw [List.foldl_cons, ih, applyOp_dim]

theorem CalculateStress_2D_truthful {α : Type} [CommRing α] (self : ConstitutiveMatrix α)
    (strainRate stress : Nat → α) (h : flagTruthful 3 self.isDiagonal self.matrixData) :
    toVector 3 (_ViscousPenaltyConstMatrixCartesian2D_CalculateStress self strainRate stress)
      = (toMatrix 3 3 self.matrixData).mulVec
          ![strainRate 0, strainRate 1, 2 * strainRate 2] := by
  cases hd : self.isDiagonal with
  | false => exact CalculateStress_2D_general self strainRate stress hd
  | true =>
    have h1 := CalculateStress_2D_paths_agree self strainRate stress (h hd)
    have h2 := CalculateStress_2D_general { self with isDiagonal := false } strainRate stress rfl
    have h3 : ({ self with isDiagonal := true } : ConstitutiveMatrix α) = self := by
      cases self
      simp only at hd
      simp [hd]
    rw [h3] at h1
    rw [h1, h2]

theorem CalculateStress_3D_truthful {α : Type} [CommRing α] (self : ConstitutiveMatrix α)
    (strainRate stress : Nat → α) (h : flagTruthful 6 self.isDiagonal self.matrixData) :
    toVector 6 (_ViscousPenaltyConstMatrixCartesian3D_CalculateStress self strainRate stress)
      = (toMatrix 6 6 self.matrixData).mulVec
          ![strainRate 0, strainRate 1, strainRate 2, 2 * strainRate 3, 2 * strainRate 4,
            2 * strainRate 5] := by
  cases hd : self.isDiagonal with
  | false => exact CalculateStress_3D_general self strainRate stress hd
  | true =>
    have h1 := CalculateStress_3D_paths_agree self strainRate stress (h hd)
    have h2 := CalculateStress_3D_general { self with isDiagonal := false } strainRate stress rfl
    have h3 : ({ self with isDiagonal := true } : ConstitutiveMatrix α) = self := by
      cases self
      simp only at hd
      simp [hd]
    rw [h3] at h1
    rw [h1, h2]

/-- C26: the diagonal flag is never stale with respect to the operations of
the file: the predicate "`isDiagonal = true` implies every off-diagonal entry
of `D` is zero" is preserved by `SetValueInAllEntries`, `IsotropicCorrection`
and `SetSecondViscosity`, in 2D (3 x 3 block) and in 3D (6 x 6 block), for all
their arguments; so every tensor reached from a zeroed tensor through any
sequence of these operations, bound by the dimension of the object, satisfies
it on its block, and `Assemble_D_B` and `CalculateStress`, which take the fast
path when the flag is set, then return the full products `D * B` and
`D * s`. -/
theorem C26_flag_never_stale {α : Type} [LinearOrderedField α]
    (self : ConstitutiveMatrix α) (value delta deltaViscosity : α) (director : Nat → α)
    (ops : List (TensorOp α)) (GNx : Nat → Nat → α) (node_I : Nat) (D_B : Nat → Nat → α)
    (strainRate stress : Nat → α) :
    (flagTruthful 3 self.isDiagonal self.matrixData →
      flagTruthful 3
          (_ViscousPenaltyConstMatrixCartesian2D_SetValueInAllEntries self value).isDiagonal
          (_ViscousPenaltyConstMatrixCartesian2D_SetValueInAllEntries self value).matrixData
        ∧ flagTruthful 3
          (_ViscousPenaltyConstMatrixCartesian2D_IsotropicCorrection self delta).isDiagonal
          (_ViscousPenaltyConstMatrixCartesian2D_IsotropicCorrection self delta).matrixData
        ∧ flagTruthful 3
          (_ViscousPenaltyConstMatrixCartesian2D_SetSecondViscosity self deltaViscosity
            director).isDiagonal
          (_ViscousPenaltyConstMatrixCartesian2D_SetSecondViscosity self deltaViscosity
            director).matrixData)
      ∧ (flagTruthful 6 self.isDiagonal self.matrixData →
        flagTruthful 6
            (_ViscousPenaltyConstMatrixCartesian3D_SetValueInAllEntries self value).isDiagonal
            (_ViscousPenaltyConstMatrixCartesian3D_SetValueInAllEntries self value).matrixData
          ∧ flagTruthful 6
            (_ViscousPenaltyConstMatrixCartesian3D_IsotropicCorrection self delta).isDiagonal
            (_ViscousPenaltyConstMatrixCartesian3D_IsotropicCorrection self delta).matrixData
          ∧ flagTruthful 6
            (_ViscousPenaltyConstMatrixCartesian3D_SetSecondViscosity self deltaViscosity
              director).isDiagonal
            (_ViscousPenaltyConstMatrixCartesian3D_SetSecondViscosity self deltaViscosity
              director).matrixData)
      ∧ flagTruthful (spec_blockSize self.dim)
          (ops.foldl ConstitutiveMatrix_applyOp (ConstitutiveMatrix_ZeroMatrix self)).isDiagonal
          (ops.foldl ConstitutiveMatrix_applyOp (ConstitutiveMatrix_ZeroMatrix self)).matrixData
      ∧ (self.dim = 2 →
        toMatrix 3 2 (ConstitutiveMatrix_Assemble_D_B
            (ops.foldl ConstitutiveMatrix_applyOp (ConstitutiveMatrix_ZeroMatrix self))
            GNx node_I D_B)
          = toMatrix 3 3
              (ops.foldl ConstitutiveMatrix_applyOp
                (ConstitutiveMatrix_ZeroMatrix self)).matrixData
            * spec_nodeB2D GNx node_I
        ∧ toVector 3 (_ViscousPenaltyConstMatrixCartesian2D_CalculateStress
            (ops.foldl ConstitutiveMatrix_applyOp (ConstitutiveMatrix_ZeroMatrix self))
            strainRate stress)
          = (toMatrix 3 3
              (ops.foldl ConstitutiveMatrix_applyOp
                (ConstitutiveMatrix_ZeroMatrix self)).matrixData).mulVec
            ![strainRate 0, strainRate 1, 2 * strainRate 2])
      ∧ (self.dim ≠ 2 →
        toMatrix 6 3 (ConstitutiveMatrix_Assemble_D_B
            (ops.foldl ConstitutiveMatrix_applyOp (ConstitutiveMatrix_ZeroMatrix self))
            GNx node_I D_B)
          = toMatrix 6 6
              (ops.foldl ConstitutiveMatrix_applyOp
                (ConstitutiveMatrix_ZeroMatrix self)).matrixData
            * spec_nodeB3D GNx node_I
        ∧ toVector 6 (_ViscousPenaltyConstMatrixCartesian3D_CalculateStress
            (ops.foldl ConstitutiveMatrix_applyOp (ConstitutiveMatrix_ZeroMatrix self))
            strainRate stress)
          = (toMatrix 6 6
              (ops.foldl ConstitutiveMatrix_applyOp
                (ConstitutiveMatrix_ZeroMatrix self)).matrixData).mulVec
            ![strainRate 0, strainRate 1, strainRate 2, 2 * strainRate 3, 2 * strainRate 4,
              2 * strainRate 5]) := by
  have hdim : (ops.foldl ConstitutiveMatrix_applyOp (ConstitutiveMatrix_ZeroMatrix self)).dim
      = self.dim := applyOps_dim ops (ConstitutiveMatrix_ZeroMatrix self)
  refine ⟨fun h => ⟨SetValueInAllEntries_2D_flagTruthful 3 self value,
      IsotropicCorrection_2D_flagTruthful 3 self delta h,
      SetSecondViscosity_2D_flagTruthful 3 self deltaViscosity director⟩,
    fun h => ⟨SetValueInAllEntries_3D_flagTruthful 6 self value,
      IsotropicCorrection_3D_flagTruthful 6 self delta h,
      SetSecondViscosity_3D_flagTruthful 6 self deltaViscosity director⟩,
    applyOps_flagTruthful _ ops _ (ZeroMatrix_flagTruthful _ self), ?_, ?_⟩
  · intro h2
    refine ⟨?_, CalculateStress_2D_truthful _ _ _
      (applyOps_flagTruthful 3 ops _ (ZeroMatrix_flagTruthful 3 self))⟩
    unfold ConstitutiveMatrix_Assemble_D_B
    rw [if_pos (hdim.trans h2)]
    exact Assemble_D_B_2D_truthful _ _ _ _
      (applyOps_flagTruthful 3 ops _ (ZeroMatrix_flagTruthful 3 self))
  · intro h3
    refine ⟨?_, CalculateStress_3D_truthful _ _ _
      (applyOps_flagTruthful 6 ops _ (ZeroMatrix_flagTruthful 6 self))⟩
    unfold ConstitutiveMatrix_Assemble_D_B
    rw [if_neg (by rw [hdim]; exact h3)]
    exact Assemble_D_B_3D_truthful _ _ _ _
      (applyOps_flagTruthful 6 ops _ (ZeroMatrix_flagTruthful 6 self))

/-! ### The viscosity read by the penalty accumulator -/

/-- The body of the quadrature loop adds `weight * log(D[2][2])` and `weight`
to the accumulators, `D` being the tensor left for the point before scaling,
whatever the dimension and the penalty coefficient are. -/
theorem particleBody_accumulators {α : Type} [CommRing α] (log : α → α) (dim : Nat)
    (sle : SystemLinearEquations) (n : Nat) (st : QuadratureState α)
    (particle : IntegrationPoint α) :
    (AssembleElement_particleBody log dim sle n st particle).averaged_eta
        = st.averaged_eta + particle.weight
          * log ((ConstitutiveMatrix_Assemble st.self.toConstitutiveMatrix
              particle).matrixData 2 2)
      ∧ (AssembleElement_particleBody log dim sle n st particle).total_weight
        = st.total_weight + particle.weight :=
  ⟨rfl, rfl⟩

theorem sampleIsotropicPoint3D_entries {α : Type} [Field α] (weight eta : α) :
    (sampleIsotropicPoint3D weight eta).matrixData 2 2 = 2 * eta
      ∧ (sampleIsotropicPoint3D weight eta).matrixData 3 3 = eta := by
  obtain ⟨_, _, h2, h3, _, _⟩ := IsotropicCorrection_3D_diagonal
    ({ dim := 3, matrixData := fun _ _ => 0, isDiagonal := true, derivs := fun _ => 0 } :
      ConstitutiveMatrix α) eta
  exact ⟨h2.trans (zero_add _), h3.trans (zero_add _)⟩

/-- C22 at a 3D point: for a 3D object and a point of weight 1 whose tensor is
the 3D isotropic tensor of viscosity 1 (`GetIsotropicViscosity` returns its
entry `[3][3] = 1`), the body of the quadrature loop adds
`1 * ln(D[2][2]) = ln 2` to the accumulator of logarithms, not
`1 * ln(1) = 0`; the weight accumulator receives the weight. -/
theorem C22_accumulator_reads_entry_2_2_in_3D :
    (samplePenaltyObject 3 (0 : ℝ) true).dim = 3
      ∧ _ViscousPenaltyConstMatrixCartesian3D_GetIsotropicViscosity
          (ConstitutiveMatrix_Assemble (samplePenaltyObject 3 (0 : ℝ) true).toConstitutiveMatrix
            (sampleIsotropicPoint3D 1 1)) = 1
      ∧ (AssembleElement_particleBody Real.log 3 samplePicard 1
          { self := samplePenaltyObject 3 (0 : ℝ) true, elStiffMat := fun _ _ => 0,
            averaged_eta := 0, total_weight := 0 } (sampleIsotropicPoint3D 1 1)).averaged_eta
        = Real.log 2
      ∧ (AssembleElement_particleBody Real.log 3 samplePicard 1
          { self := samplePenaltyObject 3 (0 : ℝ) true, elStiffMat := fun _ _ => 0,
            averaged_eta := 0, total_weight := 0 } (sampleIsotropicPoint3D 1 1)).total_weight
        = 1
      ∧ Real.log 2 ≠ 1 * Real.log 1 := by
  refine ⟨rfl, (sampleIsotropicPoint3D_entries (1 : ℝ) 1).2, ?_, ?_, ?_⟩
  · rw [(particleBody_accumulators _ _ _ _ _ _).1]
    show (0 : ℝ) + 1 * Real.log ((sampleIsotropicPoint3D (1 : ℝ) 1).matrixData 2 2)
      = Real.log 2
    rw [(sampleIsotropicPoint3D_entries (1 : ℝ) 1).1]
    norm_num
  · rw [(particleBody_accumulators _ _ _ _ _ _).2]
    show (0 : ℝ) + 1 = 1
    norm_num
  · rw [Real.log_one, mul_zero]
    exact ne_of_gt (Real.log_pos (by norm_num))

/-! ### The 2D Newton linearization -/

theorem spec_B2D_transpose_mulVec {α : Type} [CommRing α] (dx dy s0 s1 s2 : α) (a : Fin 2) :
    (spec_B2D dx dy).transpose.mulVec ![s0, s1, s2] a
      = if a.val = 0 then dx * s0 + dy * s2 else dy * s1 + dx * s2 := by
  simp only [Matrix.mulVec, Matrix.dotProduct, Fin.sum_univ_three]
  fin_cases a
  · show dx * s0 + 0 * s1 + dy * s2 = dx * s0 + dy * s2
    ring
  · show 0 * s0 + dy * s1 + dx * s2 = dy * s1 + dx * s2
    ring

/-- One pass of the 2D Newton inner loop, read at an entry of the block of the
node pair `(j, i)`. -/
theorem colNodeBody_2D_Newton_apply {α : Type} [CommRing α] (sle : SystemLinearEquations)
    (self : ViscousPenaltyConstMatrixCartesian α) (particle : IntegrationPoint α) (eta : α)
    (rowNode_I colNode_I : Nat) (elStiffMat : Nat → Nat → α)
    (hN : sle.nlFormJacobian = true) (i j : Nat) (a b : Fin 2) :
    AssembleElement_colNodeBody 2 sle self particle eta rowNode_I elStiffMat colNode_I
        (j * 2 + a.val) (i * 2 + b.val)
      = elStiffMat (j * 2 + a.val) (i * 2 + b.val)
        + if colNode_I = j ∧ rowNode_I = i then
            spec_newtonAmount2D particle.weight particle.detJac eta particle.GNx
              particle.velDerivs self.derivs self.Ni colNode_I rowNode_I a b
          else 0 := by
  have ha := a.isLt
  have hb := b.isLt
  unfold AssembleElement_colNodeBody
  simp only [hN, Bool.not_true, Bool.false_eq_true, if_false, if_true]
  by_cases h : colNode_I = j ∧ rowNode_I = i
  · obtain ⟨rfl, rfl⟩ := h
    rw [if_pos ⟨rfl, rfl⟩, spec_newtonAmount2D, spec_nodeB2D, spec_nodeB2D,
      spec_B2D_transpose_diagonal_mul, spec_B2D_transpose_mulVec, spec_DetaD]
    fin_cases a <;> fin_cases b <;>
      simp (disch := omega) only [addAssign_same, addAssign_ne, Fin.zero_eta, Fin.mk_one,
        Fin.val_zero, Fin.val_one, add_zero, if_true, if_false, one_ne_zero,
        I_AXIS, J_AXIS, Fin.isValue] <;>
      ring
  · rw [if_neg h, add_zero]
    simp (disch := omega) only [addAssign_ne]

theorem colLoop_2D_Newton_apply {α : Type} [CommRing α] (sle : SystemLinearEquations)
    (self : ViscousPenaltyConstMatrixCartesian α) (particle : IntegrationPoint α) (eta : α)
    (rowNode_I n : Nat) (elStiffMat : Nat → Nat → α)
    (hN : sle.nlFormJacobian = true) (i j : Nat) (a b : Fin 2) :
    (List.range n).foldl (AssembleElement_colNodeBody 2 sle self particle eta rowNode_I)
        elStiffMat (j * 2 + a.val) (i * 2 + b.val)
      = elStiffMat (j * 2 + a.val) (i * 2 + b.val)
        + if j < n ∧ rowNode_I = i then
            spec_newtonAmount2D particle.weight particle.detJac eta particle.GNx
              particle.velDerivs self.derivs self.Ni j rowNode_I a b
          else 0 := by
  rw [foldl_add_apply _
    (fun col => if col = j ∧ rowNode_I = i then
      spec_newtonAmount2D particle.weight particle.detJac eta particle.GNx
        particle.velDerivs self.derivs self.Ni col rowNode_I a b else 0)
    _ _ _ (fun K x _ => colNodeBody_2D_Newton_apply sle self particle eta rowNode_I x K hN i j
      a b)]
  rw [sum_range_ite_eq n j (rowNode_I = i)
    (fun col => spec_newtonAmount2D particle.weight particle.detJac eta particle.GNx
      particle.velDerivs self.derivs self.Ni col rowNode_I a b)]

theorem rowLoop_2D_Newton_apply {α : Type} [CommRing α] (sle : SystemLinearEquations)
    (particle : IntegrationPoint α) (eta : α) (n : Nat)
    (hN : sle.nlFormJacobian = true) (i j : Nat) (a b : Fin 2) (m : Nat)
    (st : ViscousPenaltyConstMatrixCartesian α × (Nat → Nat → α)) :
    ((List.range m).foldl (AssembleElement_rowNodeBody 2 sle n particle eta) st).2
        (j * 2 + a.val) (i * 2 + b.val)
      = st.2 (j * 2 + a.val) (i * 2 + b.val)
        + if j < n ∧ i < m then
            spec_newtonAmount2D particle.weight particle.detJac eta particle.GNx
              particle.velDerivs st.1.derivs st.1.Ni j i a b
          else 0 := by
  induction m with
  | zero => simp
  | succ m ih =>
    rw [List.range_succ, List.foldl_append, List.foldl_cons, List.foldl_nil]
    obtain ⟨hs, _, _, hNi⟩ := rowLoop_self 2 sle particle eta n (List.range m) st
    generalize (List.range m).foldl (AssembleElement_rowNodeBody 2 sle n particle eta) st = res
      at ih hs hNi
    have hd : res.1.derivs = st.1.derivs := congrArg ConstitutiveMatrix.derivs hs
    unfold AssembleElement_rowNodeBody
    simp only []
    rw [colLoop_2D_Newton_apply _ _ _ _ _ _ _ hN, ih]
    simp only [hd, hNi]
    by_cases hj : j < n
    · by_cases hi : i < m
      · have h1 : i < m + 1 := by omega
        have h2 : ¬ (m = i) := by omega
        simp [hj, hi, h1, h2]
      · by_cases hm : m = i
        · subst hm
          simp [hj]
        · have h1 : ¬ (i < m + 1) := by omega
          simp [hj, hi, h1, hm]
    · simp [hj]

/-- The body of the quadrature loop in 2D Newton mode, read at an entry of the
block of the node pair `(j, i)`: the point adds the Newton amount, with `eta`
the entry `[2][2]` of its tensor before scaling. -/
theorem particleBody_2D_Newton_apply {α : Type} [CommRing α] (log : α → α)
    (sle : SystemLinearEquations) (n : Nat) (hN : sle.nlFormJacobian = true)
    (st : QuadratureState α) (particle : IntegrationPoint α) (i j : Nat) (a b : Fin 2) :
    (AssembleElement_particleBody log 2 sle n st particle).elStiffMat
        (j * 2 + a.val) (i * 2 + b.val)
      = st.elStiffMat (j * 2 + a.val) (i * 2 + b.val)
        + if j < n ∧ i < n then
            spec_newtonAmount2D particle.weight particle.detJac (particle.matrixData 2 2)
              particle.GNx particle.velDerivs particle.derivs st.self.Ni j i a b
          else 0 := by
  unfold AssembleElement_particleBody
  simp only []
  exact rowLoop_2D_Newton_apply sle particle _ n hN i j a b n
    ({ st.self with
        toConstitutiveMatrix :=
          ConstitutiveMatrix_MultiplyByValue
            (ConstitutiveMatrix_Assemble st.self.toConstitutiveMatrix particle)
            (particle.detJac * particle.weight) }, st.elStiffMat)

/-- C21: 2D Newton mode is the direct term plus rank-one viscosity-derivative
cross terms. With `nlFormJacobian` true, `eta = D[2][2]` read before scaling,
`intFac = weight * detJac`, `s = (2 DuDx, 2 DvDy, DuDy + DvDx)` and
`(DetaDu, DetaDv)` the viscosity derivatives of the row node, one pass of the
inner loop adds to `elStiffMat[colNode*2+a][rowNode*2+b]` exactly
`intFac * (B(colNode)^T * diag(2 eta, 2 eta, eta) * B(rowNode))[a][b]
+ intFac * (B(colNode)^T * s)[a] * Deta_b` and touches no other block; and the
body of the quadrature loop adds that amount, for the point, to the block of
every node pair. -/
theorem C21_newton_2D_amounts {α : Type} [CommRing α] (log : α → α)
    (sle : SystemLinearEquations) (hN : sle.nlFormJacobian = true) :
    (∀ (self : ViscousPenaltyConstMatrixCartesian α) (particle : IntegrationPoint α)
        (eta : α) (rowNode_I colNode_I : Nat) (elStiffMat : Nat → Nat → α) (i j : Nat)
        (a b : Fin 2),
        AssembleElement_colNodeBody 2 sle self particle eta rowNode_I elStiffMat colNode_I
            (j * 2 + a.val) (i * 2 + b.val)
          = elStiffMat (j * 2 + a.val) (i * 2 + b.val)
            + if colNode_I = j ∧ rowNode_I = i then
                spec_newtonAmount2D particle.weight particle.detJac eta particle.GNx
                  particle.velDerivs self.derivs self.Ni colNode_I rowNode_I a b
              else 0)
      ∧ ∀ (n : Nat) (st : QuadratureState α) (particle : IntegrationPoint α) (i j : Nat)
          (a b : Fin 2),
          (AssembleElement_particleBody log 2 sle n st particle).elStiffMat
              (j * 2 + a.val) (i * 2 + b.val)
            = st.elStiffMat (j * 2 + a.val) (i * 2 + b.val)
              + if j < n ∧ i < n then
                  spec_newtonAmount2D particle.weight particle.detJac
                    (particle.matrixData 2 2) particle.GNx particle.velDerivs particle.derivs
                    st.self.Ni j i a b
                else 0 :=
  ⟨fun self particle eta rowNode_I colNode_I elStiffMat i j a b =>
      colNodeBody_2D_Newton_apply sle self particle eta rowNode_I colNode_I elStiffMat hN i j
        a b,
    fun n st particle i j a b => particleBody_2D_Newton_apply log sle n hN st particle i j a b⟩

/-- Witness of C21 over the integers: for the point `sampleNewtonPoint`
(`eta = 5`, `intFac = 6`, `DetaDu = 12`) in a one-node element, the body of the
quadrature loop in Newton mode adds 2124 to `elStiffMat[0][0]`. -/
theorem C21_newton_2D_amounts_witness :
    sampleNewton.nlFormJacobian = true
      ∧ (AssembleElement_particleBody (fun x => x) 2 sampleNewton 1
          { self := sampleNewtonObject, elStiffMat := fun _ _ => 0, averaged_eta := 0,
            total_weight := 0 } sampleNewtonPoint).elStiffMat 0 0
        = 0 + spec_newtonAmount2D sampleNewtonPoint.weight sampleNewtonPoint.detJac
            (sampleNewtonPoint.matrixData 2 2) sampleNewtonPoint.GNx
            sampleNewtonPoint.velDerivs sampleNewtonPoint.derivs sampleNewtonObject.Ni 0 0 0 0
      ∧ spec_newtonAmount2D sampleNewtonPoint.weight sampleNewtonPoint.detJac
          (sampleNewtonPoint.matrixData 2 2) sampleNewtonPoint.GNx
          sampleNewtonPoint.velDerivs sampleNewtonPoint.derivs sampleNewtonObject.Ni 0 0 0 0
        = 2124 :=
  ⟨rfl,
    (C21_newton_2D_amounts (fun x => x) sampleNewton rfl).2 1
      { self := sampleNewtonObject, elStiffMat := fun _ _ => 0, averaged_eta := 0,
        total_weight := 0 } sampleNewtonPoint 0 0 0 0,
    by decide⟩

/-! ### Newton mode without velocity dependence -/

/-- For a point whose viscosity does not depend on the velocity, the Newton
amount is the Picard amount `B_j^T * (D~ * B_i)`. -/
theorem newtonAmount2D_velocityIndependent {α : Type} [CommRing α]
    (particle : IntegrationPoint α) (Ni : Nat → α) (h : velocityIndependent2D particle)
    (i j : Nat) (a b : Fin 2) :
    spec_newtonAmount2D particle.weight particle.detJac (particle.matrixData 2 2)
        particle.GNx particle.velDerivs particle.derivs Ni j i a b
      = ((spec_nodeB2D particle.GNx j).transpose
          * (toMatrix 3 3 (scaledTensor particle) * spec_nodeB2D particle.GNx i)) a b := by
  obtain ⟨⟨eta, hD⟩, hz⟩ := h
  have h22 : particle.matrixData 2 2 = eta := congrFun (congrFun hD 2) 2
  have hDeta : spec_DetaD particle.derivs particle.GNx Ni i b = 0 := by
    unfold spec_DetaD
    rw [hz 0 (by decide), hz 1 (by decide), hz 2 (by decide), hz 3 (by decide),
      hz 4 (by decide), hz 5 (by decide)]
    simp only [zero_mul, add_zero, ite_self]
  unfold spec_newtonAmount2D
  rw [hDeta, mul_zero, add_zero, h22, toMatrix_scaledTensor, hD, Matrix.smul_mul,
    Matrix.mul_smul, Matrix.smul_apply, smul_eq_mul, Matrix.mul_assoc]

/-- Two matrices that agree on every 2 x 2 block are equal. -/
theorem funext_blocks_2D {α : Type} (F G : Nat → Nat → α)
    (h : ∀ (i j : Nat) (a b : Fin 2),
      F (j * 2 + a.val) (i * 2 + b.val) = G (j * 2 + a.val) (i * 2 + b.val)) : F = G := by
  funext r c
  have h1 := h (c / 2) (r / 2) ⟨r % 2, Nat.mod_lt r (by decide)⟩
    ⟨c % 2, Nat.mod_lt c (by decide)⟩
  simp only [Nat.div_add_mod'] at h1
  exact h1

/-- The object left by the loop over the row nodes depends neither on the
solve state nor on the matrix. -/
theorem rowLoop_self_sle {α : Type} [CommRing α] (dim : Nat) (sle sle2 : SystemLinearEquations)
    (n : Nat) (particle : IntegrationPoint α) (eta : α) (l : List Nat)
    (s : ViscousPenaltyConstMatrixCartesian α) (K L : Nat → Nat → α) :
    (l.foldl (AssembleElement_rowNodeBody dim sle n particle eta) (s, K)).1
      = (l.foldl (AssembleElement_rowNodeBody dim sle2 n particle eta) (s, L)).1 := by
  induction l generalizing s K L with
  | nil => rfl
  | cons x xs ih =>
    rw [List.foldl_cons, List.foldl_cons]
    exact ih _ _ _

theorem QuadratureState_ext {α : Type} (st su : QuadratureState α)
    (h1 : st.self = su.self) (h2 : st.elStiffMat = su.elStiffMat)
    (h3 : st.averaged_eta = su.averaged_eta) (h4 : st.total_weight = su.total_weight) :
    st = su := by
  cases st
  cases su
  simp only [QuadratureState.mk.injEq]
  exact ⟨h1, h2, h3, h4⟩

/-- For a point whose viscosity does not depend on the velocity, the body of
the quadrature loop in 2D is the same in Newton and in Picard mode. -/
theorem particleBody_2D_Newton_eq_Picard {α : Type} [CommRing α] (log : α → α)
    (sleN sleP : SystemLinearEquations) (hN : sleN.nlFormJacobian = true)
    (hP : sleP.nlFormJacobian = false) (n : Nat) (st : QuadratureState α)
    (particle : IntegrationPoint α) (hdim : st.self.dim = 2)
    (h : velocityIndependent2D particle) :
    AssembleElement_particleBody log 2 sleN n st particle
      = AssembleElement_particleBody log 2 sleP n st particle := by
  apply QuadratureState_ext
  · exact rowLoop_self_sle 2 sleN sleP n particle _ (List.range n) _ _ _
  · apply funext_blocks_2D
    intro i j a b
    obtain ⟨eta, hD⟩ := h.1
    rw [particleBody_2D_Newton_apply log sleN n hN st particle i j a b,
      particleBody_2D_Picard_apply log sleP n hP st particle hdim
        (isotropic_flagTruthful particle _ hD) i j a b,
      newtonAmount2D_velocityIndependent particle st.self.Ni h i j a b]
  · rfl
  · rfl

theorem quadratureLoop_2D_Newton_eq_Picard {α : Type} [CommRing α] (log : α → α)
    (sleN sleP : SystemLinearEquations) (hN : sleN.nlFormJacobian = true)
    (hP : sleP.nlFormJacobian = false) (n : Nat) (l : List (IntegrationPoint α))
    (hl : ∀ p ∈ l, velocityIndependent2D p) (st : QuadratureState α)
    (hdim : st.self.dim = 2) :
    l.foldl (AssembleElement_particleBody log 2 sleN n) st
      = l.foldl (AssembleElement_particleBody log 2 sleP n) st := by
  induction l generalizing st with
  | nil => rfl
  | cons x xs ih =>
    rw [List.foldl_cons, List.foldl_cons,
      particleBody_2D_Newton_eq_Picard log sleN sleP hN hP n st x hdim
        (hl x (List.mem_cons_self _ _))]
    exact ih (fun p hp => hl p (List.mem_cons_of_mem _ hp)) _
      ((particleBody_self log 2 sleP n st x).1.trans hdim)

/-- C23: Newton mode degenerates to Picard mode when the viscosity does not
depend on the velocity. In 2D, for every point whose tensor is isotropic
(`diag(2 eta, 2 eta, eta)`) and whose viscosity derivatives `derivs[0..5]` are
all zero, the amount the Newton branch adds to each entry of each 2 x 2 block
equals the amount the Picard branch adds, for every velocity gradient, weight,
`detJac` and shape gradients: the body of the quadrature loop gives the same
state in both modes, and for an element of such points the whole call returns
the same result. -/
theorem C23_newton_degenerates_to_picard {α : Type} [Field α] [DecidableEq α]
    (log exp : α → α) (self : ViscousPenaltyConstMatrixCartesian α) (element : Element α)
    (sleN sleP : SystemLinearEquations) (elStiffMat : Nat → Nat → α)
    (hN : sleN.nlFormJacobian = true) (hP : sleP.nlFormJacobian = false)
    (hdim : self.dim = 2) (hl : ∀ p ∈ element.particles, velocityIndependent2D p) :
    (∀ p ∈ element.particles, ∀ (i j : Nat) (a b : Fin 2),
        spec_newtonAmount2D p.weight p.detJac (p.matrixData 2 2) p.GNx p.velDerivs p.derivs
            self.Ni j i a b
          = ((spec_nodeB2D p.GNx j).transpose
              * (toMatrix 3 3 (scaledTensor p) * spec_nodeB2D p.GNx i)) a b)
      ∧ (∀ p ∈ element.particles, ∀ (n : Nat) (st : QuadratureState α), st.self.dim = 2 →
        AssembleElement_particleBody log 2 sleN n st p
          = AssembleElement_particleBody log 2 sleP n st p)
      ∧ _ViscousPenaltyConstMatrixCartesian_AssembleElement log exp self 2 element
          (some sleN) elStiffMat
        = _ViscousPenaltyConstMatrixCartesian_AssembleElement log exp self 2 element
          (some sleP) elStiffMat := by
  refine ⟨fun p hp i j a b => newtonAmount2D_velocityIndependent p self.Ni (hl p hp) i j a b,
    fun p hp n st hst => particleBody_2D_Newton_eq_Picard log sleN sleP hN hP n st p hst
      (hl p hp), ?_⟩
  rw [AssembleElement_some, AssembleElement_some]
  unfold AssembleElement_quadratureLoop
  rw [quadratureLoop_2D_Newton_eq_Picard log sleN sleP hN hP element.nodeCount
    element.particles hl _ hdim]

theorem sampleUniformElement_velocityIndependent (ws : List ℚ) (eta : ℚ) :
    ∀ p ∈ (sampleUniformElement ws eta).particles, velocityIndependent2D p := by
  intro p hp
  obtain ⟨w, _, rfl⟩ := List.mem_map.mp hp
  refine ⟨⟨eta, ?_⟩, fun _ _ => rfl⟩
  ext i j
  fin_cases i <;> fin_cases j <;> rfl

/-- Witness of C23: the unit-square element with two points of weights 1 and 3
and viscosity 2, with penalty coefficient 1. -/
theorem C23_newton_degenerates_to_picard_witness :
    sampleNewton.nlFormJacobian = true ∧ samplePicard.nlFormJacobian = false
      ∧ (samplePenaltyObject 2 (1 : ℚ) true).dim = 2
      ∧ (∀ p ∈ (sampleUniformElement [1, (3 : ℚ)] 2).particles, velocityIndependent2D p)
      ∧ _ViscousPenaltyConstMatrixCartesian_AssembleElement (fun x => x) (fun x => x)
          (samplePenaltyObject 2 (1 : ℚ) true) 2 (sampleUniformElement [1, 3] 2)
          (some sampleNewton) (fun _ _ => 0)
        = _ViscousPenaltyConstMatrixCartesian_AssembleElement (fun x => x) (fun x => x)
          (samplePenaltyObject 2 (1 : ℚ) true) 2 (sampleUniformElement [1, 3] 2)
          (some samplePicard) (fun _ _ => 0) :=
  ⟨rfl, rfl, rfl, sampleUniformElement_velocityIndependent _ 2,
    (C23_newton_degenerates_to_picard (fun x => x) (fun x => x)
      (samplePenaltyObject 2 (1 : ℚ) true) (sampleUniformElement [1, 3] 2) sampleNewton
      samplePicard (fun _ _ => 0) rfl rfl rfl
      (sampleUniformElement_velocityIndependent _ 2)).2.2⟩

/-! ### Symmetry of the assembled matrix -/

/-- The penalty step read at an entry of the block of the node pair `(j, i)`
in 2D, whether or not the coefficient is zero. -/
theorem penaltyTerm_2D_apply {α : Type} [Field α] [DecidableEq α] (exp : α → α) (n : Nat)
    (self : ViscousPenaltyConstMatrixCartesian α) (detJac : α) (GN0x : Nat → Nat → α)
    (averaged_eta total_weight : α) (elStiffMat : Nat → Nat → α) (i j : Nat) (a b : Fin 2) :
    AssembleElement_penaltyTerm exp 2 n self detJac GN0x averaged_eta total_weight elStiffMat
        (j * 2 + a.val) (i * 2 + b.val)
      = elStiffMat (j * 2 + a.val) (i * 2 + b.val)
        + if i < n ∧ j < n then
            self.incompressibility_Penalty * detJac
              * AssembleElement_averagedEta exp self.viscosityWeighting averaged_eta total_weight
              * GN0x a.val j * GN0x b.val i
          else 0 := by
  by_cases h : self.incompressibility_Penalty = 0
  · rw [penaltyTerm_zero _ _ _ _ _ _ _ _ _ h, h]
    simp only [zero_mul, ite_self, add_zero]
  · rw [penaltyTerm_nonzero _ _ _ _ _ _ _ _ _ h, penaltyLoops_2D_apply]

/-- The penalty step read at an entry of the block of the node pair `(j, i)`
in 3D, whether or not the coefficient is zero. -/
theorem penaltyTerm_3D_apply {α : Type} [Field α] [DecidableEq α] (exp : α → α) (n : Nat)
    (self : ViscousPenaltyConstMatrixCartesian α) (detJac : α) (GN0x : Nat → Nat → α)
    (averaged_eta total_weight : α) (elStiffMat : Nat → Nat → α) (i j : Nat) (a b : Fin 3) :
    AssembleElement_penaltyTerm exp 3 n self detJac GN0x averaged_eta total_weight elStiffMat
        (j * 3 + a.val) (i * 3 + b.val)
      = elStiffMat (j * 3 + a.val) (i * 3 + b.val)
        + if i < n ∧ j < n then
            self.incompressibility_Penalty * detJac
              * AssembleElement_averagedEta exp self.viscosityWeighting averaged_eta total_weight
              * GN0x a.val j * GN0x b.val i
          else 0 := by
  by_cases h : self.incompressibility_Penalty = 0
  · rw [penaltyTerm_zero _ _ _ _ _ _ _ _ _ h, h]
    simp only [zero_mul, ite_self, add_zero]
  · rw [penaltyTerm_nonzero _ _ _ _ _ _ _ _ _ h, penaltyLoops_3D_apply]

/-- For a symmetric `M`, the entry `[a][b]` of `B^T * (M * C)` is the entry
`[b][a]` of `C^T * (M * B)`. -/
theorem transpose_mul_mul_symm {α : Type} [CommRing α] {m n : Nat}
    (B C : Matrix (Fin m) (Fin n) α) (M : Matrix (Fin m) (Fin m) α)
    (hM : M.transpose = M) (a b : Fin n) :
    (B.transpose * (M * C)) a b = (C.transpose * (M * B)) b a := by
  have h : (B.transpose * (M * C)).transpose = C.transpose * (M * B) := by
    rw [Matrix.transpose_mul, Matrix.transpose_mul, Matrix.transpose_transpose, hM,
      Matrix.mul_assoc]
  exact congrFun (congrFun h b) a

theorem scaledTensor_transpose {α : Type} [CommRing α] (n : Nat)
    (particle : IntegrationPoint α) (h : isSymmetric n particle.matrixData) :
    (toMatrix n n (scaledTensor particle)).transpose = toMatrix n n (scaledTensor particle) := by
  ext x y
  show particle.matrixData y.val x.val * _ = particle.matrixData x.val y.val * _
  rw [h y.val y.isLt x.val x.isLt]

/-- A matrix that is symmetric block by block is symmetric. -/
theorem isSymmetric_of_blocks {α : Type} (d n : Nat) (hd : 0 < d) (K : Nat → Nat → α)
    (h : ∀ i, i < n → ∀ j, j < n → ∀ a b : Fin d,
      K (j * d + a.val) (i * d + b.val) = K (i * d + b.val) (j * d + a.val)) :
    isSymmetric (n * d) K := by
  intro r hr c hc
  have hr1 : r / d < n := Nat.div_lt_of_lt_mul (by rw [Nat.mul_comm]; exact hr)
  have hc1 : c / d < n := Nat.div_lt_of_lt_mul (by rw [Nat.mul_comm]; exact hc)
  have h1 := h (c / d) hc1 (r / d) hr1 ⟨r % d, Nat.mod_lt r hd⟩ ⟨c % d, Nat.mod_lt c hd⟩
  simp only [Nat.div_add_mod'] at h1
  exact h1

theorem quadratureLoop_2D_symmetric {α : Type} [CommRing α] (log : α → α)
    (self : ViscousPenaltyConstMatrixCartesian α) (element : Element α)
    (sle : SystemLinearEquations) (elStiffMat : Nat → Nat → α)
    (hdim : self.dim = 2) (hP : sle.nlFormJacobian = false)
    (hsym : ∀ p ∈ element.particles, isSymmetric 3 p.matrixData)
    (hflag : ∀ p ∈ element.particles, flagTruthful 3 p.isDiagonal p.matrixData)
    (hK : isSymmetric (element.nodeCount * 2) elStiffMat)
    (i : Nat) (hi : i < element.nodeCount) (j : Nat) (hj : j < element.nodeCount)
    (a b : Fin 2) :
    (AssembleElement_quadratureLoop log self 2 element sle elStiffMat).elStiffMat
        (j * 2 + a.val) (i * 2 + b.val)
      = (AssembleElement_quadratureLoop log self 2 element sle elStiffMat).elStiffMat
        (i * 2 + b.val) (j * 2 + a.val) := by
  have ha := a.isLt
  have hb := b.isLt
  unfold AssembleElement_quadratureLoop
  rw [quadratureLoop_2D_Picard_apply log sle element.nodeCount hP i j a b element.particles
      hflag _ hdim,
    quadratureLoop_2D_Picard_apply log sle element.nodeCount hP j i b a element.particles
      hflag _ hdim]
  congr 1
  · exact hK _ (by omega) _ (by omega)
  · congr 1
    apply List.map_congr_left
    intro p hp
    rw [if_pos ⟨hj, hi⟩, if_pos ⟨hi, hj⟩]
    exact transpose_mul_mul_symm _ _ _ (scaledTensor_transpose 3 p (hsym p hp)) a b

theorem quadratureLoop_3D_symmetric {α : Type} [CommRing α] (log : α → α)
    (self : ViscousPenaltyConstMatrixCartesian α) (element : Element α)
    (sle : SystemLinearEquations) (elStiffMat : Nat → Nat → α)
    (hdim : self.dim = 3)
    (hsym : ∀ p ∈ element.particles, isSymmetric 6 p.matrixData)
    (hflag : ∀ p ∈ element.particles, flagTruthful 6 p.isDiagonal p.matrixData)
    (hK : isSymmetric (element.nodeCount * 3) elStiffMat)
    (i : Nat) (hi : i < element.nodeCount) (j : Nat) (hj : j < element.nodeCount)
    (a b : Fin 3) :
    (AssembleElement_quadratureLoop log self 3 element sle elStiffMat).elStiffMat
        (j * 3 + a.val) (i * 3 + b.val)
      = (AssembleElement_quadratureLoop log self 3 element sle elStiffMat).elStiffMat
        (i * 3 + b.val) (j * 3 + a.val) := by
  have ha := a.isLt
  have hb := b.isLt
  unfold AssembleElement_quadratureLoop
  rw [quadratureLoop_3D_apply log sle element.nodeCount i j a b element.particles hflag _ hdim,
    quadratureLoop_3D_apply log sle element.nodeCount j i b a element.particles hflag _ hdim]
  congr 1
  · exact hK _ (by omega) _ (by omega)
  · congr 1
    apply List.map_congr_left
    intro p hp
    rw [if_pos ⟨hj, hi⟩, if_pos ⟨hi, hj⟩]
    exact transpose_mul_mul_symm _ _ _ (scaledTensor_transpose 6 p (hsym p hp)) a b

/-- C24: the assembled local stiffness matrix is symmetric in Picard mode. If
`elStiffMat` is symmetric on entry (on its `nodeCount*dim` rows and columns)
and the tensor of every quadrature point is symmetric, with `isDiagonal` set
only when its off-diagonal entries are zero, then `AssembleElement` with
`nlFormJacobian` false returns a matrix with
`elStiffMat[r][c] = elStiffMat[c][r]` for all `r, c < nodeCount*dim`, in 2D and
in 3D: the matrix is symmetric after the quadrature loop and still symmetric
after the penalty term, for every penalty coefficient. -/
theorem C24_picard_stiffness_symmetric {α : Type} [Field α] [DecidableEq α]
    (log exp : α → α) (self : ViscousPenaltyConstMatrixCartesian α) (dim : Nat)
    (element : Element α) (sle : SystemLinearEquations) (elStiffMat : Nat → Nat → α)
    (hd : dim = 2 ∨ dim = 3) (hdim : self.dim = dim) (hP : sle.nlFormJacobian = false)
    (hsym : ∀ p ∈ element.particles, isSymmetric (spec_blockSize dim) p.matrixData)
    (hflag : ∀ p ∈ element.particles,
      flagTruthful (spec_blockSize dim) p.isDiagonal p.matrixData)
    (hK : isSymmetric (element.nodeCount * dim) elStiffMat) :
    isSymmetric (element.nodeCount * dim)
        (AssembleElement_quadratureLoop log self dim element sle elStiffMat).elStiffMat
      ∧ ∃ K : Nat → Nat → α,
        _ViscousPenaltyConstMatrixCartesian_AssembleElement log exp self dim element
            (some sle) elStiffMat = Except.ok K
          ∧ isSymmetric (element.nodeCount * dim) K := by
  rcases hd with rfl | rfl
  · have hq := quadratureLoop_2D_symmetric log self element sle elStiffMat hdim hP hsym hflag hK
    refine ⟨isSymmetric_of_blocks 2 _ (by decide) _ hq, _,
      AssembleElement_some log exp self 2 element sle elStiffMat,
      isSymmetric_of_blocks 2 _ (by decide) _ ?_⟩
    intro i hi j hj a b
    rw [penaltyTerm_2D_apply, penaltyTerm_2D_apply, hq i hi j hj a b, if_pos ⟨hi, hj⟩,
      if_pos ⟨hj, hi⟩]
    ring
  · have hq := quadratureLoop_3D_symmetric log self element sle elStiffMat hdim hsym hflag hK
    refine ⟨isSymmetric_of_blocks 3 _ (by decide) _ hq, _,
      AssembleElement_some log exp self 3 element sle elStiffMat,
      isSymmetric_of_blocks 3 _ (by decide) _ ?_⟩
    intro i hi j hj a b
    rw [penaltyTerm_3D_apply, penaltyTerm_3D_apply, hq i hi j hj a b, if_pos ⟨hi, hj⟩,
      if_pos ⟨hj, hi⟩]
    ring

theorem sampleUniformElement_symmetric (ws : List ℚ) (eta : ℚ) (n : Nat) :
    ∀ p ∈ (sampleUniformElement ws eta).particles, isSymmetric n p.matrixData := by
  intro p hp
  obtain ⟨w, _, rfl⟩ := List.mem_map.mp hp
  intro i _ j _
  show (if i = j then (if i < 2 then 2 * eta else eta) else 0)
    = (if j = i then (if j < 2 then 2 * eta else eta) else 0)
  by_cases h : i = j
  · subst h
    rfl
  · rw [if_neg h, if_neg (Ne.symm h)]

theorem sampleUniformElement_flagTruthful (ws : List ℚ) (eta : ℚ) (n : Nat) :
    ∀ p ∈ (sampleUniformElement ws eta).particles,
      flagTruthful n p.isDiagonal p.matrixData := by
  intro p hp
  obtain ⟨w, _, rfl⟩ := List.mem_map.mp hp
  intro _ i _ j _ hij
  show (if i = j then (if i < 2 then 2 * eta else eta) else 0) = 0
  rw [if_neg hij]

/-- Witness of C24: the unit-square four-node element with two points of
weights 1 and 3 and viscosity 2, in Picard mode with penalty coefficient 1, on
a zero matrix. -/
theorem C24_picard_stiffness_symmetric_witness :
    (samplePenaltyObject 2 (1 : ℚ) true).dim = 2 ∧ samplePicard.nlFormJacobian = false
      ∧ (∀ p ∈ (sampleUniformElement [1, (3 : ℚ)] 2).particles,
        isSymmetric (spec_blockSize 2) p.matrixData)
      ∧ (∀ p ∈ (sampleUniformElement [1, (3 : ℚ)] 2).particles,
        flagTruthful (spec_blockSize 2) p.isDiagonal p.matrixData)
      ∧ isSymmetric ((sampleUniformElement [1, (3 : ℚ)] 2).nodeCount * 2)
        (fun _ _ => (0 : ℚ))
      ∧ ∃ K : Nat → Nat → ℚ,
        _ViscousPenaltyConstMatrixCartesian_AssembleElement (fun x => x) (fun x => x)
            (samplePenaltyObject 2 (1 : ℚ) true) 2 (sampleUniformElement [1, 3] 2)
            (some samplePicard) (fun _ _ => 0) = Except.ok K
          ∧ isSymmetric ((sampleUniformElement [1, (3 : ℚ)] 2).nodeCount * 2) K :=
  ⟨rfl, rfl, sampleUniformElement_symmetric _ 2 _, sampleUniformElement_flagTruthful _ 2 _,
    fun _ _ _ _ => rfl,
    (C24_picard_stiffness_symmetric (fun x => x) (fun x => x)
      (samplePenaltyObject 2 (1 : ℚ) true) 2 (sampleUniformElement [1, 3] 2) samplePicard
      (fun _ _ => 0) (Or.inl rfl) rfl rfl (sampleUniformElement_symmetric _ 2 _)
      (sampleUniformElement_flagTruthful _ 2 _) (fun _ _ _ _ => rfl)).2⟩
/-! ### The penalty term as a quadratic form -/

theorem sum_range_mul_eq {α : Type} [AddCommMonoid α] (d n : Nat) (f : Nat → α) :
    Finset.sum (Finset.range (n * d)) f
      = Finset.sum (Finset.range n) fun i =>
          Finset.sum (Finset.range d) fun a => f (i * d + a) := by
  induction n with
  | zero => simp
  | succ n ih => rw [Nat.succ_mul, Finset.sum_range_add, ih, Finset.sum_range_succ]

/-- The penalty step read at any entry of the element's block, in 2D and 3D. -/
theorem penaltyTerm_entry {α : Type} [Field α] [DecidableEq α] (exp : α → α) (dim n : Nat)
    (hd : dim = 2 ∨ dim = 3) (self : ViscousPenaltyConstMatrixCartesian α) (detJac : α)
    (GN0x : Nat → Nat → α) (averaged_eta total_weight : α) (elStiffMat : Nat → Nat → α)
    (r c : Nat) (hr : r < n * dim) (hc : c < n * dim) :
    AssembleElement_penaltyTerm exp dim n self detJac GN0x averaged_eta total_weight elStiffMat
        r c
      = elStiffMat r c
        + self.incompressibility_Penalty * detJac
          * AssembleElement_averagedEta exp self.viscosityWeighting averaged_eta total_weight
          * GN0x (r % dim) (r / dim) * GN0x (c % dim) (c / dim) := by
  rcases hd with rfl | rfl
  · have h := penaltyTerm_2D_apply exp n self detJac GN0x averaged_eta total_weight elStiffMat
      (c / 2) (r / 2) ⟨r % 2, Nat.mod_lt r (by decide)⟩ ⟨c % 2, Nat.mod_lt c (by decide)⟩
    simp only [Nat.div_add_mod'] at h
    rw [h, if_pos ⟨by omega, by omega⟩]
  · have h := penaltyTerm_3D_apply exp n self detJac GN0x averaged_eta total_weight elStiffMat
      (c / 3) (r / 3) ⟨r % 3, Nat.mod_lt r (by decide)⟩ ⟨c % 3, Nat.mod_lt c (by decide)⟩
    simp only [Nat.div_add_mod'] at h
    rw [h, if_pos ⟨by omega, by omega⟩]

theorem divergence_eq_sum {α : Type} [CommRing α] (dim n : Nat) (hd : dim = 2 ∨ dim = 3)
    (GN0x : Nat → Nat → α) (u : Nat → α) :
    Finset.sum (Finset.range (n * dim)) (fun r => GN0x (r % dim) (r / dim) * u r)
      = spec_divergence dim n GN0x u := by
  rw [sum_range_mul_eq, spec_divergence]
  apply Finset.sum_congr rfl
  intro i _
  apply Finset.sum_congr rfl
  intro a ha
  have ha1 := Finset.mem_range.mp ha
  rcases hd with rfl | rfl
  · rw [show (i * 2 + a) % 2 = a by omega, show (i * 2 + a) / 2 = i by omega]
  · rw [show (i * 3 + a) % 3 = a by omega, show (i * 3 + a) / 3 = i by omega]

/-- The quadratic form of what the penalty step adds is the coefficient times
the square of the discrete divergence. -/
theorem penaltyTerm_quadraticForm {α : Type} [Field α] [DecidableEq α] (exp : α → α)
    (dim n : Nat) (hd : dim = 2 ∨ dim = 3) (self : ViscousPenaltyConstMatrixCartesian α)
    (detJac : α) (GN0x : Nat → Nat → α) (averaged_eta total_weight : α)
    (elStiffMat : Nat → Nat → α) (u : Nat → α) :
    spec_quadraticForm (n * dim)
        (fun r c =>
          AssembleElement_penaltyTerm exp dim n self detJac GN0x averaged_eta total_weight
            elStiffMat r c - elStiffMat r c) u
      = self.incompressibility_Penalty * detJac
        * AssembleElement_averagedEta exp self.viscosityWeighting averaged_eta total_weight
        * spec_divergence dim n GN0x u ^ 2 := by
  rw [← divergence_eq_sum dim n hd GN0x u, spec_quadraticForm]
  have h : ∀ r ∈ Finset.range (n * dim), ∀ c ∈ Finset.range (n * dim),
      u r * (AssembleElement_penaltyTerm exp dim n self detJac GN0x averaged_eta total_weight
          elStiffMat r c - elStiffMat r c) * u c
        = (self.incompressibility_Penalty * detJac
            * AssembleElement_averagedEta exp self.viscosityWeighting averaged_eta total_weight
            * (GN0x (r % dim) (r / dim) * u r)) * (GN0x (c % dim) (c / dim) * u c) := by
    intro r hr c hc
    rw [penaltyTerm_entry exp dim n hd self detJac GN0x averaged_eta total_weight elStiffMat
      r c (Finset.mem_range.mp hr) (Finset.mem_range.mp hc)]
    ring
  rw [Finset.sum_congr rfl (fun r hr => Finset.sum_congr rfl (fun c hc => h r hr c hc)),
    ← Finset.sum_mul_sum, ← Finset.mul_sum]
  ring

/-- C25: the penalty term is a divergence-squared form. With `P` the matrix
the penalty step adds to `elStiffMat`, for every nodal vector `u` the sum over
`r, c < nodeCount*dim` of `u[r] * P[r][c] * u[c]` equals
`incompressibility_Penalty * detJac(centroid) * averaged_eta` times the square
of the sum over the nodes `i` and components `a` of
`GN0x[a][i] * u[i*dim + a]`; hence it is zero on every `u` whose discrete
divergence at the centre is zero, and non-negative whenever
`incompressibility_Penalty * detJac * averaged_eta >= 0`; in 2D and in 3D. -/
theorem C25_penalty_is_divergence_squared {α : Type} [LinearOrderedField α]
    (exp : α → α) (dim n : Nat) (self : ViscousPenaltyConstMatrixCartesian α)
    (detJac : α) (GN0x : Nat → Nat → α) (averaged_eta total_weight : α)
    (elStiffMat : Nat → Nat → α) (u : Nat → α) (hd : dim = 2 ∨ dim = 3) :
    spec_quadraticForm (n * dim)
        (fun r c =>
          AssembleElement_penaltyTerm exp dim n self detJac GN0x averaged_eta total_weight
            elStiffMat r c - elStiffMat r c) u
        = self.incompressibility_Penalty * detJac
          * AssembleElement_averagedEta exp self.viscosityWeighting averaged_eta total_weight
          * spec_divergence dim n GN0x u ^ 2
      ∧ (spec_divergence dim n GN0x u = 0 →
        spec_quadraticForm (n * dim)
          (fun r c =>
            AssembleElement_penaltyTerm exp dim n self detJac GN0x averaged_eta total_weight
              elStiffMat r c - elStiffMat r c) u = 0)
      ∧ (0 ≤ self.incompressibility_Penalty * detJac
            * AssembleElement_averagedEta exp self.viscosityWeighting averaged_eta total_weight →
        0 ≤ spec_quadraticForm (n * dim)
          (fun r c =>
            AssembleElement_penaltyTerm exp dim n self detJac GN0x averaged_eta total_weight
              elStiffMat r c - elStiffMat r c) u) := by
  have h := penaltyTerm_quadraticForm exp dim n hd self detJac GN0x averaged_eta total_weight
    elStiffMat u
  refine ⟨h, fun h0 => ?_, fun hc => ?_⟩
  · rw [h, h0]
    ring
  · rw [h]
    exact mul_nonneg hc (sq_nonneg _)

theorem sampleCentroid_divergence :
    spec_divergence 2 4 sampleCentroidGNx (fun k => (k : ℚ)) = 6 := by
  simp only [spec_divergence, Finset.sum_range_succ, Finset.sum_range_zero, sampleCentroidGNx]
  norm_num

/-- Witness of C25: the unit-square four-node element in 2D with penalty
coefficient 1, `detJac = 1/4`, viscosity weighting off (`averaged_eta = 1`) and
the nodal vector `u[k] = k`, whose discrete divergence at the centre is 6: the
quadratic form of the penalty term is `1 * 1/4 * 1 * 6^2`. -/
theorem C25_penalty_is_divergence_squared_witness :
    ((2 : Nat) = 2 ∨ (2 : Nat) = 3)
      ∧ spec_divergence 2 4 sampleCentroidGNx (fun k => (k : ℚ)) = 6
      ∧ spec_quadraticForm (4 * 2)
          (fun r c =>
            AssembleElement_penaltyTerm (fun x => x) 2 4 (samplePenaltyObject 2 (1 : ℚ) false)
              (1 / 4) sampleCentroidGNx 0 0 (fun _ _ => 0) r c - (0 : ℚ))
          (fun k => (k : ℚ))
        = (samplePenaltyObject 2 (1 : ℚ) false).incompressibility_Penalty * (1 / 4)
          * AssembleElement_averagedEta (fun x => x)
              (samplePenaltyObject 2 (1 : ℚ) false).viscosityWeighting 0 0
          * spec_divergence 2 4 sampleCentroidGNx (fun k => (k : ℚ)) ^ 2 :=
  ⟨Or.inl rfl, sampleCentroid_divergence,
    (C25_penalty_is_divergence_squared (fun x => x) 2 4 (samplePenaltyObject 2 (1 : ℚ) false)
      (1 / 4) sampleCentroidGNx 0 0 (fun _ _ => 0) (fun k => (k : ℚ)) (Or.inl rfl)).1⟩

/-! ### The division of line 423 -/

theorem divide_of_ne_zero {α : Type} [Field α] [DecidableEq α] (a b : α) (h : b ≠ 0) :
    AssembleElement_divide a b = Except.ok (a / b) := by
  unfold AssembleElement_divide
  rw [if_neg h]

theorem divide_zero {α : Type} [Field α] [DecidableEq α] (a : α) :
    AssembleElement_divide a 0 = Except.error "division by zero" := by
  unfold AssembleElement_divide
  rw [if_pos rfl]

/-- When the source does not divide by zero, the checked penalty step returns
the matrix of the unchecked one. -/
theorem penaltyTermChecked_ok {α : Type} [Field α] [DecidableEq α] (exp : α → α)
    (dim n : Nat) (self : ViscousPenaltyConstMatrixCartesian α) (detJac : α)
    (GN0x : Nat → Nat → α) (averaged_eta total_weight : α) (elStiffMat : Nat → Nat → α)
    (h : self.incompressibility_Penalty = 0 ∨ self.viscosityWeighting = false
      ∨ total_weight ≠ 0) :
    AssembleElement_penaltyTermChecked exp dim n self detJac GN0x averaged_eta total_weight
        elStiffMat
      = Except.ok (AssembleElement_penaltyTerm exp dim n self detJac GN0x averaged_eta
          total_weight elStiffMat) := by
  unfold AssembleElement_penaltyTermChecked AssembleElement_penaltyTerm
    AssembleElement_averagedEta
  by_cases hP : self.incompressibility_Penalty = 0
  · rw [if_neg (not_not.mpr hP), if_neg (not_not.mpr hP)]
  · rw [if_pos hP, if_pos hP]
    cases hV : self.viscosityWeighting with
    | false => rfl
    | true =>
      have ht : total_weight ≠ 0 := by
        rcases h with h | h | h
        · exact absurd h hP
        · rw [hV] at h
          exact absurd h (by decide)
        · exact h
      simp only [if_true, divide_of_ne_zero _ _ ht]
      rfl

/-- With a non-zero coefficient and viscosity weighting on, a zero
`total_weight` is divided by: nothing on the way tests it. -/
theorem penaltyTermChecked_error {α : Type} [Field α] [DecidableEq α] (exp : α → α)
    (dim n : Nat) (self : ViscousPenaltyConstMatrixCartesian α) (detJac : α)
    (GN0x : Nat → Nat → α) (averaged_eta : α) (elStiffMat : Nat → Nat → α)
    (hP : self.incompressibility_Penalty ≠ 0) (hV : self.viscosityWeighting = true) :
    AssembleElement_penaltyTermChecked exp dim n self detJac GN0x averaged_eta 0 elStiffMat
      = Except.error "division by zero" := by
  unfold AssembleElement_penaltyTermChecked
  rw [if_pos hP, hV]
  simp only [if_true, divide_zero]
  rfl

theorem AssembleElementChecked_some {α : Type} [Field α] [DecidableEq α] (log exp : α → α)
    (self : ViscousPenaltyConstMatrixCartesian α) (dim : Nat) (element : Element α)
    (sle : SystemLinearEquations) (elStiffMat : Nat → Nat → α) :
    _ViscousPenaltyConstMatrixCartesian_AssembleElementChecked log exp self dim element
        (some sle) elStiffMat
      = AssembleElement_penaltyTermChecked exp dim element.nodeCount
          (AssembleElement_quadratureLoop log self dim element sle elStiffMat).self
          element.detJac0 element.GN0x
          (AssembleElement_quadratureLoop log self dim element sle elStiffMat).averaged_eta
          (AssembleElement_quadratureLoop log self dim element sle elStiffMat).total_weight
          (AssembleElement_quadratureLoop log self dim element sle elStiffMat).elStiffMat :=
  rfl

/-- The checked call agrees with the unchecked call on a NULL solve state, and
with a solve state whenever the source does not divide by zero. -/
theorem AssembleElementChecked_eq {α : Type} [Field α] [DecidableEq α] (log exp : α → α)
    (self : ViscousPenaltyConstMatrixCartesian α) (dim : Nat) (element : Element α)
    (sle : SystemLinearEquations) (elStiffMat : Nat → Nat → α)
    (h : self.incompressibility_Penalty = 0 ∨ self.viscosityWeighting = false
      ∨ totalWeight element.particles ≠ 0) :
    _ViscousPenaltyConstMatrixCartesian_AssembleElementChecked log exp self dim element none
        elStiffMat
        = _ViscousPenaltyConstMatrixCartesian_AssembleElement log exp self dim element none
          elStiffMat
      ∧ _ViscousPenaltyConstMatrixCartesian_AssembleElementChecked log exp self dim element
          (some sle) elStiffMat
        = _ViscousPenaltyConstMatrixCartesian_AssembleElement log exp self dim element
          (some sle) elStiffMat := by
  obtain ⟨_, h2, h3⟩ := AssembleElement_quadratureLoop_self log self dim element sle elStiffMat
  obtain ⟨_, a2⟩ :=
    AssembleElement_quadratureLoop_accumulators log self dim element sle elStiffMat
  refine ⟨rfl, ?_⟩
  rw [AssembleElementChecked_some, AssembleElement_some]
  apply penaltyTermChecked_ok
  rw [h2, h3, a2]
  exact h

/-- With a non-zero coefficient and viscosity weighting on, the call on an
element whose weights sum to zero divides by zero. -/
theorem AssembleElementChecked_zero_weight {α : Type} [Field α] [DecidableEq α]
    (log exp : α → α) (self : ViscousPenaltyConstMatrixCartesian α) (dim : Nat)
    (element : Element α) (sle : SystemLinearEquations) (elStiffMat : Nat → Nat → α)
    (hP : self.incompressibility_Penalty ≠ 0) (hV : self.viscosityWeighting = true)
    (hW : totalWeight element.particles = 0) :
    _ViscousPenaltyConstMatrixCartesian_AssembleElementChecked log exp self dim element
        (some sle) elStiffMat
      = Except.error "division by zero" := by
  obtain ⟨_, h2, h3⟩ := AssembleElement_quadratureLoop_self log self dim element sle elStiffMat
  obtain ⟨_, a2⟩ :=
    AssembleElement_quadratureLoop_accumulators log self dim element sle elStiffMat
  rw [AssembleElementChecked_some, a2, hW]
  exact penaltyTermChecked_error exp dim _ _ _ _ _ _ (by rw [h2]; exact hP) (h3.trans hV)

/-- The operands recorded by `AssembleElement_averagingDivision` are those of
the division of the checked penalty step: the step takes a quotient exactly
when operands are recorded, and it is the quotient of those operands. -/
theorem penaltyTermChecked_averagingDivision {α : Type} [Field α] [DecidableEq α]
    (exp : α → α) (dim n : Nat) (self : ViscousPenaltyConstMatrixCartesian α) (detJac : α)
    (GN0x : Nat → Nat → α) (averaged_eta total_weight : α) (elStiffMat : Nat → Nat → α) :
    AssembleElement_penaltyTermChecked exp dim n self detJac GN0x averaged_eta total_weight
        elStiffMat
      = match AssembleElement_averagingDivision self averaged_eta total_weight with
        | some operands =>
          (AssembleElement_divide operands.1 operands.2).map fun _ =>
            AssembleElement_penaltyTerm exp dim n self detJac GN0x averaged_eta total_weight
              elStiffMat
        | none =>
          Except.ok (AssembleElement_penaltyTerm exp dim n self detJac GN0x averaged_eta
            total_weight elStiffMat) := by
  by_cases hP : self.incompressibility_Penalty = 0
  · rw [(averagingDivision_spec exp self averaged_eta total_weight).1 hP]
    exact penaltyTermChecked_ok exp dim n self detJac GN0x averaged_eta total_weight elStiffMat
      (Or.inl hP)
  · cases hV : self.viscosityWeighting with
    | false =>
      rw [((averagingDivision_spec exp self averaged_eta total_weight).2.2 hP hV).1]
      exact penaltyTermChecked_ok exp dim n self detJac GN0x averaged_eta total_weight
        elStiffMat (Or.inr (Or.inl hV))
    | true =>
      rw [((averagingDivision_spec exp self averaged_eta total_weight).2.1 hP hV).1]
      by_cases ht : total_weight = 0
      · subst ht
        rw [penaltyTermChecked_error exp dim n self detJac GN0x averaged_eta elStiffMat hP hV]
        simp only [divide_zero]
        rfl
      · rw [penaltyTermChecked_ok exp dim n self detJac GN0x averaged_eta total_weight
          elStiffMat (Or.inr (Or.inr ht))]
        simp only [divide_of_ne_zero _ _ ht]
        rfl

/-- C17 (amended): the zero-total-weight case is not guarded in
`AssembleElement`. With `incompressibility_Penalty != 0` and
`viscosityWeighting = true` the call performs the division
`logSum / totalWeight` for every element: when the weights of the element sum
to zero (in particular when it has no quadrature point) the call divides by
zero; when they do not, of either sign, it returns the matrix of the penalty
loops run with `averaged_eta = totalWeight * exp(logSum / totalWeight)`. -/
theorem C17_averaging_is_not_guarded {α : Type} [Field α] [DecidableEq α] (log exp : α → α)
    (self : ViscousPenaltyConstMatrixCartesian α) (dim : Nat) (element : Element α)
    (sle : SystemLinearEquations) (elStiffMat : Nat → Nat → α)
    (hP : self.incompressibility_Penalty ≠ 0) (hV : self.viscosityWeighting = true) :
    (totalWeight element.particles = 0 →
        _ViscousPenaltyConstMatrixCartesian_AssembleElementChecked log exp self dim element
            (some sle) elStiffMat
          = Except.error "division by zero")
      ∧ (totalWeight element.particles ≠ 0 →
        _ViscousPenaltyConstMatrixCartesian_AssembleElementChecked log exp self dim element
            (some sle) elStiffMat
          = Except.ok ((List.range element.nodeCount).foldl
              (fun K rowNode_I =>
                (List.range element.nodeCount).foldl
                  (AssembleElement_penaltyColNodeBody dim self.incompressibility_Penalty
                    element.detJac0
                    (totalWeight element.particles
                      * exp (logSum log element.particles / totalWeight element.particles))
                    element.GN0x rowNode_I) K)
              (AssembleElement_quadratureLoop log self dim element sle elStiffMat).elStiffMat)
          ∧ _ViscousPenaltyConstMatrixCartesian_AssembleElementChecked log exp self dim
              element (some sle) elStiffMat
            = _ViscousPenaltyConstMatrixCartesian_AssembleElement log exp self dim element
              (some sle) elStiffMat) := by
  refine ⟨AssembleElementChecked_zero_weight log exp self dim element sle elStiffMat hP hV,
    fun hW => ?_⟩
  have h := (AssembleElementChecked_eq log exp self dim element sle elStiffMat
    (Or.inr (Or.inr hW))).2
  refine ⟨?_, h⟩
  rw [h, AssembleElement_nonzero_penalty log exp self dim element sle elStiffMat hP, hV]
  rfl

/-- Witness of C17 (amended): the unit-square element with four points of
weight 1, penalty coefficient 1 and viscosity weighting on, where the total
weight is 4 and the division is defined. -/
theorem C17_averaging_is_not_guarded_witness :
    (samplePenaltyObject 2 (1 : ℚ) true).incompressibility_Penalty ≠ 0
      ∧ (samplePenaltyObject 2 (1 : ℚ) true).viscosityWeighting = true
      ∧ totalWeight (sampleUniformElement [1, 1, 1, (1 : ℚ)] 2).particles ≠ 0
      ∧ _ViscousPenaltyConstMatrixCartesian_AssembleElementChecked (fun x => x) (fun x => x)
          (samplePenaltyObject 2 (1 : ℚ) true) 2 (sampleUniformElement [1, 1, 1, 1] 2)
          (some samplePicard) (fun _ _ => 0)
        = _ViscousPenaltyConstMatrixCartesian_AssembleElement (fun x => x) (fun x => x)
          (samplePenaltyObject 2 (1 : ℚ) true) 2 (sampleUniformElement [1, 1, 1, 1] 2)
          (some samplePicard) (fun _ _ => 0) := by
  have hW : totalWeight (sampleUniformElement [1, 1, 1, (1 : ℚ)] 2).particles ≠ 0 := by
    show (1 : ℚ) + (1 + (1 + (1 + 0))) ≠ 0
    norm_num
  exact ⟨one_ne_zero, rfl, hW,
    ((C17_averaging_is_not_guarded (fun x => x) (fun x => x)
      (samplePenaltyObject 2 (1 : ℚ) true) 2 (sampleUniformElement [1, 1, 1, 1] 2)
      samplePicard (fun _ _ => 0) one_ne_zero rfl).2 hW).2⟩

/-- C17 as stated fails on an element with no quadrature point and on an
element whose two weights 1 and -1 sum to zero: with penalty coefficient 1 and
viscosity weighting on, the call divides by the zero `total_weight` in both
cases instead of skipping the penalty term. -/
theorem C17_empty_element_counterexample :
    (samplePenaltyObject 2 (1 : ℚ) true).incompressibility_Penalty ≠ 0
      ∧ (samplePenaltyObject 2 (1 : ℚ) true).viscosityWeighting = true
      ∧ (sampleUniformElement ([] : List ℚ) 2).particles = []
      ∧ _ViscousPenaltyConstMatrixCartesian_AssembleElementChecked (fun x => x) (fun x => x)
          (samplePenaltyObject 2 (1 : ℚ) true) 2 (sampleUniformElement [] 2)
          (some samplePicard) (fun _ _ => 0)
        = Except.error "division by zero"
      ∧ totalWeight (sampleUniformElement [1, (-1 : ℚ)] 2).particles = 0
      ∧ _ViscousPenaltyConstMatrixCartesian_AssembleElementChecked (fun x => x) (fun x => x)
          (samplePenaltyObject 2 (1 : ℚ) true) 2 (sampleUniformElement [1, -1] 2)
          (some samplePicard) (fun _ _ => 0)
        = Except.error "division by zero" := by
  have hW : totalWeight (sampleUniformElement [1, (-1 : ℚ)] 2).particles = 0 := by
    show (1 : ℚ) + (-1 + 0) = 0
    norm_num
  exact ⟨one_ne_zero, rfl, rfl,
    AssembleElementChecked_zero_weight _ _ _ 2 _ samplePicard _ one_ne_zero rfl rfl, hW,
    AssembleElementChecked_zero_weight _ _ _ 2 _ samplePicard _ one_ne_zero rfl hW⟩

/-! ### Uniform viscosity in 2D -/

/-- For a 2D object the viscosity reported by the tensor assembled for a point
is the entry `[2][2]`, the entry read at line 310. -/
theorem GetIsotropicViscosity_Assemble_2D {α : Type} (self : ConstitutiveMatrix α)
    (particle : IntegrationPoint α) (hdim : self.dim = 2) :
    ConstitutiveMatrix_GetIsotropicViscosity (ConstitutiveMatrix_Assemble self particle)
      = particle.matrixData 2 2 := by
  show (if self.dim = 2 then particle.matrixData 2 2 else particle.matrixData 3 3)
    = particle.matrixData 2 2
  rw [if_pos hdim]

/-- C14 (amended): in 2D, with `viscosityWeighting = true`, `N >= 1` points of
positive weights whose tensors all report the same viscosity `eta > 0`
(`GetIsotropicViscosity` of the tensor assembled for the point), the averaged
viscosity computed by `AssembleElement` over the reals is `totalWeight * eta`:
the common viscosity scaled by the sum of the weights. It equals `eta` exactly
when the weights sum to 1, and with a non-zero penalty coefficient the call
returns the matrix of the penalty loops run with `totalWeight * eta`. -/
theorem C14_uniform_viscosity_average (self : ViscousPenaltyConstMatrixCartesian ℝ)
    (element : Element ℝ) (sle : SystemLinearEquations)
    (elStiffMat : Nat → Nat → ℝ) (eta : ℝ)
    (hdim : self.dim = 2) (hN : element.particles ≠ []) (heta : 0 < eta)
    (hw : ∀ p ∈ element.particles, 0 < p.weight)
    (hu : ∀ p ∈ element.particles,
      ConstitutiveMatrix_GetIsotropicViscosity
        (ConstitutiveMatrix_Assemble self.toConstitutiveMatrix p) = eta) :
    AssembleElement_averagedEta Real.exp true
        (AssembleElement_quadratureLoop Real.log self 2 element sle elStiffMat).averaged_eta
        (AssembleElement_quadratureLoop Real.log self 2 element sle elStiffMat).total_weight
        = totalWeight element.particles * eta
      ∧ (AssembleElement_averagedEta Real.exp true
          (AssembleElement_quadratureLoop Real.log self 2 element sle elStiffMat).averaged_eta
          (AssembleElement_quadratureLoop Real.log self 2 element sle elStiffMat).total_weight
          = eta
        ↔ totalWeight element.particles = 1)
      ∧ (self.incompressibility_Penalty ≠ 0 → self.viscosityWeighting = true →
        _ViscousPenaltyConstMatrixCartesian_AssembleElement Real.log Real.exp self 2 element
            (some sle) elStiffMat
          = Except.ok ((List.range element.nodeCount).foldl
              (fun K rowNode_I =>
                (List.range element.nodeCount).foldl
                  (AssembleElement_penaltyColNodeBody 2 self.incompressibility_Penalty
                    element.detJac0 (totalWeight element.particles * eta) element.GN0x
                    rowNode_I) K)
              (AssembleElement_quadratureLoop Real.log self 2 element sle
                elStiffMat).elStiffMat)) := by
  have hu2 : ∀ p ∈ element.particles, p.matrixData 2 2 = eta := fun p hp =>
    (GetIsotropicViscosity_Assemble_2D self.toConstitutiveMatrix p hdim).symm.trans (hu p hp)
  have hW := totalWeight_pos element.particles hN hw
  have h := quadratureLoop_averagedEta_uniform Real.log Real.exp self 2 element sle
    elStiffMat eta hu2 (Real.exp_log heta) (ne_of_gt hW)
  refine ⟨h, ?_, ?_⟩
  · rw [h]
    constructor
    · intro h1
      exact mul_right_cancel₀ (ne_of_gt heta) (h1.trans (one_mul eta).symm)
    · intro h1
      rw [h1, one_mul]
  · intro hP hV
    rw [AssembleElement_nonzero_penalty Real.log Real.exp self 2 element sle elStiffMat hP, hV,
      if_pos rfl, logSum_uniform Real.log _ eta hu2, mul_div_cancel_left₀ _ (ne_of_gt hW),
      Real.exp_log heta]

theorem sampleUniformElement_reports (ws : List ℝ) (eta penalty : ℝ) (vw : Bool) :
    ∀ p ∈ (sampleUniformElement ws eta).particles,
      ConstitutiveMatrix_GetIsotropicViscosity
        (ConstitutiveMatrix_Assemble (samplePenaltyObject 2 penalty vw).toConstitutiveMatrix p)
        = eta := by
  intro p hp
  rw [GetIsotropicViscosity_Assemble_2D _ p rfl]
  exact sampleUniformElement_uniform ws eta p hp

/-- Witness of C14 (amended): on a 2D object, four points of weight 1 and
viscosity 2 give the averaged viscosity `4 * 2`. -/
theorem C14_uniform_viscosity_average_witness :
    (samplePenaltyObject 2 (1 : ℝ) true).dim = 2
      ∧ (sampleUniformElement [1, 1, 1, (1 : ℝ)] 2).particles ≠ []
      ∧ (0 : ℝ) < 2
      ∧ (∀ p ∈ (sampleUniformElement [1, 1, 1, (1 : ℝ)] 2).particles, 0 < p.weight)
      ∧ (∀ p ∈ (sampleUniformElement [1, 1, 1, (1 : ℝ)] 2).particles,
        ConstitutiveMatrix_GetIsotropicViscosity
          (ConstitutiveMatrix_Assemble
            (samplePenaltyObject 2 (1 : ℝ) true).toConstitutiveMatrix p) = 2)
      ∧ AssembleElement_averagedEta Real.exp true
          (AssembleElement_quadratureLoop Real.log (samplePenaltyObject 2 (1 : ℝ) true) 2
            (sampleUniformElement [1, 1, 1, 1] 2) samplePicard (fun _ _ => 0)).averaged_eta
          (AssembleElement_quadratureLoop Real.log (samplePenaltyObject 2 (1 : ℝ) true) 2
            (sampleUniformElement [1, 1, 1, 1] 2) samplePicard (fun _ _ => 0)).total_weight
        = totalWeight (sampleUniformElement [1, 1, 1, (1 : ℝ)] 2).particles * 2 :=
  ⟨rfl, List.cons_ne_nil _ _, two_pos, sampleUniformElement_weights,
    sampleUniformElement_reports _ 2 1 true,
    (C14_uniform_viscosity_average (samplePenaltyObject 2 (1 : ℝ) true)
      (sampleUniformElement [1, 1, 1, 1] 2) samplePicard (fun _ _ => 0) 2 rfl
      (List.cons_ne_nil _ _) two_pos sampleUniformElement_weights
      (sampleUniformElement_reports _ 2 1 true)).1⟩

/-- C14 as stated fails on a 2D object and four points of weight 1 whose
tensors all report the viscosity 3: the averaged viscosity computed by
`AssembleElement` is 12, not 3. -/
theorem C14_weights_scale_average_counterexample :
    (samplePenaltyObject 2 (1 : ℝ) true).dim = 2
      ∧ (sampleUniformElement [1, 1, 1, (1 : ℝ)] 3).particles.length = 4
      ∧ (∀ p ∈ (sampleUniformElement [1, 1, 1, (1 : ℝ)] 3).particles,
        p.weight = 1
          ∧ ConstitutiveMatrix_GetIsotropicViscosity
            (ConstitutiveMatrix_Assemble
              (samplePenaltyObject 2 (1 : ℝ) true).toConstitutiveMatrix p) = 3)
      ∧ AssembleElement_averagedEta Real.exp true
          (AssembleElement_quadratureLoop Real.log (samplePenaltyObject 2 (1 : ℝ) true) 2
            (sampleUniformElement [1, 1, 1, 1] 3) samplePicard (fun _ _ => 0)).averaged_eta
          (AssembleElement_quadratureLoop Real.log (samplePenaltyObject 2 (1 : ℝ) true) 2
            (sampleUniformElement [1, 1, 1, 1] 3) samplePicard (fun _ _ => 0)).total_weight
        = 12
      ∧ (12 : ℝ) ≠ 3 := by
  refine ⟨rfl, rfl, ?_, ?_, by norm_num⟩
  · intro p hp
    refine ⟨?_, sampleUniformElement_reports _ 3 1 true p hp⟩
    obtain ⟨w, hw, rfl⟩ := List.mem_map.mp hp
    simp only [List.mem_cons, List.mem_singleton, List.not_mem_nil, or_false, or_self] at hw
    rw [hw]
    rfl
  · rw [quadratureLoop_averagedEta_uniform Real.log Real.exp _ 2 _ samplePicard _ 3
      (sampleUniformElement_uniform _ 3) (Real.exp_log (by norm_num))
      (by rw [sampleUniformElement_totalWeight]; norm_num),
      sampleUniformElement_totalWeight]
    norm_num

end ViscousPenalty
